import Mathlib

/-!
# Verification of the messaging package (`zaws`)

A shallow embedding of the retry wrapper (`messaging/retry.go`,
`messaging/retry_options.go`), of the SQS listener (`messaging/listener.go`),
of the multi-topic handler (`messaging/multi_topic_handler.go`), of the
queue and topic set-up (`messaging/manager.go`, `messaging/queue_setup.go`,
`messaging/topic_setup.go`, `messaging/tagging.go`) and of the topics
publisher (`messaging/topics_publisher.go`), followed by the theorems
settled about them.

Conventions of the embedding:

* a Go `error` value is a `GoError`; the `nil` error is `none`;
* Go `int` and `time.Duration` (an `int64` count of nanoseconds) are `Int`;
* a Go closure with hidden state (`func() error`) is a function
  `σ → Option GoError × σ` over an explicit state `σ`;
* side effects that the claims count (executions, sleeps, handler calls,
  delete requests, log lines, requests to the service) are recorded in an
  explicit trace;
* a Go `map[string]string` is a list of entries with one entry per key, and
  the JSON library is a parameter of the functions that call it.
-/

namespace Zaws

/-! ## Errors -/

/-- A Go `error` value.  `throttled` records whether
`errors.As(err, &throttledErr)` with `throttledErr *types.ThrottledException`
succeeds on it. -/
structure GoError where
  text : String
  throttled : Bool
  deriving DecidableEq, Repr

/-! ## `retry_options.go` -/

/-- The constant `time.Millisecond`, in nanoseconds. -/
def Millisecond : Int := 1000000

/-- The constant `time.Second`, in nanoseconds. -/
def Second : Int := 1000000000

/-- `const DefaultWaitBase = 1 * time.Second`. -/
def DefaultWaitBase : Int := 1 * Second

/-- `const DefaultAttempts = 3`. -/
def DefaultAttempts : Int := 3

/-- `const DefaultBackoff = false`. -/
def DefaultBackoff : Bool := false

/-- `type RetryConfig struct`. -/
structure RetryConfig where
  Attempts : Int
  WaitBase : Int
  Backoff : Bool
  deriving DecidableEq, Repr

/-- `type Option func(config *RetryConfig)`: an in-place update of the
configuration, as a function from the old to the new value. -/
abbrev RetryOption := RetryConfig → RetryConfig

/-- `func (c *RetryConfig) Defaults()`.  It overwrites all three fields. -/
def RetryConfig.Defaults (_c : RetryConfig) : RetryConfig :=
  { Attempts := DefaultAttempts, WaitBase := DefaultWaitBase, Backoff := DefaultBackoff }

/-- `func WithExponentialBackoff(attempts int, waitBase time.Duration) Option`. -/
def WithExponentialBackoff (attempts : Int) (waitBase : Int) : RetryOption :=
  fun config => { config with Backoff := true, Attempts := attempts, WaitBase := waitBase }

/-- `func WithConstant(attempts int, waitBase time.Duration) Option`. -/
def WithConstant (attempts : Int) (waitBase : Int) : RetryOption :=
  fun config => { config with Attempts := attempts, WaitBase := waitBase }

/-! ## Go runtime pieces used by `defaultRetry` -/

/-- Largest `int64`, which is also `maxDuration` of package `time`. -/
def maxInt64 : Int := 9223372036854775807

/-- Smallest `int64`, which is also `minDuration` of package `time`. -/
def minInt64 : Int := -9223372036854775808

/-- Truncation of a rational towards zero, the rounding of Go's conversion of
a floating-point value to an integer type. -/
def truncToInt (x : ℚ) : Int :=
  if 0 ≤ x then ⌊x⌋ else ⌈x⌉

/-- What `defaultRetry` takes from its environment besides the operation.

* `Float64 i` is the value of `random.Float64()` drawn in loop iteration `i`
  (a fresh generator seeded from the clock on every iteration), a number of
  `[0,1)`.
* `round64 x` is the `float64` nearest to the exact value `x`: every
  floating-point operation returns its exact result rounded so.
* `outOfRange x` is the result of converting to `int64` a floating-point
  value `x` that `int64` cannot represent; Go leaves that value to the
  implementation.
* `infProduct b` is the result of converting to `int64` the product of
  `float64(b)` and `+Inf` (an infinity or a NaN), again left to the
  implementation. -/
structure Runtime where
  Float64 : Nat → ℚ
  round64 : ℚ → ℚ
  outOfRange : ℚ → Int
  infProduct : Int → Int

/-- The conversion `time.Duration(x)` of a `float64` value `x`: truncation
towards zero when the result fits `int64`, the implementation's value
otherwise. -/
def float64ToDuration (rt : Runtime) (x : ℚ) : Int :=
  if minInt64 ≤ truncToInt x ∧ truncToInt x ≤ maxInt64 then truncToInt x else rt.outOfRange x

/-- `lessThanHalf(x, y)` of package `time`: `uint64(x)+uint64(x) < uint64(y)`,
for `0 ≤ x` and `0 < y`. -/
def lessThanHalf (x y : Int) : Bool :=
  decide ((x + x) % 2 ^ 64 < y % 2 ^ 64)

/-- `func (d Duration) Round(m Duration) Duration` of package `time`: the
multiple of `m` nearest to `d`, halfway values rounded away from zero, and
the extreme duration when the result would overflow. -/
def Duration.Round (d m : Int) : Int :=
  if m ≤ 0 then d
  else
    let r := Int.tmod d m
    if d < 0 then
      let r := -r
      if lessThanHalf r m then d + r
      else
        let d1 := d - m + r
        if minInt64 ≤ d1 then d1 else minInt64
    else
      if lessThanHalf r m then d - r
      else
        let d1 := d + m - r
        if d1 ≤ maxInt64 then d1 else maxInt64

/-- The wait of the exponential mode, lines 47 to 51 of `retry.go`, in loop
iteration `i` (0-based) with jitter factor `r`:
`exp := math.Exp2(float64(i + 1))`,
`time.Duration(float64(WaitBase) * exp)`, `.Round(time.Millisecond)`,
`time.Duration(float64(waitDuration) * r)`.
`math.Exp2` is exact up to the exponent 1023 and `+Inf` from 1024 on. -/
def backoffWait (rt : Runtime) (waitBase : Int) (i : Nat) (r : ℚ) : Int :=
  let waitDuration :=
    if i + 1 < 1024 then
      let exp : ℚ := 2 ^ (i + 1)
      float64ToDuration rt (rt.round64 (rt.round64 (waitBase : ℚ) * exp))
    else rt.infProduct waitBase
  let waitDuration := Duration.Round waitDuration Millisecond
  float64ToDuration rt (rt.round64 (rt.round64 (waitDuration : ℚ) * r))

/-- The duration passed to `time.Sleep` in loop iteration `i`, lines 45 to 52
of `retry.go`. -/
def waitDuration (rt : Runtime) (config : RetryConfig) (i : Nat) : Int :=
  if config.Backoff then backoffWait rt config.WaitBase i (rt.Float64 i)
  else config.WaitBase

/-! ## `retry.go` -/

/-- What `defaultRetry` does that can be observed from outside, in order. -/
inductive RetryEvent where
  /-- One execution `err = function()` and its result. -/
  | call (result : Option GoError)
  /-- One `time.Sleep(waitDuration)`. -/
  | sleep (d : Int)
  deriving DecidableEq, Repr

/-- The result of one run of `defaultRetry`: the returned error, the trace of
executions and sleeps, and the final state of the operation. -/
structure RetryRun (σ : Type) where
  err : Option GoError
  trace : List RetryEvent
  state : σ

/-- The configuration `defaultRetry` works with: `config.Defaults()` on the
zero value, then every option in order (lines 30 to 37). -/
def applyOptions (opts : List RetryOption) : RetryConfig :=
  opts.foldl (fun config option => option config)
    (RetryConfig.Defaults { Attempts := 0, WaitBase := 0, Backoff := false })

/-- The loop `for i = 0; i <= config.Attempts; i++` of `defaultRetry`, from
index `i` on with `remaining` iterations left; `err` is the current value of
the variable `err`, `w` the state of the operation and `trace` what has
happened so far. -/
def retryLoop {σ : Type} (function : σ → Option GoError × σ) (rt : Runtime)
    (config : RetryConfig) :
    (remaining : Nat) → (i : Nat) → (err : Option GoError) → (w : σ) →
      (trace : List RetryEvent) → RetryRun σ
  | 0, _, err, w, trace => { err := err, trace := trace, state := w }
  | remaining + 1, i, _, w, trace =>
    let (err, w) := function w
    let trace := trace ++ [RetryEvent.call err]
    match err with
    | none => { err := none, trace := trace, state := w }
    | some e =>
      if !e.throttled then { err := some e, trace := trace, state := w }
      else
        retryLoop function rt config remaining (i + 1) (some e) w
          (trace ++ [RetryEvent.sleep (waitDuration rt config i)])

/-- `func defaultRetry(function func() error, opts ...Option) error`.  The
loop runs for `i = 0, ..., config.Attempts`, that is `Attempts + 1` times
when `Attempts ≥ 0` and not at all otherwise (the index `i` is taken not to
wrap around, which would need `2^63` iterations). -/
def defaultRetry {σ : Type} (function : σ → Option GoError × σ) (rt : Runtime)
    (opts : List RetryOption) (w : σ) : RetryRun σ :=
  let config := applyOptions opts
  retryLoop function rt config (config.Attempts + 1).toNat 0 none w []

/-- `func Retry(publishFunc publishFunc, message string, opts ...Option) error`:
the operation is `publishFunc(message)`. -/
def Retry {σ : Type} (publishFunc : String → σ → Option GoError × σ) (message : String)
    (rt : Runtime) (opts : List RetryOption) (w : σ) : RetryRun σ :=
  defaultRetry (fun w => publishFunc message w) rt opts w

/-- `func RetryWithAttributes(...)`: the operation is
`publishFunc(message, attributes)`. -/
def RetryWithAttributes {σ : Type}
    (publishFunc : String → List (String × String) → σ → Option GoError × σ)
    (message : String) (attributes : List (String × String))
    (rt : Runtime) (opts : List RetryOption) (w : σ) : RetryRun σ :=
  defaultRetry (fun w => publishFunc message attributes w) rt opts w

/-- Number of executions of the operation in a trace. -/
def executions (trace : List RetryEvent) : Nat :=
  (trace.filter fun e => match e with | .call _ => true | .sleep _ => false).length

/-- The durations of the sleeps of a trace, in order. -/
def waits (trace : List RetryEvent) : List Int :=
  trace.filterMap fun e => match e with | .call _ => none | .sleep d => some d

/-- The state of the operation before its `j`-th execution (0-based), when it
starts in state `w`. -/
def stateBefore {σ : Type} (function : σ → Option GoError × σ) (w : σ) : Nat → σ
  | 0 => w
  | j + 1 => stateBefore function (function w).2 j

/-- The result of the `j`-th execution (0-based) of the operation started in
state `w`. -/
def resultAt {σ : Type} (function : σ → Option GoError × σ) (w : σ) (j : Nat) : Option GoError :=
  (function (stateBefore function w j)).1

/-- Whether a result is a throttling error. -/
def isThrottle : Option GoError → Bool
  | none => false
  | some e => e.throttled

/-! ### The operation of `retry_test.go` -/

/-- `var errReturn = errors.New("wanted error")`. -/
def errReturn : GoError := { text := "wanted error", throttled := false }

/-- `var errThrottle = &types.ThrottledException{}`. -/
def errThrottle : GoError := { text := "ThrottledException", throttled := true }

/-- `func (r *retryCounter) RetryPublish(message string) error` of the test,
with the field `runs` as the state. -/
def RetryPublish (timesThrottled : Int) (_message : String) (runs : Int) : Option GoError × Int :=
  let runs := runs + 1
  if runs > timesThrottled then (some errReturn, runs) else (some errThrottle, runs)

/-- A runtime for examples: jitter factor `3/4` on every draw, every value
exactly representable, `minInt64` for the conversions left to the
implementation. -/
def testRuntime : Runtime :=
  { Float64 := fun _ => 3 / 4,
    round64 := fun x => x,
    outOfRange := fun _ => minInt64,
    infProduct := fun _ => minInt64 }

/-- The trace of `k` consecutive throttled executions starting at loop index
`i` in state `w`: each execution is followed by its sleep. -/
def throttledTrace {σ : Type} (function : σ → Option GoError × σ) (rt : Runtime)
    (config : RetryConfig) : (k : Nat) → (i : Nat) → (w : σ) → List RetryEvent
  | 0, _, _ => []
  | k + 1, i, w =>
    RetryEvent.call (function w).1 :: RetryEvent.sleep (waitDuration rt config i) ::
      throttledTrace function rt config k (i + 1) (function w).2

/-- The value of the variable `err` after `k` throttled executions, when it
was `err` before the first of them. -/
def errAfter {σ : Type} (function : σ → Option GoError × σ) (err : Option GoError) (w : σ) :
    Nat → Option GoError
  | 0 => err
  | k + 1 => resultAt function w k

/-- The operation of the spec's scenario: it throttles `timesThrottled` times
and then succeeds.  The state is the number of runs so far. -/
def throttleThenSucceed (timesThrottled : Int) (_message : String) (runs : Int) :
    Option GoError × Int :=
  let runs := runs + 1
  if runs > timesThrottled then (none, runs) else (some errThrottle, runs)

/-! ## `listener.go` -/

/-- `types.Message` of the SQS SDK: the fields the listener reads.  The SDK
declares them as `*string`, so each may be absent. -/
structure Message where
  MessageId : Option String
  Body : Option String
  ReceiptHandle : Option String
  deriving DecidableEq, Repr

/-- `sqs.DeleteMessageInput`. -/
structure DeleteMessageInput where
  QueueUrl : Option String
  ReceiptHandle : Option String
  deriving DecidableEq, Repr

/-- `sqs.ReceiveMessageInput`, the fields `Listen` sets. -/
structure ReceiveMessageInput where
  QueueUrl : Option String
  WaitTimeSeconds : Int
  MaxNumberOfMessages : Int
  MessageAttributeNames : List String
  deriving DecidableEq, Repr

/-- `type SQSListener struct`.  The collaborators are functions over the state
`σ` of the outside world:

* `ReceiveMessage` is `sqsClient.ReceiveMessage`; it returns the messages of
  the output (`none` for a nil output) and the error;
* `DeleteMessage` is `sqsClient.DeleteMessage`, of which only the error is
  read;
* `Handle` is `handler.Handle`.

The logger and the handler are taken to be set (not nil). -/
structure SQSListener (σ : Type) where
  queueName : String
  queueURL : Option String
  ReceiveMessage : ReceiveMessageInput → σ → (Option (List Message) × Option GoError) × σ
  DeleteMessage : DeleteMessageInput → σ → Option GoError × σ
  Handle : Message → σ → Option GoError × σ
  receiveMessageWaitSeconds : Int
  maxNumberOfMessages : Int

/-- What a task of the listener does that can be observed from outside. -/
inductive ListenerEvent where
  /-- One call `l.handler.Handle(message)` and its result. -/
  | handle (message : Message) (result : Option GoError)
  /-- One call `l.sqsClient.DeleteMessage(ctx, input)` and its error. -/
  | delete (input : DeleteMessageInput) (result : Option GoError)
  /-- One call `l.logger.Error(text)`. -/
  | logError (text : String)
  deriving DecidableEq, Repr

/-- The result of running one function of the listener: whether it panicked,
what it did, and the state of the world afterwards. -/
structure TaskRun (σ : Type) where
  panicked : Bool
  trace : List ListenerEvent
  state : σ

/-- `func (l *SQSListener) deleteMessage(message types.Message) error`: the
error, the events and the new state of the world. -/
def deleteMessage {σ : Type} (l : SQSListener σ) (message : Message) (w : σ) :
    Option GoError × List ListenerEvent × σ :=
  let input : DeleteMessageInput :=
    { QueueUrl := l.queueURL, ReceiptHandle := message.ReceiptHandle }
  let (err, w) := l.DeleteMessage input w
  match err with
  | some e => (some e, [ListenerEvent.delete input (some e)], w)
  | none => (none, [ListenerEvent.delete input none], w)

/-- `func (l *SQSListener) handleMessage(message types.Message)`.  In the
error branch `*message.Body` is evaluated first: on a message without a body
this is a nil pointer dereference, a run-time panic. -/
def handleMessage {σ : Type} (l : SQSListener σ) (message : Message) (w : σ) : TaskRun σ :=
  let (err, w) := l.Handle message w
  let trace := [ListenerEvent.handle message err]
  match err with
  | some e =>
    match message.Body with
    | none => { panicked := true, trace := trace, state := w }
    | some body =>
      { panicked := false,
        trace := trace ++ [ListenerEvent.logError body, ListenerEvent.logError e.text],
        state := w }
  | none =>
    let (err, events, w) := deleteMessage l message w
    match err with
    | some e =>
      { panicked := false, trace := trace ++ events ++ [ListenerEvent.logError e.text],
        state := w }
    | none => { panicked := false, trace := trace ++ events, state := w }

/-- The messages passed to the handler in a trace, in order. -/
def handlerCalls (trace : List ListenerEvent) : List Message :=
  trace.filterMap fun e => match e with | .handle m _ => some m | _ => none

/-- The delete requests issued in a trace, in order. -/
def deleteRequests (trace : List ListenerEvent) : List DeleteMessageInput :=
  trace.filterMap fun e => match e with | .delete input _ => some input | _ => none

/-- Whether a trace holds a handler call that returned no error. -/
def handlerSucceeded (trace : List ListenerEvent) : Bool :=
  trace.any fun e => match e with | .handle _ none => true | _ => false

/-- The conversion `int32(x)` of a Go `int`: the value modulo `2^32`, in the
signed range. -/
def toInt32 (x : Int) : Int :=
  (x + 2 ^ 31) % 2 ^ 32 - 2 ^ 31

/-- The request that `func (l *SQSListener) Listen()` builds and polls with. -/
def listenRequest {σ : Type} (l : SQSListener σ) : ReceiveMessageInput :=
  { QueueUrl := l.queueURL,
    WaitTimeSeconds := toInt32 l.receiveMessageWaitSeconds,
    MaxNumberOfMessages := toInt32 l.maxNumberOfMessages,
    MessageAttributeNames := ["All"] }

/-! ### The poll loop and its tasks

`poll` runs in one goroutine and starts one goroutine per received message.
The embedding is a transition system: a state holds the position of the
loop, the shared shutdown coordinator and every task started so far; an
action says which goroutine (or the environment) moves next.  A task moves
twice: once for the whole call of `handleMessage` (its handler call and its
delete call are not interleaved with the steps of other goroutines), once
for the deferred `Done`.  A panic that nothing recovers ends the process
after the deferred calls of its goroutine: no step follows it. -/

/-- Where a task stands: started by `go func(...)`; back from `handleMessage`
with the deferred `Done` still to run; unwinding a panic of `handleMessage`
with the deferred `Done` still to run; or over. -/
inductive TaskStatus where
  | spawned
  | returned
  | panicking
  | finished
  deriving DecidableEq, Repr

/-- One goroutine started by the poll loop: its message, where it stands and
what it has done. -/
structure Task where
  message : Message
  status : TaskStatus
  trace : List ListenerEvent
  deriving DecidableEq, Repr

/-- The task that `go func(message types.Message) {...}(m)` starts. -/
def newTask (m : Message) : Task :=
  { message := m, status := TaskStatus.spawned, trace := [] }

/-- Where the poll loop stands: at the `select`; inside
`for _, m := range retrieveMessageResponse.Messages` with `rest` still to
go; blocked in `ShutdownWaitGroup.Wait()`; or returned. -/
inductive LoopPc where
  | select
  | dispatch (rest : List Message)
  | wait
  | returned
  deriving DecidableEq, Repr

/-- Modelled from the spec: the package `gracefulshutdown` (the type `Manager`
with its `ShutdownChannel` and `ShutdownWaitGroup`) is not among the sources.
The spec gives it a one-shot notification and a live-task counter that goes
up on task start and down on task end, the drain wait returning when the
counter is zero; `signalled` and `counter` are these two.  A counter driven
below zero is the panic of `sync.WaitGroup`.  The other fields are the
position of the loop, the tasks in the order they were started, the lines
the loop itself logged, the outside world, and whether the process has died
of a panic. -/
structure PollState (σ : Type) where
  pc : LoopPc
  signalled : Bool
  counter : Int
  tasks : List Task
  log : List String
  world : σ
  crashed : Bool

/-- Who moves next: the environment fires the shutdown signal, the poll loop
takes its next step, task `i` runs `handleMessage`, or task `i` runs its
deferred `ShutdownWaitGroup.Done()`. -/
inductive Action where
  | signal
  | loop
  | run (i : Nat)
  | done (i : Nat)
  deriving DecidableEq, Repr

/-- One step of the loop of `func (l *SQSListener) poll(request)`. -/
def loopStep {σ : Type} (l : SQSListener σ) (request : ReceiveMessageInput)
    (s : PollState σ) : Option (PollState σ) :=
  match s.pc with
  | LoopPc.select =>
    if s.signalled then some { s with pc := LoopPc.wait }
    else
      let (response, w) := l.ReceiveMessage request s.world
      match response with
      | (_, some err) => some { s with log := s.log ++ [err.text], world := w }
      | (none, none) => some { s with world := w, crashed := true }
      | (some messages, none) =>
        if messages.length < 1 then some { s with world := w }
        else some { s with pc := LoopPc.dispatch messages, world := w }
  | LoopPc.dispatch [] => some { s with pc := LoopPc.select }
  | LoopPc.dispatch (m :: rest) =>
    some { s with
      pc := LoopPc.dispatch rest,
      counter := s.counter + 1,
      tasks := s.tasks ++ [newTask m] }
  | LoopPc.wait => if s.counter = 0 then some { s with pc := LoopPc.returned } else none
  | LoopPc.returned => none

/-- Task `i` runs `l.handleMessage(message)`. -/
def runStep {σ : Type} (l : SQSListener σ) (i : Nat) (s : PollState σ) :
    Option (PollState σ) :=
  match s.tasks[i]? with
  | none => none
  | some t =>
    if t.status = TaskStatus.spawned then
      let r := handleMessage l t.message s.world
      some { s with
        tasks := s.tasks.set i
          { t with
            status := if r.panicked then TaskStatus.panicking else TaskStatus.returned,
            trace := r.trace },
        world := r.state }
    else none

/-- Task `i` runs `defer l.gracefulShutdownManager.ShutdownWaitGroup.Done()`;
after a panic of `handleMessage` the process then dies. -/
def doneStep {σ : Type} (i : Nat) (s : PollState σ) : Option (PollState σ) :=
  match s.tasks[i]? with
  | none => none
  | some t =>
    if t.status = TaskStatus.returned ∨ t.status = TaskStatus.panicking then
      some { s with
        tasks := s.tasks.set i { t with status := TaskStatus.finished },
        counter := s.counter - 1,
        crashed := decide (t.status = TaskStatus.panicking) || decide (s.counter - 1 < 0) }
    else none

/-- One step of the whole system; `none` when the action cannot be taken (the
goroutine is blocked or over, or the process has died). -/
def step {σ : Type} (l : SQSListener σ) (request : ReceiveMessageInput) (a : Action)
    (s : PollState σ) : Option (PollState σ) :=
  if s.crashed then none
  else
    match a with
    | Action.signal => some { s with signalled := true }
    | Action.loop => loopStep l request s
    | Action.run i => runStep l i s
    | Action.done i => doneStep i s

/-- The state after a schedule, `none` when one of its actions cannot be
taken. -/
def runSchedule {σ : Type} (l : SQSListener σ) (request : ReceiveMessageInput) :
    List Action → PollState σ → Option (PollState σ)
  | [], s => some s
  | a :: rest, s =>
    match step l request a s with
    | none => none
    | some s1 => runSchedule l request rest s1

/-- The state in which `poll` starts, for a coordinator with the given signal
and counter. -/
def pollStart {σ : Type} (signalled : Bool) (counter : Int) (w : σ) : PollState σ :=
  { pc := LoopPc.select, signalled := signalled, counter := counter, tasks := [],
    log := [], world := w, crashed := false }

/-- The tasks of a batch of `len` messages whose first task has index `first`. -/
def batchTasks {σ : Type} (s : PollState σ) (first len : Nat) : List Task :=
  (s.tasks.drop first).take len

/-- The schedule in which tasks `first`, ..., `first + len - 1` each run to
the end, one after the other. -/
def runTasks (first : Nat) : (len : Nat) → List Action
  | 0 => []
  | len + 1 => Action.run first :: Action.done first :: runTasks (first + 1) len

/-- Number of delete requests issued by a list of tasks. -/
def deleteCount (ts : List Task) : Nat :=
  (ts.map fun t => (deleteRequests t.trace).length).sum

/-- Number of tasks of a list whose handler returned no error. -/
def successCount (ts : List Task) : Nat :=
  (ts.filter fun t => handlerSucceeded t.trace).length

/-- What holds at any time of the task `t` started for message `m`: it
carries `m`; before it has run it has done nothing; once it has run, what it
has done is one run of `handleMessage` on `m`. -/
def TaskOk {σ : Type} (l : SQSListener σ) (m : Message) (t : Task) : Prop :=
  t.message = m ∧ (t.status = TaskStatus.spawned → t.trace = []) ∧
    (t.status ≠ TaskStatus.spawned → ∃ w : σ, t.trace = (handleMessage l m w).trace)

/-- The invariant of a batch `ms` whose dispatch began when `first` tasks
existed: the loop is still dispatching it, with one task started for each
message gone through, or has started them all; and every task started for it
so far is as `TaskOk` says. -/
def BatchInv {σ : Type} (l : SQSListener σ) (first : Nat) (ms : List Message) (pc : LoopPc)
    (tasks : List Task) : Prop :=
  ((∃ j, j ≤ ms.length ∧ pc = LoopPc.dispatch (ms.drop j) ∧ tasks.length = first + j) ∨
      first + ms.length ≤ tasks.length) ∧
    ∀ k m t, ms[k]? = some m → tasks[first + k]? = some t → TaskOk l m t

/-! ### A listener for examples

The listener of `getTestListener` in `listener_test.go`, with the scenario of
the spec: the first fetch returns three messages, every later fetch none;
the handler fails on the message whose body is `"bad"`; deletes succeed.
The state of the world is the number of fetches so far. -/

/-- The messages of the first fetch. -/
def testBatch : List Message :=
  [{ MessageId := some "1", Body := some "good", ReceiptHandle := some "handle-1" },
   { MessageId := some "2", Body := some "bad", ReceiptHandle := some "handle-2" },
   { MessageId := some "3", Body := some "fine", ReceiptHandle := some "handle-3" }]

/-- The message of `TestSQSListener_deleteMessage`. -/
def testMessage : Message :=
  { MessageId := none, Body := some "test", ReceiptHandle := some "test handle" }

/-- The error of the failing handler, `errors.New("random error")` in the test. -/
def handlerErr : GoError := { text := "random error", throttled := false }

/-- The test listener. -/
def testListener : SQSListener Nat :=
  { queueName := "test-queue",
    queueURL := some "test-queue.com",
    ReceiveMessage := fun _ n =>
      if n = 0 then ((some testBatch, none), n + 1) else ((some [], none), n + 1),
    DeleteMessage := fun _ n => (none, n),
    Handle := fun m n => if m.Body = some "bad" then (some handlerErr, n) else (none, n),
    receiveMessageWaitSeconds := 1,
    maxNumberOfMessages := 1 }

/-! ## `manager.go`, `queue_setup.go`, `tagging.go`: validation -/

/-- `errors.New(text)`: an error that is not a throttling error. -/
def errorsNew (text : String) : GoError := { text := text, throttled := false }

/-- `errWaitTimeMoreThan20` of `manager.go`. -/
def errWaitTimeMoreThan20 : String := "wait time cannot be more than 20"

/-- `errWaitTimeNegative` of `manager.go`. -/
def errWaitTimeNegative : String := "wait time cannot be less than 0"

/-- `ErrMissingTags` of `manager.go`. -/
def ErrMissingTags : String := "missing tags"

/-- `ErrorQueueSuffix` of `queue_setup.go`. -/
def ErrorQueueSuffix : String := "_ERROR"

/-- `errQueueNameTooLong` of `queue_setup.go`. -/
def errQueueNameTooLong : String := "queue name is too long"

/-- `errNonAlphaNumericCharsInQueueName` of `queue_setup.go`. -/
def errNonAlphaNumericCharsInQueueName : String :=
  "queue name contains non alphanumeric characters"

/-- `errQueueNameEmpty` of `queue_setup.go`. -/
def errQueueNameEmpty : String := "queue name cannot be empty"

/-- `func validateReceiveTimeWaitSeconds(receiveTimeWait int) error`. -/
def validateReceiveTimeWaitSeconds (receiveTimeWait : Int) : Option GoError :=
  if receiveTimeWait > 20 then some (errorsNew errWaitTimeMoreThan20)
  else if receiveTimeWait < 0 then some (errorsNew errWaitTimeNegative)
  else none

/-- The character class `[a-zA-Z0-9-_]` of the pattern of `validateQueueName`:
the ASCII letters, the digits, `-` and `_` (after the range `0-9` the `-` is
a literal character). -/
def queueNameChar (c : Char) : Bool :=
  (97 ≤ c.toNat && c.toNat ≤ 122) || (65 ≤ c.toNat && c.toNat ≤ 90) ||
    (48 ≤ c.toNat && c.toNat ≤ 57) || c.toNat = 45 || c.toNat = 95

/-- `regexp.MatchString("^[a-zA-Z0-9-_]+$", queueName)`: the whole text is one
or more characters of the class (`$` is the end of the text).  The pattern
compiles, so the error is nil. -/
def matchQueueNamePattern (queueName : String) : Bool × Option GoError :=
  (!queueName.toList.isEmpty && queueName.toList.all queueNameChar, none)

/-- `func validateQueueName(queueName string) error`.  `len(queueName)` is the
number of bytes of the name, which is taken to be well-formed UTF-8 text. -/
def validateQueueName (queueName : String) : Option GoError :=
  if queueName.utf8ByteSize > 80 then some (errorsNew errQueueNameTooLong)
  else if queueName = "" then some (errorsNew errQueueNameEmpty)
  else
    match matchQueueNamePattern queueName with
    | (ok, err) =>
      if !ok then some (errorsNew errNonAlphaNumericCharsInQueueName)
      else
        match err with
        | some e => some e
        | none => none

/-- A Go `map[string]string`: its entries, one per key. -/
abbrev StringMap := List (String × String)

/-- The test `_, ok := m[k]` of a map. -/
def StringMap.has (m : StringMap) (k : String) : Bool :=
  m.any fun kv => kv.1 == k

/-- The read `m[k]` of a map: the value, or `""` for a key that is absent. -/
def StringMap.get (m : StringMap) (k : String) : String :=
  match m.find? fun kv => kv.1 == k with
  | some kv => kv.2
  | none => ""

/-- The constant `Env` of `tagging.go`. -/
def Env : String := "env"

/-- The constant `ServiceName` of `tagging.go`. -/
def ServiceName : String := "serviceName"

/-- The constant `ServiceGroup` of `tagging.go`. -/
def ServiceGroup : String := "serviceGroup"

/-- The constant `BusinessUnit` of `tagging.go`. -/
def BusinessUnit : String := "businessUnit"

/-- The constant `OwnerEmail` of `tagging.go`. -/
def OwnerEmail : String := "ownerEmail"

/-- The slice `arrayOfRequiredTags` of `validateTags`. -/
def arrayOfRequiredTags : List String :=
  [Env, ServiceName, ServiceGroup, BusinessUnit, OwnerEmail]

/-- The loop `for _, v := range arrayOfRequiredTags` of `validateTags`. -/
def validateTagsLoop (tags : StringMap) : List String → Option GoError
  | [] => none
  | v :: rest =>
    if !tags.has v then some (errorsNew ("Missing required tag: " ++ v))
    else validateTagsLoop tags rest

/-- `func validateTags(tags map[string]string) error`. -/
def validateTags (tags : StringMap) : Option GoError :=
  if tags.length = 0 then some (errorsNew ErrMissingTags)
  else validateTagsLoop tags arrayOfRequiredTags

/-- `func createQueueTags(tags map[string]string) map[string]string`; `none` is
the nil map. -/
def createQueueTags (tags : StringMap) : Option StringMap :=
  match validateTags tags with
  | some _ => none
  | none => some tags

/-! ## The service clients (`aws_clients.go`) and `Manager.CreateQueue` -/

/-- `sqs.CreateQueueInput`. -/
structure CreateQueueInput where
  Attributes : StringMap
  QueueName : Option String
  Tags : StringMap
  deriving DecidableEq, Repr

/-- `sqs.CreateQueueOutput`. -/
structure CreateQueueOutput where
  QueueUrl : Option String
  deriving DecidableEq, Repr

/-- `sqs.GetQueueAttributesInput`. -/
structure GetQueueAttributesInput where
  AttributeNames : List String
  QueueUrl : Option String
  deriving DecidableEq, Repr

/-- `sqs.GetQueueAttributesOutput`. -/
structure GetQueueAttributesOutput where
  Attributes : StringMap
  deriving DecidableEq, Repr

/-- `sqs.SetQueueAttributesInput`. -/
structure SetQueueAttributesInput where
  QueueUrl : Option String
  Attributes : StringMap
  deriving DecidableEq, Repr

/-- `sqs.GetQueueUrlInput`. -/
structure GetQueueUrlInput where
  QueueName : Option String
  deriving DecidableEq, Repr

/-- `sqs.GetQueueUrlOutput`. -/
structure GetQueueUrlOutput where
  QueueUrl : Option String
  deriving DecidableEq, Repr

/-- `types.Tag` of the SNS SDK. -/
structure Tag where
  Key : Option String
  Value : Option String
  deriving DecidableEq, Repr

/-- `sns.CreateTopicInput`. -/
structure CreateTopicInput where
  Name : Option String
  Tags : List Tag
  deriving DecidableEq, Repr

/-- `sns.CreateTopicOutput`. -/
structure CreateTopicOutput where
  TopicArn : Option String
  deriving DecidableEq, Repr

/-- `sns.SubscribeInput`. -/
structure SubscribeInput where
  TopicArn : Option String
  Protocol : Option String
  Endpoint : Option String
  Attributes : StringMap
  deriving DecidableEq, Repr

/-- `sns.SubscribeOutput`. -/
structure SubscribeOutput where
  SubscriptionArn : Option String
  deriving DecidableEq, Repr

/-- `sns.PublishInput`; `MessageAttributes` maps a key to the `StringValue` of
its attribute value. -/
structure PublishInput where
  Message : Option String
  TopicArn : Option String
  Subject : Option String
  MessageAttributes : StringMap
  deriving DecidableEq, Repr

/-- One request to the queue or topic service. -/
inductive AwsCall where
  | CreateQueue (input : CreateQueueInput)
  | GetQueueAttributes (input : GetQueueAttributesInput)
  | SetQueueAttributes (input : SetQueueAttributesInput)
  | GetQueueUrl (input : GetQueueUrlInput)
  | CreateTopic (input : CreateTopicInput)
  | Subscribe (input : SubscribeInput)
  | Publish (input : PublishInput)
  deriving DecidableEq, Repr

/-- The management methods of `type ISQSClient interface`, over the state `σ`
of the service.  A method returns its output pointer (`none` for nil) and its
error; of `SetQueueAttributes` only the error is read. -/
structure SQSClient (σ : Type) where
  GetQueueUrl : GetQueueUrlInput → σ → (Option GetQueueUrlOutput × Option GoError) × σ
  CreateQueue : CreateQueueInput → σ → (Option CreateQueueOutput × Option GoError) × σ
  GetQueueAttributes :
    GetQueueAttributesInput → σ → (Option GetQueueAttributesOutput × Option GoError) × σ
  SetQueueAttributes : SetQueueAttributesInput → σ → Option GoError × σ

/-- `type ISNSClient interface`, over the state `σ` of the service; of
`Publish` only the error is read. -/
structure SNSClient (σ : Type) where
  CreateTopic : CreateTopicInput → σ → (Option CreateTopicOutput × Option GoError) × σ
  Subscribe : SubscribeInput → σ → (Option SubscribeOutput × Option GoError) × σ
  Publish : PublishInput → σ → Option GoError × σ

/-- `type Manager struct`. -/
structure Manager (σ : Type) where
  snsClient : SNSClient σ
  sqsClient : SQSClient σ

/-- `type QueueConfig struct`. -/
structure QueueConfig where
  Tags : StringMap
  ReceiveWaitTimeSeconds : Int
  MaxReceiveCount : Int
  DelaySeconds : Int
  MaxMessageRetentionPeriod : Int
  DefaultVisibilityTimeout : Int
  deriving DecidableEq, Repr

/-- The run of a function that talks to the service: the values it returns
(`none` when it panics instead, as on a nil pointer dereference), the
requests it made in order, and the state of the service afterwards. -/
structure Ran (α σ : Type) where
  value : Option α
  calls : List AwsCall
  state : σ

/-- `strconv.Itoa(n)`: the decimal text of an integer. -/
def Itoa (n : Int) : String := toString n

/-- `func createQueue(sqsClient, queueName, config) (*sqs.CreateQueueOutput, error)`. -/
def createQueue {σ : Type} (sqsClient : SQSClient σ) (queueName : String)
    (config : QueueConfig) (w : σ) : Ran (Option CreateQueueOutput × Option GoError) σ :=
  match createQueueTags config.Tags with
  | none => { value := some (none, some (errorsNew ErrMissingTags)), calls := [], state := w }
  | some queueTags =>
    let waitTime := Itoa config.ReceiveWaitTimeSeconds
    let delaySeconds := Itoa config.DelaySeconds
    let maxMessageRetentionPeriod := Itoa config.MaxMessageRetentionPeriod
    let defaultVisibilityTimeout := Itoa config.DefaultVisibilityTimeout
    let input : CreateQueueInput :=
      { Attributes :=
          [("ReceiveMessageWaitTimeSeconds", waitTime),
           ("DelaySeconds", delaySeconds),
           ("MessageRetentionPeriod", maxMessageRetentionPeriod),
           ("VisibilityTimeout", defaultVisibilityTimeout)],
        QueueName := some queueName,
        Tags := queueTags }
    match sqsClient.CreateQueue input w with
    | ((result, err), w) =>
      match err with
      | some e => { value := some (none, some e), calls := [AwsCall.CreateQueue input], state := w }
      | none => { value := some (result, none), calls := [AwsCall.CreateQueue input], state := w }

/-- `func getQueueArn(sqsClient, queueURL) (string, error)`.  With a nil error
and a nil output the read of `result.Attributes` panics. -/
def getQueueArn {σ : Type} (sqsClient : SQSClient σ) (queueURL : String) (w : σ) :
    Ran (String × Option GoError) σ :=
  let input : GetQueueAttributesInput :=
    { AttributeNames := ["QueueArn"], QueueUrl := some queueURL }
  match sqsClient.GetQueueAttributes input w with
  | ((result, err), w) =>
    match err with
    | some e => { value := some ("", some e), calls := [AwsCall.GetQueueAttributes input], state := w }
    | none =>
      match result with
      | none => { value := none, calls := [AwsCall.GetQueueAttributes input], state := w }
      | some r =>
        { value := some (r.Attributes.get "QueueArn", none),
          calls := [AwsCall.GetQueueAttributes input], state := w }

/-- `func setUpDeadLetterQueue(sqsClient, queueURL, dlqURL, maxReceiveCount) error`.
`marshal` is `json.Marshal` on a `map[string]string`, of the JSON library:
the text and the error. -/
def setUpDeadLetterQueue {σ : Type} (marshal : StringMap → String × Option GoError)
    (sqsClient : SQSClient σ) (queueURL dlqURL : String) (maxReceiveCount : Int) (w : σ) :
    Ran (Option GoError) σ :=
  let r := getQueueArn sqsClient dlqURL w
  match r.value with
  | none => { value := none, calls := r.calls, state := r.state }
  | some (_, some e) => { value := some (some e), calls := r.calls, state := r.state }
  | some (dlqArn, none) =>
    let maxReceive := Itoa maxReceiveCount
    let policy : StringMap :=
      [("deadLetterTargetArn", dlqArn), ("maxReceiveCount", maxReceive)]
    match marshal policy with
    | (_, some e) => { value := some (some e), calls := r.calls, state := r.state }
    | (b, none) =>
      let input : SetQueueAttributesInput :=
        { QueueUrl := some queueURL, Attributes := [("RedrivePolicy", b)] }
      match sqsClient.SetQueueAttributes input r.state with
      | (err, w) =>
        match err with
        | some e =>
          { value := some (some e), calls := r.calls ++ [AwsCall.SetQueueAttributes input],
            state := w }
        | none =>
          { value := some none, calls := r.calls ++ [AwsCall.SetQueueAttributes input],
            state := w }

/-- `func setupNewQueue(sqsClient, queueName, config) (*sqs.CreateQueueOutput, error)`.
The reads `*result.QueueUrl` and `*dlqResult.QueueUrl` panic on a nil
pointer. -/
def setupNewQueue {σ : Type} (marshal : StringMap → String × Option GoError)
    (sqsClient : SQSClient σ) (queueName : String) (config : QueueConfig) (w : σ) :
    Ran (Option CreateQueueOutput × Option GoError) σ :=
  let r1 := createQueue sqsClient queueName config w
  match r1.value with
  | none => { value := none, calls := r1.calls, state := r1.state }
  | some (_, some e) => { value := some (none, some e), calls := r1.calls, state := r1.state }
  | some (result, none) =>
    let dlqName := queueName ++ ErrorQueueSuffix
    let r2 := createQueue sqsClient dlqName config r1.state
    match r2.value with
    | none => { value := none, calls := r1.calls ++ r2.calls, state := r2.state }
    | some (_, some e) =>
      { value := some (none, some e), calls := r1.calls ++ r2.calls, state := r2.state }
    | some (dlqResult, none) =>
      match result.bind (fun r => r.QueueUrl), dlqResult.bind (fun r => r.QueueUrl) with
      | some queueURL, some dlqURL =>
        let r3 := setUpDeadLetterQueue marshal sqsClient queueURL dlqURL config.MaxReceiveCount
          r2.state
        match r3.value with
        | none => { value := none, calls := r1.calls ++ r2.calls ++ r3.calls, state := r3.state }
        | some (some e) =>
          { value := some (none, some e), calls := r1.calls ++ r2.calls ++ r3.calls,
            state := r3.state }
        | some none =>
          { value := some (result, none), calls := r1.calls ++ r2.calls ++ r3.calls,
            state := r3.state }
      | _, _ => { value := none, calls := r1.calls ++ r2.calls, state := r2.state }

/-- `func (m *Manager) CreateQueue(queueName string, config QueueConfig)
(*sqs.CreateQueueOutput, error)`. -/
def Manager.CreateQueue {σ : Type} (marshal : StringMap → String × Option GoError)
    (m : Manager σ) (queueName : String) (config : QueueConfig) (w : σ) :
    Ran (Option CreateQueueOutput × Option GoError) σ :=
  match validateQueueName queueName with
  | some e => { value := some (none, some e), calls := [], state := w }
  | none =>
    match validateReceiveTimeWaitSeconds config.ReceiveWaitTimeSeconds with
    | some e => { value := some (none, some e), calls := [], state := w }
    | none =>
      let r := setupNewQueue marshal m.sqsClient queueName config w
      match r.value with
      | none => { value := none, calls := r.calls, state := r.state }
      | some (_, some e) => { value := some (none, some e), calls := r.calls, state := r.state }
      | some (result, none) => { value := some (result, none), calls := r.calls, state := r.state }

/-! ## `multi_topic_handler.go` -/

/-- `type Event struct`. -/
structure Event where
  Subject : String
  Message : String
  deriving DecidableEq, Repr

/-- `type EventHandler func(message string) error`, over the state `σ` of
whatever the handlers act on. -/
abbrev EventHandler (σ : Type) := String → σ → Option GoError × σ

/-- `type MultiTopicHandler struct`: the map `Handlers`, as the function that
gives the handler stored under a subject, if any. -/
structure MultiTopicHandler (σ : Type) where
  Handlers : String → Option (EventHandler σ)

/-- `func NewMultiTopicHandler() *MultiTopicHandler`: the empty map. -/
def NewMultiTopicHandler {σ : Type} : MultiTopicHandler σ :=
  { Handlers := fun _ => none }

/-- `func (h *MultiTopicHandler) RegisterHandler(subject, handlerFunc)`:
`h.Handlers[subject] = handlerFunc`. -/
def MultiTopicHandler.RegisterHandler {σ : Type} (h : MultiTopicHandler σ) (subject : String)
    (handlerFunc : EventHandler σ) : MultiTopicHandler σ :=
  { Handlers := fun s => if s = subject then some handlerFunc else h.Handlers s }

/-- The run of `MultiTopicHandler.Handle`: whether it panicked, the error it
returned, the calls of sub-handlers it made (the subject under which the
handler was stored and the text passed to it), and the state afterwards. -/
structure HandleRun (σ : Type) where
  panicked : Bool
  err : Option GoError
  calls : List (String × String)
  state : σ

/-- `func (h *MultiTopicHandler) Handle(message types.Message) error`.
`unmarshal` is `json.Unmarshal(b, &event)` of the JSON library: the event it
fills in and its error.  `*message.Body` panics on a message without a body.
The lines written to standard output are left out. -/
def MultiTopicHandler.Handle {σ : Type} (unmarshal : String → Event × Option GoError)
    (h : MultiTopicHandler σ) (message : Message) (w : σ) : HandleRun σ :=
  match message.Body with
  | none => { panicked := true, err := none, calls := [], state := w }
  | some b =>
    match unmarshal b with
    | (_, some err) => { panicked := false, err := some err, calls := [], state := w }
    | (event, none) =>
      match h.Handlers event.Subject with
      | none =>
        { panicked := false,
          err := some (errorsNew ("no handler for Subject: " ++ event.Subject)),
          calls := [], state := w }
      | some handler =>
        match handler event.Message w with
        | (err, w) =>
          { panicked := false, err := err, calls := [(event.Subject, event.Message)],
            state := w }

/-- The handler after the registrations `regs`, made in order on a new
`MultiTopicHandler`. -/
def registerAll {σ : Type} (regs : List (String × EventHandler σ)) : MultiTopicHandler σ :=
  regs.foldl (fun h r => h.RegisterHandler r.1 r.2) NewMultiTopicHandler

/-! ### Fixtures of `multi_topic_handler_test.go`, `manager_test.go`, `tagging_test.go` -/

/-- A stand-in for `json.Unmarshal` that knows the bodies of the tests of
`TestMultiTopicHandler_Handle` and fails on every other text. -/
def testUnmarshal (b : String) : Event × Option GoError :=
  if b = "\x7b\"subject\":\"test-topic\",\"message\":\"test message\"\x7d" then
    ({ Subject := "test-topic", Message := "test message" }, none)
  else if b = "\x7b\"subject\":\"nonexistent\",\"message\":\"test message\"\x7d" then
    ({ Subject := "nonexistent", Message := "test message" }, none)
  else if b = "\x7b\"subject\":\"error\",\"message\":\"test message\"\x7d" then
    ({ Subject := "error", Message := "test message" }, none)
  else ({ Subject := "", Message := "" }, some (errorsNew "invalid character"))

/-- The handlers of the test, as registered: `testHandler` under
`"test-topic"` and `errorHandler` under `"error"`.  The state counts the
calls. -/
def testRegistrations : List (String × EventHandler Nat) :=
  [("test-topic", fun _ n => (none, n + 1)),
   ("error", fun _ n => (some (errorsNew "test error"), n + 1))]

/-- The tags of `TestManager_CreateQueue`. -/
def testTags : StringMap :=
  [("env", "test"), ("serviceName", "test-service"), ("serviceGroup", "test-service-group"),
   ("businessUnit", "test-business-unit"), ("ownerEmail", "owner-email")]

/-- The map `badTestMap` of `Test_validateTags`, which lacks required keys. -/
def badTestMap : StringMap :=
  [("env", "test"), ("businessUnit", "test-business-unit"), ("supportId", "support-id")]

/-- A queue service for examples: every request succeeds; the state counts
the requests. -/
def testSQSClient : SQSClient Nat :=
  { GetQueueUrl := fun input n =>
      ((some { QueueUrl := input.QueueName.map fun q => "https://sqs.test/" ++ q }, none),
        n + 1),
    CreateQueue := fun input n =>
      ((some { QueueUrl := input.QueueName.map fun q => "https://sqs.test/" ++ q }, none),
        n + 1),
    GetQueueAttributes := fun input n =>
      ((some { Attributes := [("QueueArn", "arn:" ++ input.QueueUrl.getD "")] }, none), n + 1),
    SetQueueAttributes := fun _ n => (none, n + 1) }

/-- A topic service for examples: every request succeeds. -/
def testSNSClient : SNSClient Nat :=
  { CreateTopic := fun input n =>
      ((some { TopicArn := input.Name.map fun t => "arn:aws:sns:" ++ t }, none), n + 1),
    Subscribe := fun _ n => ((some { SubscriptionArn := some "arn:subscription" }, none), n + 1),
    Publish := fun _ n => (none, n + 1) }

/-- The manager of the examples. -/
def testManager : Manager Nat :=
  { snsClient := testSNSClient, sqsClient := testSQSClient }

/-- A stand-in for `json.Marshal` on a map of the examples: it never fails. -/
def testMarshal (m : StringMap) : String × Option GoError :=
  (String.intercalate "," (m.map fun kv => kv.1 ++ "=" ++ kv.2), none)

/-- The configuration `returnExpectedQueueConfigManager(tags)` of the test. -/
def testQueueConfig (tags : StringMap) : QueueConfig :=
  { Tags := tags, ReceiveWaitTimeSeconds := 20, MaxReceiveCount := 10, DelaySeconds := 0,
    MaxMessageRetentionPeriod := 10, DefaultVisibilityTimeout := 10 }

/-! ### Measures on the states of the poll loop -/

/-- Whether a task is still registered: it has not run its deferred `Done`. -/
def Task.live (t : Task) : Bool :=
  decide (t.status ≠ TaskStatus.finished)

/-- Number of tasks still registered. -/
def liveCount (tasks : List Task) : Nat :=
  (tasks.filter Task.live).length

/-- Whether task `i` exists and has run its deferred `Done`: `1` if so, `0`
if not. -/
def doneCount {σ : Type} (s : PollState σ) (i : Nat) : Nat :=
  match s.tasks[i]? with
  | some t => if t.status = TaskStatus.finished then 1 else 0
  | none => 0

/-- The state of the world after `n` fetches and nothing else. -/
def fetchWorld {σ : Type} (l : SQSListener σ) (request : ReceiveMessageInput) (w : σ) :
    Nat → σ
  | 0 => w
  | n + 1 => (l.ReceiveMessage request (fetchWorld l request w n)).2

/-- A listener whose every fetch fails, for examples. -/
def failingListener : SQSListener Nat :=
  { testListener with
    ReceiveMessage := fun _ n => ((none, some (errorsNew "fetch failed")), n + 1) }

/-- The listener of the first case of `TestSQSListener_poll`: every fetch
returns an output without messages. -/
def idleListener : SQSListener Nat :=
  { testListener with ReceiveMessage := fun _ n => ((some [], none), n + 1) }

/-- A state for examples: the loop at its shutdown check with the signal
fired, one task registered and not run yet, the counter at one. -/
def drainingState : PollState Nat :=
  { pollStart true 1 0 with tasks := [newTask testMessage] }

/-! ## `topic_setup.go`, `queue_setup.go`, `manager.go`: subscribing a queue to a topic -/

/-- `type PrincipalStruct struct`. -/
structure PrincipalStruct where
  Service : String
  deriving DecidableEq, Repr

/-- `type ArnEqualsStruct struct`; `AwsSourceArn` is the JSON key
`aws:SourceArn`. -/
structure ArnEqualsStruct where
  AwsSourceArn : String
  deriving DecidableEq, Repr

/-- `type ConditionStruct struct`. -/
structure ConditionStruct where
  ArnEquals : ArnEqualsStruct
  deriving DecidableEq, Repr

/-- `type StatementStruct struct`. -/
structure StatementStruct where
  Sid : String
  Effect : String
  Principal : PrincipalStruct
  Action : String
  Resource : String
  Condition : ConditionStruct
  deriving DecidableEq, Repr

/-- `type PolicyStruct struct`; `ID` is the JSON key `Id`. -/
structure PolicyStruct where
  Version : String
  ID : String
  Statement : List StatementStruct
  deriving DecidableEq, Repr

/-- `func getTopicArn(snsClient, topicName) (string, error)` of
`topic_setup.go`.  The read `*result.TopicArn` panics on a nil pointer. -/
def getTopicArn {σ : Type} (snsClient : SNSClient σ) (topicName : String) (w : σ) :
    Ran (String × Option GoError) σ :=
  let input : CreateTopicInput := { Name := some topicName, Tags := [] }
  match snsClient.CreateTopic input w with
  | ((result, err), w) =>
    match err with
    | some e => { value := some ("", some e), calls := [AwsCall.CreateTopic input], state := w }
    | none =>
      match result.bind (fun r => r.TopicArn) with
      | none => { value := none, calls := [AwsCall.CreateTopic input], state := w }
      | some topicArn =>
        { value := some (topicArn, none), calls := [AwsCall.CreateTopic input], state := w }

/-- `func GetQueueURL(sqsClient, queueName) (string, error)` of
`queue_setup.go`.  The read `*result.QueueUrl` panics on a nil pointer. -/
def GetQueueURL {σ : Type} (sqsClient : SQSClient σ) (queueName : String) (w : σ) :
    Ran (String × Option GoError) σ :=
  let input : GetQueueUrlInput := { QueueName := some queueName }
  match sqsClient.GetQueueUrl input w with
  | ((result, err), w) =>
    match err with
    | some e => { value := some ("", some e), calls := [AwsCall.GetQueueUrl input], state := w }
    | none =>
      match result.bind (fun r => r.QueueUrl) with
      | none => { value := none, calls := [AwsCall.GetQueueUrl input], state := w }
      | some queueURL =>
        { value := some (queueURL, none), calls := [AwsCall.GetQueueUrl input], state := w }

/-- `func (m *Manager) subscribe(topicARN, queueARN string, raw bool)
(*sns.SubscribeOutput, error)`. -/
def Manager.subscribe {σ : Type} (m : Manager σ) (topicARN queueARN : String) (raw : Bool)
    (w : σ) : Ran (Option SubscribeOutput × Option GoError) σ :=
  let rawMessageDelivery := if raw then "true" else "false"
  let input : SubscribeInput :=
    { TopicArn := some topicARN, Protocol := some "sqs", Endpoint := some queueARN,
      Attributes := [("RawMessageDelivery", rawMessageDelivery)] }
  match m.snsClient.Subscribe input w with
  | ((subscription, err), w) =>
    match err with
    | some e => { value := some (none, some e), calls := [AwsCall.Subscribe input], state := w }
    | none =>
      { value := some (subscription, none), calls := [AwsCall.Subscribe input], state := w }

/-- `func setTopicPolicy(sqsClient, queueURL, policy string) error`. -/
def setTopicPolicy {σ : Type} (sqsClient : SQSClient σ) (queueURL policy : String) (w : σ) :
    Ran (Option GoError) σ :=
  let attributes : StringMap := [("Policy", policy)]
  let setQueueAttrInput : SetQueueAttributesInput :=
    { QueueUrl := some queueURL, Attributes := attributes }
  match sqsClient.SetQueueAttributes setQueueAttrInput w with
  | (err, w) =>
    match err with
    | some e =>
      { value := some (some e), calls := [AwsCall.SetQueueAttributes setQueueAttrInput],
        state := w }
    | none =>
      { value := some none, calls := [AwsCall.SetQueueAttributes setQueueAttrInput],
        state := w }

/-- The policy text that `getPolicyContent` takes for a queue without a
`Policy` attribute. -/
def defaultPolicyText : String :=
  "\x7b\"Version\":\"2012-10-17\",\"Id\":\"arn:test-queue/SQSDefaultPolicy\"\x7d"

/-- The statement that `getPolicyContent` appends, for the queue ARN and the
topic ARN it has at that point. -/
def topicStatement (queueArn topicARN : String) : StatementStruct :=
  { Sid := "Sid1580665629194",
    Effect := "Allow",
    Principal := { Service := "sns.amazonaws.com" },
    Action := "SQS:SendMessage",
    Resource := queueArn,
    Condition := { ArnEquals := { AwsSourceArn := topicARN } } }

/-- `func getPolicyContent(sqsClient, queueURL, topicARN string) (string, error)`.
`unmarshal` is `json.Unmarshal(text, &newPolicyWithTopic)` of the JSON
library: the policy the pointer refers to afterwards (`none` when the
library has set the pointer to nil) and the error; `marshal` is
`json.Marshal` on a policy: the text and the error.  The first line is
`queueArn, _ := getQueueArn(sqsClient, queueURL)`: the error of that look-up
is dropped.  The reads of `queueAttrs.Attributes` and of
`newPolicyWithTopic.Statement` panic on a nil pointer.  The line written to
standard output is left out. -/
def getPolicyContent {σ : Type} (unmarshal : String → Option PolicyStruct × Option GoError)
    (marshal : PolicyStruct → String × Option GoError)
    (sqsClient : SQSClient σ) (queueURL topicARN : String) (w : σ) :
    Ran (String × Option GoError) σ :=
  let r := getQueueArn sqsClient queueURL w
  match r.value with
  | none => { value := none, calls := r.calls, state := r.state }
  | some (queueArn, _) =>
    let input : GetQueueAttributesInput :=
      { AttributeNames := ["Policy"], QueueUrl := some queueURL }
    match sqsClient.GetQueueAttributes input r.state with
    | ((queueAttrs, err), w) =>
      match err with
      | some e =>
        { value := some ("", some e), calls := r.calls ++ [AwsCall.GetQueueAttributes input],
          state := w }
      | none =>
        match queueAttrs with
        | none =>
          { value := none, calls := r.calls ++ [AwsCall.GetQueueAttributes input], state := w }
        | some queueAttrs =>
          let attributes : StringMap :=
            if !queueAttrs.Attributes.has "Policy" then [("Policy", defaultPolicyText)]
            else queueAttrs.Attributes
          match unmarshal (attributes.get "Policy") with
          | (_, some e) =>
            { value := some ("", some e),
              calls := r.calls ++ [AwsCall.GetQueueAttributes input], state := w }
          | (none, none) =>
            { value := none, calls := r.calls ++ [AwsCall.GetQueueAttributes input],
              state := w }
          | (some policy, none) =>
            let newPolicyWithTopic : PolicyStruct :=
              { policy with
                Statement := policy.Statement ++ [topicStatement queueArn topicARN] }
            match marshal newPolicyWithTopic with
            | (_, some e) =>
              { value := some ("", some e),
                calls := r.calls ++ [AwsCall.GetQueueAttributes input], state := w }
            | (newPolicyTemplateBytes, none) =>
              { value := some (newPolicyTemplateBytes, none),
                calls := r.calls ++ [AwsCall.GetQueueAttributes input], state := w }

/-- `func (m *Manager) SubscribeQueueToTopic(queueName, topicName string,
raw bool) error`, with the JSON library as in `getPolicyContent`. -/
def Manager.SubscribeQueueToTopic {σ : Type}
    (unmarshal : String → Option PolicyStruct × Option GoError)
    (marshal : PolicyStruct → String × Option GoError)
    (m : Manager σ) (queueName topicName : String) (raw : Bool) (w : σ) :
    Ran (Option GoError) σ :=
  let r1 := getTopicArn m.snsClient topicName w
  match r1.value with
  | none => { value := none, calls := r1.calls, state := r1.state }
  | some (_, some e) => { value := some (some e), calls := r1.calls, state := r1.state }
  | some (topicARN, none) =>
    let r2 := GetQueueURL m.sqsClient queueName r1.state
    match r2.value with
    | none => { value := none, calls := r1.calls ++ r2.calls, state := r2.state }
    | some (_, some e) =>
      { value := some (some e), calls := r1.calls ++ r2.calls, state := r2.state }
    | some (queueURL, none) =>
      let r3 := getQueueArn m.sqsClient queueURL r2.state
      match r3.value with
      | none => { value := none, calls := r1.calls ++ r2.calls ++ r3.calls, state := r3.state }
      | some (_, some e) =>
        { value := some (some e), calls := r1.calls ++ r2.calls ++ r3.calls,
          state := r3.state }
      | some (queueARN, none) =>
        let r4 := m.subscribe topicARN queueARN raw r3.state
        match r4.value with
        | none =>
          { value := none, calls := r1.calls ++ r2.calls ++ r3.calls ++ r4.calls,
            state := r4.state }
        | some (_, some e) =>
          { value := some (some e), calls := r1.calls ++ r2.calls ++ r3.calls ++ r4.calls,
            state := r4.state }
        | some (_, none) =>
          let r5 := getPolicyContent unmarshal marshal m.sqsClient queueURL topicARN r4.state
          match r5.value with
          | none =>
            { value := none,
              calls := r1.calls ++ r2.calls ++ r3.calls ++ r4.calls ++ r5.calls,
              state := r5.state }
          | some (_, some e) =>
            { value := some (some e),
              calls := r1.calls ++ r2.calls ++ r3.calls ++ r4.calls ++ r5.calls,
              state := r5.state }
          | some (policy, none) =>
            let r6 := setTopicPolicy m.sqsClient queueURL policy r5.state
            { value := r6.value,
              calls := r1.calls ++ r2.calls ++ r3.calls ++ r4.calls ++ r5.calls ++ r6.calls,
              state := r6.state }

/-! ## `topics_publisher.go` -/

/-- The assignment `m[k] = v` on a map. -/
def StringMap.set (m : StringMap) (k v : String) : StringMap :=
  (k, v) :: m.filter fun kv => kv.1 != k

/-- `type TopicsPublisher struct`. -/
structure TopicsPublisher (σ : Type) where
  snsClient : SNSClient σ
  topicsCache : StringMap

/-- `func (p *TopicsPublisher) getTopicArn(topicName string) (string, error)`:
the run, and the publisher as the method leaves it. -/
def TopicsPublisher.getTopicArn {σ : Type} (p : TopicsPublisher σ) (topicName : String)
    (w : σ) : Ran (String × Option GoError) σ × TopicsPublisher σ :=
  if p.topicsCache.has topicName then
    ({ value := some (p.topicsCache.get topicName, none), calls := [], state := w }, p)
  else
    let r := Zaws.getTopicArn p.snsClient topicName w
    match r.value with
    | none => ({ value := none, calls := r.calls, state := r.state }, p)
    | some (_, some e) => ({ value := some ("", some e), calls := r.calls, state := r.state }, p)
    | some (resultArn, none) =>
      ({ value := some (resultArn, none), calls := r.calls, state := r.state },
        { p with topicsCache := p.topicsCache.set topicName resultArn })

/-- `func (p *TopicsPublisher) Publish(topicName, message string) error`: the
run, and the publisher as the method leaves it. -/
def TopicsPublisher.Publish {σ : Type} (p : TopicsPublisher σ) (topicName message : String)
    (w : σ) : Ran (Option GoError) σ × TopicsPublisher σ :=
  match p.getTopicArn topicName w with
  | (r, p) =>
    match r.value with
    | none => ({ value := none, calls := r.calls, state := r.state }, p)
    | some (_, some e) => ({ value := some (some e), calls := r.calls, state := r.state }, p)
    | some (topicArn, none) =>
      let input : PublishInput :=
        { Message := some message, TopicArn := some topicArn, Subject := none,
          MessageAttributes := [] }
      match p.snsClient.Publish input r.state with
      | (err, w) =>
        ({ value := some err, calls := r.calls ++ [AwsCall.Publish input], state := w }, p)

/-! ## `tagging.go`: `createTopicTags` -/

/-- The read `*t.Key` of a tag whose key is set. -/
def tagKey (t : Tag) : String := t.Key.getD ""

/-- `sort.SliceStable(x, less)`: the elements of `x` ordered by `less`, equal
elements in their original order.  It is an insertion that places each
element before the first one that is not less than it. -/
def sortSliceStable {α : Type} (less : α → α → Bool) (x : List α) : List α :=
  List.insertionSort (fun a b => less b a = false) x

/-- `func createTopicTags(tags map[string]string) []types.Tag`; `none` is the
nil slice, and the order of the entries of `tags` is the order in which
`range` visits the map.  The comparison `<` of two Go strings is by bytes,
which on well-formed UTF-8 text is the lexicographic order of the lists of
characters. -/
def createTopicTags (tags : StringMap) : Option (List Tag) :=
  match validateTags tags with
  | some _ => none
  | none =>
    let topicTags : List Tag := tags.map fun kv => { Key := some kv.1, Value := some kv.2 }
    some (sortSliceStable (fun a b => decide ((tagKey a).toList < (tagKey b).toList)) topicTags)

/-! ### Fixtures of `listener_test.go`, `manager_test.go`, `topic_setup_test.go`,
`topics_publisher_test.go` -/

/-- The message `types.Message\x7b\x7d` of the case "poll should not delete
message when handler returns error": no field is set. -/
def emptyMessage : Message :=
  { MessageId := none, Body := none, ReceiptHandle := none }

/-- The listener of that case: the handler returns `handlerErr`. -/
def rejectingListener : SQSListener Nat :=
  { testListener with Handle := fun _ n => (some handlerErr, n) }

/-- A stand-in for `json.Marshal` on one statement; texts are not escaped. -/
def testMarshalStatement (s : StatementStruct) : String :=
  "\x7b\"Sid\":\"" ++ s.Sid ++ "\",\"Effect\":\"" ++ s.Effect ++
    "\",\"Principal\":\x7b\"Service\":\"" ++ s.Principal.Service ++
    "\"\x7d,\"Action\":\"" ++ s.Action ++ "\",\"Resource\":\"" ++ s.Resource ++
    "\",\"Condition\":\x7b\"ArnEquals\":\x7b\"aws:SourceArn\":\"" ++
    s.Condition.ArnEquals.AwsSourceArn ++ "\"\x7d\x7d\x7d"

/-- A stand-in for `json.Marshal` on a policy: it never fails; texts are not
escaped. -/
def testMarshalPolicy (p : PolicyStruct) : String × Option GoError :=
  ("\x7b\"Version\":\"" ++ p.Version ++ "\",\"Id\":\"" ++ p.ID ++ "\",\"Statement\":[" ++
    String.intercalate "," (p.Statement.map testMarshalStatement) ++ "]\x7d", none)

/-- A policy that a queue already has, with one statement. -/
def existingPolicy : PolicyStruct :=
  { Version := "2012-10-17",
    ID := "arn:test-queue/SQSDefaultPolicy",
    Statement :=
      [{ Sid := "Sid1580665629194", Effect := "Allow", Principal := { Service := "*" },
         Action := "SQS:SendMessage", Resource := "test-queue-url",
         Condition := { ArnEquals := { AwsSourceArn := "arn:first-topic" } } }] }

/-- A stand-in for `json.Unmarshal` into a policy: it knows the default policy
text and the text of `existingPolicy`, and fails on every other text. -/
def testUnmarshalPolicy (text : String) : Option PolicyStruct × Option GoError :=
  if text = defaultPolicyText then
    (some { Version := "2012-10-17", ID := "arn:test-queue/SQSDefaultPolicy", Statement := [] },
      none)
  else if text = (testMarshalPolicy existingPolicy).1 then (some existingPolicy, none)
  else (none, some (errorsNew "invalid character"))

/-- The error `awsError` of `TestManager_SubscribeQueueToTopic`. -/
def awsError : GoError := errorsNew "aws error"

/-- A queue service whose fifth request of a run fails when it is a look-up
of the queue ARN; every other request succeeds, and the queue has no
policy.  The state counts the requests. -/
def flakySQSClient : SQSClient Nat :=
  { testSQSClient with
    GetQueueAttributes := fun input n =>
      if input.AttributeNames = ["QueueArn"] then
        if n = 4 then ((none, some awsError), n + 1)
        else ((some { Attributes := [("QueueArn", "arn:" ++ input.QueueUrl.getD "")] }, none),
          n + 1)
      else ((some { Attributes := [] }, none), n + 1) }

/-- The manager over the flaky queue service. -/
def flakyManager : Manager Nat :=
  { snsClient := testSNSClient, sqsClient := flakySQSClient }

/-- A queue service whose queue has the policy `existingPolicy`. -/
def policySQSClient : SQSClient Nat :=
  { testSQSClient with
    GetQueueAttributes := fun input n =>
      if input.AttributeNames = ["QueueArn"] then
        ((some { Attributes := [("QueueArn", "arn:" ++ input.QueueUrl.getD "")] }, none), n + 1)
      else ((some { Attributes := [("Policy", (testMarshalPolicy existingPolicy).1)] }, none),
        n + 1) }

/-- The publisher that `setup` of `topics_publisher_test.go` returns, over the
topic service of the examples. -/
def testPublisher : TopicsPublisher Nat :=
  { snsClient := testSNSClient, topicsCache := [("test-topic-1", "test-arn")] }

/-- The publisher of the case "Publish returns error when publish causes an
error, but caches the topic arn": the look-up succeeds and `Publish` fails. -/
def failingPublisher : TopicsPublisher Nat :=
  { snsClient :=
      { testSNSClient with
        Publish := fun _ n => (some (errorsNew "publishing error"), n + 1) },
    topicsCache := [("test-topic-1", "test-arn")] }

/-- The request that `createQueue` sends for a name and a configuration whose
tags pass `validateTags`. -/
def createQueueInput (queueName : String) (config : QueueConfig) : CreateQueueInput :=
  { Attributes :=
      [("ReceiveMessageWaitTimeSeconds", Itoa config.ReceiveWaitTimeSeconds),
       ("DelaySeconds", Itoa config.DelaySeconds),
       ("MessageRetentionPeriod", Itoa config.MaxMessageRetentionPeriod),
       ("VisibilityTimeout", Itoa config.DefaultVisibilityTimeout)],
    QueueName := some queueName,
    Tags := config.Tags }

/-! ## Lemmas on the retry loop -/

section RetryLemmas

variable {σ : Type} (function : σ → Option GoError × σ) (rt : Runtime) (config : RetryConfig)

theorem retryLoop_zero (i : Nat) (err : Option GoError) (w : σ) (trace : List RetryEvent) :
    retryLoop function rt config 0 i err w trace = { err := err, trace := trace, state := w } := by
  simp [retryLoop]

/-- One iteration whose execution is throttled: sleep, then go on. -/
theorem retryLoop_throttled (n i : Nat) (err : Option GoError) (w : σ)
    (trace : List RetryEvent) (h : isThrottle (function w).1 = true) :
    retryLoop function rt config (n + 1) i err w trace =
      retryLoop function rt config n (i + 1) (function w).1 (function w).2
        (trace ++ [RetryEvent.call (function w).1, RetryEvent.sleep (waitDuration rt config i)]) := by
  rcases hfw : function w with ⟨r, w1⟩
  rw [hfw] at h
  cases r with
  | none => simp [isThrottle] at h
  | some e =>
    simp only [isThrottle] at h
    simp [retryLoop, hfw, h]

/-- One iteration whose execution is not throttled: the loop breaks. -/
theorem retryLoop_break (n i : Nat) (err : Option GoError) (w : σ)
    (trace : List RetryEvent) (h : isThrottle (function w).1 = false) :
    retryLoop function rt config (n + 1) i err w trace =
      { err := (function w).1, trace := trace ++ [RetryEvent.call (function w).1],
        state := (function w).2 } := by
  rcases hfw : function w with ⟨r, w1⟩
  rw [hfw] at h
  cases r with
  | none => simp [retryLoop, hfw]
  | some e =>
    simp only [isThrottle] at h
    simp [retryLoop, hfw, h]

theorem resultAt_succ (w : σ) (j : Nat) :
    resultAt function w (j + 1) = resultAt function (function w).2 j := by
  simp [resultAt, stateBefore]

theorem resultAt_zero (w : σ) : resultAt function w 0 = (function w).1 := by
  simp [resultAt, stateBefore]

/-- While the first `k` executions are throttled the loop keeps going: it
reaches index `i + k` having produced the trace of `k` throttled rounds. -/
theorem retryLoop_throttled_rounds (k : Nat) :
    ∀ (m i : Nat) (err : Option GoError) (w : σ) (trace : List RetryEvent),
      (∀ j, j < k → isThrottle (resultAt function w j) = true) →
      retryLoop function rt config (k + m) i err w trace =
        retryLoop function rt config m (i + k) (errAfter function err w k)
          (stateBefore function w k) (trace ++ throttledTrace function rt config k i w) := by
  induction k with
  | zero => intro m i err w trace _; simp [errAfter, stateBefore, throttledTrace]
  | succ k ih =>
    intro m i err w trace h
    have h0 : isThrottle (function w).1 = true := by
      have := h 0 (Nat.succ_pos k)
      simpa [resultAt_zero] using this
    have hrest : ∀ j, j < k → isThrottle (resultAt function (function w).2 j) = true := by
      intro j hj
      have := h (j + 1) (Nat.succ_lt_succ hj)
      simpa [resultAt_succ] using this
    have e1 : k + 1 + m = (k + m) + 1 := by omega
    rw [e1, retryLoop_throttled function rt config (k + m) i err w trace h0,
      ih m (i + 1) _ _ _ hrest]
    have e2 : i + 1 + k = i + (k + 1) := by omega
    rw [e2]
    congr 1
    · cases k with
      | zero => simp [errAfter, resultAt_zero]
      | succ k => simp [errAfter, resultAt_succ]
    · simp [throttledTrace]

theorem executions_append (t1 t2 : List RetryEvent) :
    executions (t1 ++ t2) = executions t1 + executions t2 := by
  simp [executions]

theorem waits_append (t1 t2 : List RetryEvent) : waits (t1 ++ t2) = waits t1 ++ waits t2 := by
  simp [waits]

theorem executions_throttledTrace (k : Nat) :
    ∀ (i : Nat) (w : σ), executions (throttledTrace function rt config k i w) = k := by
  induction k with
  | zero => intro i w; simp [throttledTrace, executions]
  | succ k ih =>
    intro i w
    have := ih (i + 1) (function w).2
    simp only [executions] at this
    simp [throttledTrace, executions, this]

theorem waits_length_throttledTrace (k : Nat) :
    ∀ (i : Nat) (w : σ), (waits (throttledTrace function rt config k i w)).length = k := by
  induction k with
  | zero => intro i w; simp [throttledTrace, waits]
  | succ k ih =>
    intro i w
    have := ih (i + 1) (function w).2
    simp only [waits] at this
    simp [throttledTrace, waits, this]

end RetryLemmas

/-- The loop executes the operation at most once per iteration it has left. -/
theorem executions_retryLoop_le {σ : Type} (function : σ → Option GoError × σ) (rt : Runtime)
    (config : RetryConfig) (n : Nat) :
    ∀ (i : Nat) (err : Option GoError) (w : σ) (trace : List RetryEvent),
      executions (retryLoop function rt config n i err w trace).trace ≤ executions trace + n := by
  induction n with
  | zero => intro i err w trace; simp [retryLoop]
  | succ n ih =>
    intro i err w trace
    cases h : isThrottle (function w).1 with
    | true =>
      rw [retryLoop_throttled function rt config n i err w trace h]
      refine le_trans (ih _ _ _ _) ?_
      rw [executions_append]
      simp [executions]
      omega
    | false =>
      rw [retryLoop_break function rt config n i err w trace h]
      rw [executions_append]
      simp [executions]

/-- The loop executes the operation at least once when it has an iteration
left. -/
theorem executions_retryLoop_ge {σ : Type} (function : σ → Option GoError × σ) (rt : Runtime)
    (config : RetryConfig) (n : Nat) :
    ∀ (i : Nat) (err : Option GoError) (w : σ) (trace : List RetryEvent),
      executions trace + min n 1 ≤
        executions (retryLoop function rt config n i err w trace).trace := by
  induction n with
  | zero => intro i err w trace; simp [retryLoop]
  | succ n ih =>
    intro i err w trace
    cases h : isThrottle (function w).1 with
    | true =>
      rw [retryLoop_throttled function rt config n i err w trace h]
      refine le_trans ?_ (ih _ _ _ _)
      rw [executions_append]
      simp [executions]
    | false =>
      rw [retryLoop_break function rt config n i err w trace h]
      rw [executions_append]
      simp [executions]

/-- In constant mode every sleep of the loop lasts `WaitBase`. -/
theorem waits_retryLoop_constant {σ : Type} (function : σ → Option GoError × σ) (rt : Runtime)
    (config : RetryConfig) (hmode : config.Backoff = false) (n : Nat) :
    ∀ (i : Nat) (err : Option GoError) (w : σ) (trace : List RetryEvent),
      (∀ d ∈ waits trace, d = config.WaitBase) →
      ∀ d ∈ waits (retryLoop function rt config n i err w trace).trace, d = config.WaitBase := by
  induction n with
  | zero => intro i err w trace h; simpa [retryLoop] using h
  | succ n ih =>
    intro i err w trace h
    cases hthr : isThrottle (function w).1 with
    | true =>
      rw [retryLoop_throttled function rt config n i err w trace hthr]
      apply ih
      intro d hd
      rw [waits_append] at hd
      rcases List.mem_append.mp hd with hd | hd
      · exact h d hd
      · simp [waits, waitDuration, hmode] at hd
        exact hd
    | false =>
      rw [retryLoop_break function rt config n i err w trace hthr]
      intro d hd
      rw [waits_append] at hd
      rcases List.mem_append.mp hd with hd | hd
      · exact h d hd
      · simp [waits] at hd

/-! ## The retry wrapper: claims -/

/-- C1: with `Attempts = N ≥ 0`, in either backoff mode, when every one of the
first `N + 1` executions of the operation returns a throttling error, `Retry`
executes the operation exactly `N + 1` times and returns the throttling error
of the last of these executions. -/
theorem retry_all_throttled {σ : Type} (publishFunc : String → σ → Option GoError × σ)
    (message : String) (rt : Runtime) (opts : List RetryOption) (w : σ) (N : Nat)
    (hN : (applyOptions opts).Attempts = (N : Int))
    (hthr : ∀ j, j ≤ N → isThrottle (resultAt (publishFunc message) w j) = true) :
    executions (Retry publishFunc message rt opts w).trace = N + 1 ∧
      (Retry publishFunc message rt opts w).err = resultAt (publishFunc message) w N ∧
      isThrottle (Retry publishFunc message rt opts w).err = true := by
  have hn : ((applyOptions opts).Attempts + 1).toNat = (N + 1) + 0 := by
    rw [hN]; omega
  have hrun : Retry publishFunc message rt opts w =
      { err := resultAt (publishFunc message) w N,
        trace := throttledTrace (publishFunc message) rt (applyOptions opts) (N + 1) 0 w,
        state := stateBefore (publishFunc message) w (N + 1) } := by
    unfold Retry defaultRetry
    simp only []
    rw [hn, retryLoop_throttled_rounds (publishFunc message) rt _ (N + 1) 0 0 none w []
      (fun j hj => hthr j (Nat.lt_succ_iff.mp hj)), retryLoop_zero]
    simp [errAfter]
  rw [hrun]
  exact ⟨executions_throttledTrace _ _ _ _ _ _, rfl, hthr N (Nat.le_refl N)⟩

/-- The run of the test "throttles more times than maximum attempts": five
throttles against `Attempts = 3` give four executions and the throttle error. -/
theorem retry_all_throttled_witness :
    (applyOptions [WithConstant 3 Millisecond]).Attempts = ((3 : Nat) : Int) ∧
      (∀ j, j ≤ 3 → isThrottle (resultAt (RetryPublish 5 "test-message") 0 j) = true) ∧
      executions (Retry (RetryPublish 5) "test-message" testRuntime
        [WithConstant 3 Millisecond] 0).trace = 3 + 1 ∧
      (Retry (RetryPublish 5) "test-message" testRuntime [WithConstant 3 Millisecond] 0).err =
        resultAt (RetryPublish 5 "test-message") 0 3 ∧
      isThrottle (Retry (RetryPublish 5) "test-message" testRuntime
        [WithConstant 3 Millisecond] 0).err = true :=
  ⟨by decide, by decide,
    retry_all_throttled (RetryPublish 5) "test-message" testRuntime
      [WithConstant 3 Millisecond] 0 3 (by decide) (by decide)⟩

/-- Rounding a duration of the non-negative `int64` range to the millisecond
stays in that range and moves it by at most half a millisecond. -/
theorem Duration_Round_millisecond (d : Int) (h0 : 0 ≤ d) (h1 : d ≤ maxInt64) :
    0 ≤ Duration.Round d Millisecond ∧ Duration.Round d Millisecond ≤ maxInt64 ∧
      Duration.Round d Millisecond ≤ d + 500000 ∧ d ≤ Duration.Round d Millisecond + 500000 := by
  have hmod : Int.tmod d 1000000 = d % 1000000 := Int.tmod_eq_emod h0 (by norm_num)
  unfold Duration.Round lessThanHalf Millisecond maxInt64 at *
  simp only [hmod]
  have hlt : ¬ d < 0 := by omega
  simp only [hlt, if_false, show ¬ ((1000000 : Int) ≤ 0) by norm_num]
  split_ifs with ha hb <;> simp at * <;> omega

theorem stateBefore_succ_last {σ : Type} (function : σ → Option GoError × σ) (k : Nat) :
    ∀ w : σ, stateBefore function w (k + 1) = (function (stateBefore function w k)).2 := by
  induction k with
  | zero => intro w; simp [stateBefore]
  | succ k ih => intro w; rw [stateBefore, ih]; simp [stateBefore]

/-- When the first `k` executions are throttled and execution `k + 1` is not,
with `k ≤ Attempts`, the run is `k` throttled rounds and one more execution,
whose result is returned. -/
theorem defaultRetry_break_after {σ : Type} (function : σ → Option GoError × σ) (rt : Runtime)
    (opts : List RetryOption) (w : σ) (N k : Nat)
    (hN : (applyOptions opts).Attempts = (N : Int)) (hk : k ≤ N)
    (hthr : ∀ j, j < k → isThrottle (resultAt function w j) = true)
    (hstop : isThrottle (resultAt function w k) = false) :
    defaultRetry function rt opts w =
      { err := resultAt function w k,
        trace := throttledTrace function rt (applyOptions opts) k 0 w ++
          [RetryEvent.call (resultAt function w k)],
        state := stateBefore function w (k + 1) } := by
  have hn : ((applyOptions opts).Attempts + 1).toNat = k + ((N - k) + 1) := by
    rw [hN]; omega
  unfold defaultRetry
  simp only []
  rw [hn, retryLoop_throttled_rounds function rt _ k ((N - k) + 1) 0 none w [] hthr,
    retryLoop_break function rt _ (N - k) _ _ _ _ (by simpa [resultAt] using hstop)]
  simp [resultAt, stateBefore_succ_last]

/-- C2: with `Attempts = N` and `k < N`, when the first `k` executions return a
throttling error and execution `k + 1` returns an error that is not a
throttling error, `Retry` executes the operation exactly `k + 1` times and
returns the error of execution `k + 1`. -/
theorem retry_stops_throttling {σ : Type} (publishFunc : String → σ → Option GoError × σ)
    (message : String) (rt : Runtime) (opts : List RetryOption) (w : σ) (N k : Nat)
    (e : GoError)
    (hN : (applyOptions opts).Attempts = (N : Int)) (hk : k < N)
    (hthr : ∀ j, j < k → isThrottle (resultAt (publishFunc message) w j) = true)
    (hres : resultAt (publishFunc message) w k = some e) (he : e.throttled = false) :
    executions (Retry publishFunc message rt opts w).trace = k + 1 ∧
      (Retry publishFunc message rt opts w).err = some e := by
  have hstop : isThrottle (resultAt (publishFunc message) w k) = false := by
    rw [hres]; exact he
  have hrun := defaultRetry_break_after (publishFunc message) rt opts w N k hN (Nat.le_of_lt hk)
    hthr hstop
  unfold Retry
  rw [hrun]
  refine ⟨?_, hres⟩
  rw [executions_append, executions_throttledTrace]
  simp [executions]

/-- The run of the test "throttles less times than maximum attempts": two
throttles against `Attempts = 3` give three executions and `errReturn`. -/
theorem retry_stops_throttling_witness :
    (applyOptions [WithExponentialBackoff 3 Millisecond]).Attempts = ((3 : Nat) : Int) ∧
      2 < 3 ∧
      (∀ j, j < 2 → isThrottle (resultAt (RetryPublish 2 "test-message") 0 j) = true) ∧
      resultAt (RetryPublish 2 "test-message") 0 2 = some errReturn ∧
      errReturn.throttled = false ∧
      executions (Retry (RetryPublish 2) "test-message" testRuntime
        [WithExponentialBackoff 3 Millisecond] 0).trace = 2 + 1 ∧
      (Retry (RetryPublish 2) "test-message" testRuntime
        [WithExponentialBackoff 3 Millisecond] 0).err = some errReturn :=
  ⟨by decide, by decide, by decide, by decide, by decide,
    retry_stops_throttling (RetryPublish 2) "test-message" testRuntime
      [WithExponentialBackoff 3 Millisecond] 0 3 2 errReturn (by decide) (by decide)
      (by decide) (by decide) (by decide)⟩

/-- C3: with `Attempts = N ≥ 0`, in either backoff mode, when exactly the first
`N` executions return a throttling error and execution `N + 1` returns
something else (success or another error), `Retry` executes the operation
exactly `N + 1` times and returns the result of execution `N + 1`. -/
theorem retry_last_attempt_result {σ : Type} (publishFunc : String → σ → Option GoError × σ)
    (message : String) (rt : Runtime) (opts : List RetryOption) (w : σ) (N : Nat)
    (hN : (applyOptions opts).Attempts = (N : Int))
    (hthr : ∀ j, j < N → isThrottle (resultAt (publishFunc message) w j) = true)
    (hstop : isThrottle (resultAt (publishFunc message) w N) = false) :
    executions (Retry publishFunc message rt opts w).trace = N + 1 ∧
      (Retry publishFunc message rt opts w).err = resultAt (publishFunc message) w N := by
  have hrun := defaultRetry_break_after (publishFunc message) rt opts w N N hN (Nat.le_refl N)
    hthr hstop
  unfold Retry
  rw [hrun]
  refine ⟨?_, rfl⟩
  rw [executions_append, executions_throttledTrace]
  simp [executions]

/-- The scenario of the spec: `RetryConfig{attempts:2, wait:1ms, backoff:false}`
around an operation that throttles twice and then succeeds gives 3 calls and
a nil result. -/
theorem retry_last_attempt_result_witness :
    ((applyOptions [WithConstant 2 Millisecond]).Attempts = ((2 : Nat) : Int) ∧
      (∀ j, j < 2 → isThrottle (resultAt (throttleThenSucceed 2 "m") 0 j) = true) ∧
      isThrottle (resultAt (throttleThenSucceed 2 "m") 0 2) = false) ∧
      (executions (Retry (throttleThenSucceed 2) "m" testRuntime
          [WithConstant 2 Millisecond] 0).trace = 2 + 1 ∧
        (Retry (throttleThenSucceed 2) "m" testRuntime [WithConstant 2 Millisecond] 0).err =
          resultAt (throttleThenSucceed 2 "m") 0 2) ∧
      resultAt (throttleThenSucceed 2 "m") 0 2 = none :=
  ⟨⟨by decide, by decide, by decide⟩,
    retry_last_attempt_result (throttleThenSucceed 2) "m" testRuntime
      [WithConstant 2 Millisecond] 0 2 (by decide) (by decide) (by decide),
    by decide⟩

/-- C4: with `Attempts ≥ 0`, when the first execution of the operation returns
an error that is not a throttling error, `Retry` executes the operation
exactly once, sleeps not at all, and returns that error. -/
theorem retry_terminal_error {σ : Type} (publishFunc : String → σ → Option GoError × σ)
    (message : String) (rt : Runtime) (opts : List RetryOption) (w : σ) (e : GoError)
    (hN : 0 ≤ (applyOptions opts).Attempts)
    (hres : resultAt (publishFunc message) w 0 = some e) (he : e.throttled = false) :
    executions (Retry publishFunc message rt opts w).trace = 1 ∧
      waits (Retry publishFunc message rt opts w).trace = [] ∧
      (Retry publishFunc message rt opts w).err = some e := by
  have hstop : isThrottle (resultAt (publishFunc message) w 0) = false := by
    rw [hres]; exact he
  have hN1 : (applyOptions opts).Attempts = (((applyOptions opts).Attempts.toNat : Nat) : Int) :=
    (Int.toNat_of_nonneg hN).symm
  have hrun := defaultRetry_break_after (publishFunc message) rt opts w _ 0 hN1 (Nat.zero_le _)
    (fun j hj => absurd hj (Nat.not_lt_zero j)) hstop
  unfold Retry
  rw [hrun]
  simp [throttledTrace, executions, waits, hres]

/-- An operation that fails at once with `errReturn`, under the default
configuration. -/
theorem retry_terminal_error_witness :
    (0 ≤ (applyOptions []).Attempts ∧
      resultAt (RetryPublish 0 "test-message") 0 0 = some errReturn ∧
      errReturn.throttled = false) ∧
      executions (Retry (RetryPublish 0) "test-message" testRuntime [] 0).trace = 1 ∧
      waits (Retry (RetryPublish 0) "test-message" testRuntime [] 0).trace = [] ∧
      (Retry (RetryPublish 0) "test-message" testRuntime [] 0).err = some errReturn :=
  ⟨⟨by decide, by decide, by decide⟩,
    retry_terminal_error (RetryPublish 0) "test-message" testRuntime [] 0 errReturn
      (by decide) (by decide) (by decide)⟩

/-- C5 (the code at the failing input): in the run of the test "throttles more
times than maximum attempts", with `Attempts = 3` and constant mode, all
four executions are throttled and `Retry` sleeps four times, the last time
after the final execution, before it returns the throttling error. -/
theorem retry_sleeps_after_final_execution :
    (Retry (RetryPublish 5) "test-message" testRuntime [WithConstant 3 Millisecond] 0).trace =
        [RetryEvent.call (some errThrottle), RetryEvent.sleep Millisecond,
          RetryEvent.call (some errThrottle), RetryEvent.sleep Millisecond,
          RetryEvent.call (some errThrottle), RetryEvent.sleep Millisecond,
          RetryEvent.call (some errThrottle), RetryEvent.sleep Millisecond] ∧
      executions (Retry (RetryPublish 5) "test-message" testRuntime
        [WithConstant 3 Millisecond] 0).trace = 4 ∧
      (waits (Retry (RetryPublish 5) "test-message" testRuntime
        [WithConstant 3 Millisecond] 0).trace).length = 4 := by
  decide

/-- C6: with `Attempts = N ≥ 0`, whatever the operation does, `Retry` executes
it at least once and at most `N + 1` times, and exactly once when `N = 0`. -/
theorem retry_execution_bounds {σ : Type} (publishFunc : String → σ → Option GoError × σ)
    (message : String) (rt : Runtime) (opts : List RetryOption) (w : σ) (N : Nat)
    (hN : (applyOptions opts).Attempts = (N : Int)) :
    1 ≤ executions (Retry publishFunc message rt opts w).trace ∧
      executions (Retry publishFunc message rt opts w).trace ≤ N + 1 ∧
      (N = 0 → executions (Retry publishFunc message rt opts w).trace = 1) := by
  have hn : ((applyOptions opts).Attempts + 1).toNat = N + 1 := by
    rw [hN]; omega
  have hle := executions_retryLoop_le (publishFunc message) rt (applyOptions opts) (N + 1) 0 none
    w []
  have hge := executions_retryLoop_ge (publishFunc message) rt (applyOptions opts) (N + 1) 0 none
    w []
  have h0 : executions ([] : List RetryEvent) = 0 := rfl
  rw [h0] at hle hge
  have hrun : Retry publishFunc message rt opts w =
      retryLoop (publishFunc message) rt (applyOptions opts)
        ((applyOptions opts).Attempts + 1).toNat 0 none w [] := rfl
  rw [hrun, hn]
  refine ⟨by omega, by omega, fun hz => ?_⟩
  subst hz
  omega

/-- With `Attempts = 0` the run of the test operation has one execution. -/
theorem retry_execution_bounds_witness :
    (applyOptions [WithConstant 0 Millisecond]).Attempts = ((0 : Nat) : Int) ∧
      1 ≤ executions (Retry (RetryPublish 5) "test-message" testRuntime
        [WithConstant 0 Millisecond] 0).trace ∧
      executions (Retry (RetryPublish 5) "test-message" testRuntime
        [WithConstant 0 Millisecond] 0).trace ≤ 0 + 1 ∧
      (0 = 0 → executions (Retry (RetryPublish 5) "test-message" testRuntime
        [WithConstant 0 Millisecond] 0).trace = 1) :=
  ⟨by decide,
    retry_execution_bounds (RetryPublish 5) "test-message" testRuntime
      [WithConstant 0 Millisecond] 0 0 (by decide)⟩

/-- C7: in constant mode (`Backoff` false) every sleep of `Retry` lasts exactly
the configured `WaitBase`, whatever the retry index. -/
theorem retry_constant_wait {σ : Type} (publishFunc : String → σ → Option GoError × σ)
    (message : String) (rt : Runtime) (opts : List RetryOption) (w : σ)
    (hmode : (applyOptions opts).Backoff = false) :
    ∀ d ∈ waits (Retry publishFunc message rt opts w).trace,
      d = (applyOptions opts).WaitBase := by
  unfold Retry defaultRetry
  simp only []
  apply waits_retryLoop_constant (publishFunc message) rt (applyOptions opts) hmode
  intro d hd
  simp [waits] at hd

/-- The run of the test with two throttles in constant mode: both sleeps last
one millisecond. -/
theorem retry_constant_wait_witness :
    (applyOptions [WithConstant 3 Millisecond]).Backoff = false ∧
      waits (Retry (RetryPublish 2) "test-message" testRuntime
        [WithConstant 3 Millisecond] 0).trace = [Millisecond, Millisecond] ∧
      ∀ d ∈ waits (Retry (RetryPublish 2) "test-message" testRuntime
        [WithConstant 3 Millisecond] 0).trace,
        d = (applyOptions [WithConstant 3 Millisecond]).WaitBase :=
  ⟨by decide, by decide,
    retry_constant_wait (RetryPublish 2) "test-message" testRuntime
      [WithConstant 3 Millisecond] 0 (by decide)⟩

/-! ## The exponential wait -/

theorem truncToInt_intCast (z : Int) : truncToInt (z : ℚ) = z := by
  unfold truncToInt
  split <;> simp

theorem float64ToDuration_intCast (rt : Runtime) (z : Int) (h0 : minInt64 ≤ z)
    (h1 : z ≤ maxInt64) : float64ToDuration rt (z : ℚ) = z := by
  unfold float64ToDuration
  rw [truncToInt_intCast, if_pos ⟨h0, h1⟩]

/-- Scaling a non-negative duration below `2^53` by a factor of `[0,1)` and
converting back gives a duration between zero and the one scaled, for every
rounding that is monotone and exact on the integers up to `2^53`. -/
theorem float64ToDuration_scaled (rt : Runtime) (d : Int) (r : ℚ)
    (hmono : ∀ x y : ℚ, x ≤ y → rt.round64 x ≤ rt.round64 y)
    (hexact : ∀ z : Int, -2 ^ 53 ≤ z → z ≤ 2 ^ 53 → rt.round64 (z : ℚ) = (z : ℚ))
    (hd0 : 0 ≤ d) (hd1 : d ≤ 2 ^ 53) (hr0 : 0 ≤ r) (hr1 : r < 1) :
    0 ≤ float64ToDuration rt (rt.round64 (rt.round64 (d : ℚ) * r)) ∧
      float64ToDuration rt (rt.round64 (rt.round64 (d : ℚ) * r)) ≤ d := by
  have hdq : (0 : ℚ) ≤ (d : ℚ) := by exact_mod_cast hd0
  have hx0 : (0 : ℚ) ≤ (d : ℚ) * r := mul_nonneg hdq hr0
  have hx1 : (d : ℚ) * r ≤ (d : ℚ) := by
    calc (d : ℚ) * r ≤ (d : ℚ) * 1 := mul_le_mul_of_nonneg_left (le_of_lt hr1) hdq
      _ = (d : ℚ) := mul_one _
  have hrd : rt.round64 (d : ℚ) = (d : ℚ) := hexact d (by omega) hd1
  have hr00 : rt.round64 (0 : ℚ) = 0 := by
    have := hexact 0 (by norm_num) (by norm_num)
    simpa using this
  have hp0 : (0 : ℚ) ≤ rt.round64 ((d : ℚ) * r) := by
    have := hmono 0 ((d : ℚ) * r) hx0
    rwa [hr00] at this
  have hp1 : rt.round64 ((d : ℚ) * r) ≤ (d : ℚ) := by
    have := hmono ((d : ℚ) * r) (d : ℚ) hx1
    rwa [hrd] at this
  have htrunc : truncToInt (rt.round64 ((d : ℚ) * r)) = ⌊rt.round64 ((d : ℚ) * r)⌋ := by
    unfold truncToInt
    rw [if_pos hp0]
  have hf0 : 0 ≤ ⌊rt.round64 ((d : ℚ) * r)⌋ := Int.floor_nonneg.mpr hp0
  have hf1 : ⌊rt.round64 ((d : ℚ) * r)⌋ ≤ d := by
    have h := Int.floor_le (rt.round64 ((d : ℚ) * r))
    have h2 : ((⌊rt.round64 ((d : ℚ) * r)⌋ : Int) : ℚ) ≤ (d : ℚ) := le_trans h hp1
    exact_mod_cast h2
  have hmin : minInt64 ≤ ⌊rt.round64 ((d : ℚ) * r)⌋ := le_trans (by decide) hf0
  have hmax : ⌊rt.round64 ((d : ℚ) * r)⌋ ≤ maxInt64 :=
    le_trans hf1 (le_trans hd1 (by decide))
  rw [hrd]
  unfold float64ToDuration
  rw [htrunc, if_pos ⟨hmin, hmax⟩]
  exact ⟨hf0, hf1⟩

/-- C8 (as amended): in exponential mode with a non-negative base wait, for
every 1-based retry index `i` below 1024 with `base × 2^i` plus half a
millisecond at most `2^53` nanoseconds (the range in which `float64` holds
every duration exactly) and every jitter factor `r` of `[0,1)`, the wait
before execution `i + 1` is at least 0 and at most `base × 2^i` rounded to
the nearest millisecond, which is at most `base × 2^i` plus half a
millisecond.  The rounding of `float64` enters only as monotone and exact on
the integers up to `2^53`. -/
theorem backoffWait_bounds (rt : Runtime) (base : Int) (i : Nat) (r : ℚ)
    (hmono : ∀ x y : ℚ, x ≤ y → rt.round64 x ≤ rt.round64 y)
    (hexact : ∀ z : Int, -2 ^ 53 ≤ z → z ≤ 2 ^ 53 → rt.round64 (z : ℚ) = (z : ℚ))
    (hbase : 0 ≤ base) (hi : 1 ≤ i) (hi1 : i < 1024) (hr0 : 0 ≤ r) (hr1 : r < 1)
    (hfit : base * 2 ^ i + 500000 ≤ 2 ^ 53) :
    0 ≤ backoffWait rt base (i - 1) r ∧
      backoffWait rt base (i - 1) r ≤ Duration.Round (base * 2 ^ i) Millisecond ∧
      Duration.Round (base * 2 ^ i) Millisecond ≤ base * 2 ^ i + 500000 := by
  have hpow : (1 : Int) ≤ 2 ^ i := one_le_pow₀ (by norm_num)
  have hD0 : 0 ≤ base * 2 ^ i := mul_nonneg hbase (by positivity)
  have hbase1 : base ≤ 2 ^ 53 := by nlinarith
  have hrb : rt.round64 (base : ℚ) = (base : ℚ) := hexact base (by omega) hbase1
  have hexp : (base : ℚ) * 2 ^ (i - 1 + 1) = ((base * 2 ^ i : Int) : ℚ) := by
    rw [Nat.sub_add_cancel hi]
    push_cast
    ring
  have hD1 : base * 2 ^ i ≤ maxInt64 := le_trans (by omega) (show (2 : Int) ^ 53 ≤ maxInt64 by decide)
  have hconv : float64ToDuration rt (rt.round64 (rt.round64 (base : ℚ) * 2 ^ (i - 1 + 1))) =
      base * 2 ^ i := by
    rw [hrb, hexp, hexact (base * 2 ^ i) (by omega) (by omega)]
    exact float64ToDuration_intCast rt _ (le_trans (by decide) hD0) hD1
  obtain ⟨hR0, _, hR2, _⟩ := Duration_Round_millisecond (base * 2 ^ i) hD0 hD1
  have hw := float64ToDuration_scaled rt (Duration.Round (base * 2 ^ i) Millisecond) r hmono
    hexact hR0 (le_trans hR2 hfit) hr0 hr1
  have hlt : i - 1 + 1 < 1024 := by omega
  unfold backoffWait
  simp only [hlt, if_true, hconv]
  exact ⟨hw.1, hw.2, hR2⟩

/-- A base wait of one millisecond, first retry, jitter factor `3/4`. -/
theorem backoffWait_bounds_witness :
    ((∀ x y : ℚ, x ≤ y → testRuntime.round64 x ≤ testRuntime.round64 y) ∧
      (∀ z : Int, -2 ^ 53 ≤ z → z ≤ 2 ^ 53 → testRuntime.round64 (z : ℚ) = (z : ℚ)) ∧
      (0 : Int) ≤ 1000000 ∧ 1 ≤ 1 ∧ 1 < 1024 ∧ (0 : ℚ) ≤ 3 / 4 ∧ (3 / 4 : ℚ) < 1 ∧
      (1000000 : Int) * 2 ^ 1 + 500000 ≤ 2 ^ 53) ∧
      (0 ≤ backoffWait testRuntime 1000000 (1 - 1) (3 / 4) ∧
        backoffWait testRuntime 1000000 (1 - 1) (3 / 4) ≤
          Duration.Round (1000000 * 2 ^ 1) Millisecond ∧
        Duration.Round (1000000 * 2 ^ 1) Millisecond ≤ 1000000 * 2 ^ 1 + 500000) :=
  ⟨⟨fun _ _ h => h, fun _ _ _ => rfl, by norm_num, by norm_num, by norm_num, by norm_num,
      by norm_num, by norm_num⟩,
    backoffWait_bounds testRuntime 1000000 1 (3 / 4) (fun _ _ h => h) (fun _ _ _ => rfl)
      (by norm_num) (by norm_num) (by norm_num) (by norm_num) (by norm_num) (by norm_num)⟩

/-- C8 (as stated, refuted): with base wait 1.3 ms, retry index 1 and jitter
factor 15/16 the product `base × 2^1 = 2.6 ms` is rounded up to 3 ms, and the
wait, 2.8125 ms, is above `base × 2^1`.  Every number of this run is exact
in `float64`. -/
theorem backoffWait_exceeds_unrounded :
    ((0 : Int) ≤ 1300000 ∧ (0 : ℚ) ≤ 15 / 16 ∧ (15 / 16 : ℚ) < 1) ∧
      backoffWait testRuntime 1300000 (1 - 1) (15 / 16) = 2812500 ∧
      ¬ (backoffWait testRuntime 1300000 (1 - 1) (15 / 16) ≤ 1300000 * 2 ^ 1) := by
  have h : backoffWait testRuntime 1300000 (1 - 1) (15 / 16) = 2812500 := by
    norm_num [backoffWait, testRuntime, float64ToDuration, truncToInt, Duration.Round,
      lessThanHalf, Millisecond, minInt64, maxInt64, Int.tmod]
  refine ⟨⟨by norm_num, by norm_num, by norm_num⟩, h, ?_⟩
  rw [h]
  norm_num

/-! ## The listener: one message -/

section HandleMessage

variable {σ : Type} (l : SQSListener σ) (message : Message) (w : σ)

/-- The function `deleteMessage` issues one request and passes its error on. -/
theorem deleteMessage_eq :
    deleteMessage l message w =
      ((l.DeleteMessage { QueueUrl := l.queueURL, ReceiptHandle := message.ReceiptHandle } w).1,
        [ListenerEvent.delete { QueueUrl := l.queueURL, ReceiptHandle := message.ReceiptHandle }
          (l.DeleteMessage { QueueUrl := l.queueURL, ReceiptHandle := message.ReceiptHandle }
            w).1],
        (l.DeleteMessage { QueueUrl := l.queueURL, ReceiptHandle := message.ReceiptHandle }
          w).2) := by
  unfold deleteMessage
  dsimp only
  split <;> rename_i h <;> simp [h]

/-- The run of `handleMessage` when the handler returns an error. -/
theorem handleMessage_err (e : GoError) (h : (l.Handle message w).1 = some e) :
    handleMessage l message w =
      match message.Body with
      | none =>
        { panicked := true, trace := [ListenerEvent.handle message (some e)],
          state := (l.Handle message w).2 }
      | some body =>
        { panicked := false,
          trace := [ListenerEvent.handle message (some e), ListenerEvent.logError body,
            ListenerEvent.logError e.text],
          state := (l.Handle message w).2 } := by
  unfold handleMessage
  generalize l.Handle message w = r at h
  rcases r with ⟨err, w1⟩
  simp only at h
  subst h
  cases message.Body <;> rfl

/-- The run of `handleMessage` when the handler returns no error. -/
theorem handleMessage_ok (h : (l.Handle message w).1 = none) :
    ∃ (derr : Option GoError) (logs : List ListenerEvent) (w2 : σ),
      (∀ ev ∈ logs, ∃ text, ev = ListenerEvent.logError text) ∧
      handleMessage l message w =
        { panicked := false,
          trace := [ListenerEvent.handle message none,
            ListenerEvent.delete
              { QueueUrl := l.queueURL, ReceiptHandle := message.ReceiptHandle } derr] ++ logs,
          state := w2 } := by
  unfold handleMessage
  generalize l.Handle message w = r at h
  rcases r with ⟨err, w1⟩
  simp only at h
  subst h
  dsimp only
  rw [deleteMessage_eq]
  generalize l.DeleteMessage { QueueUrl := l.queueURL, ReceiptHandle := message.ReceiptHandle }
    w1 = r
  rcases r with ⟨derr, w2⟩
  cases derr with
  | none => exact ⟨none, [], w2, by simp, rfl⟩
  | some e => exact ⟨some e, [ListenerEvent.logError e.text], w2, by simp, rfl⟩

theorem handlerCalls_logs (logs : List ListenerEvent)
    (h : ∀ ev ∈ logs, ∃ text, ev = ListenerEvent.logError text) : handlerCalls logs = [] := by
  induction logs with
  | nil => rfl
  | cons ev rest ih =>
    obtain ⟨text, rfl⟩ := h ev (List.mem_cons_self _ _)
    have := ih (fun ev hev => h ev (List.mem_cons_of_mem _ hev))
    simpa [handlerCalls] using this

theorem deleteRequests_logs (logs : List ListenerEvent)
    (h : ∀ ev ∈ logs, ∃ text, ev = ListenerEvent.logError text) : deleteRequests logs = [] := by
  induction logs with
  | nil => rfl
  | cons ev rest ih =>
    obtain ⟨text, rfl⟩ := h ev (List.mem_cons_self _ _)
    have := ih (fun ev hev => h ev (List.mem_cons_of_mem _ hev))
    simpa [deleteRequests] using this

theorem handlerCalls_append (t1 t2 : List ListenerEvent) :
    handlerCalls (t1 ++ t2) = handlerCalls t1 ++ handlerCalls t2 := by
  simp [handlerCalls]

theorem deleteRequests_append (t1 t2 : List ListenerEvent) :
    deleteRequests (t1 ++ t2) = deleteRequests t1 ++ deleteRequests t2 := by
  simp [deleteRequests]

/-- The handler is called exactly once, with the message. -/
theorem handlerCalls_handleMessage :
    handlerCalls (handleMessage l message w).trace = [message] := by
  cases h : (l.Handle message w).1 with
  | some e =>
    rw [handleMessage_err l message w e h]
    cases message.Body <;> simp [handlerCalls]
  | none =>
    obtain ⟨derr, logs, w2, hlogs, hrun⟩ := handleMessage_ok l message w h
    rw [hrun]
    simp only []
    rw [handlerCalls_append, handlerCalls_logs logs hlogs]
    simp [handlerCalls]

/-- After a handler success there is exactly one delete request, with the
queue URL of the listener and the receipt handle of the message, whatever
the delete returns. -/
theorem deleteRequests_handleMessage_ok (h : (l.Handle message w).1 = none) :
    deleteRequests (handleMessage l message w).trace =
      [{ QueueUrl := l.queueURL, ReceiptHandle := message.ReceiptHandle }] := by
  obtain ⟨derr, logs, w2, hlogs, hrun⟩ := handleMessage_ok l message w h
  rw [hrun]
  simp only []
  rw [deleteRequests_append, deleteRequests_logs logs hlogs]
  simp [deleteRequests]

/-- After a handler error there is no delete request. -/
theorem deleteRequests_handleMessage_err (e : GoError) (h : (l.Handle message w).1 = some e) :
    deleteRequests (handleMessage l message w).trace = [] := by
  rw [handleMessage_err l message w e h]
  cases message.Body <;> simp [deleteRequests]

/-- The trace records a handler success exactly when the handler returned no
error. -/
theorem handlerSucceeded_handleMessage :
    handlerSucceeded (handleMessage l message w).trace = (l.Handle message w).1.isNone := by
  cases h : (l.Handle message w).1 with
  | some e =>
    rw [handleMessage_err l message w e h]
    cases message.Body <;> simp [handlerSucceeded]
  | none =>
    obtain ⟨derr, logs, w2, hlogs, hrun⟩ := handleMessage_ok l message w h
    rw [hrun]
    simp [handlerSucceeded]

/-- The function `handleMessage` returns normally on a message with a body. -/
theorem panicked_handleMessage_of_body (body : String) (h : message.Body = some body) :
    (handleMessage l message w).panicked = false := by
  cases hH : (l.Handle message w).1 with
  | some e =>
    rw [handleMessage_err l message w e hH, h]
  | none =>
    obtain ⟨derr, logs, w2, hlogs, hrun⟩ := handleMessage_ok l message w hH
    rw [hrun]

/-- The number of delete requests of one run is one after a handler success
and zero after a handler error. -/
theorem deleteRequests_length_handleMessage :
    (deleteRequests (handleMessage l message w).trace).length =
      if handlerSucceeded (handleMessage l message w).trace then 1 else 0 := by
  rw [handlerSucceeded_handleMessage]
  cases h : (l.Handle message w).1 with
  | none => simp [deleteRequests_handleMessage_ok l message w h]
  | some e => simp [deleteRequests_handleMessage_err l message w e h]

end HandleMessage

/-- C9: for every message that has a body, `handleMessage` calls the handler
exactly once and returns normally; when the handler returns no error it
issues exactly one `DeleteMessage` request, with the queue URL of the
listener and the receipt handle of the message, whether or not that delete
fails; when the handler returns an error it issues no `DeleteMessage`
request. -/
theorem handleMessage_deletes_iff_handled {σ : Type} (l : SQSListener σ) (message : Message)
    (w : σ) (body : String) (hbody : message.Body = some body) :
    handlerCalls (handleMessage l message w).trace = [message] ∧
      (handleMessage l message w).panicked = false ∧
      ((l.Handle message w).1 = none →
        deleteRequests (handleMessage l message w).trace =
          [{ QueueUrl := l.queueURL, ReceiptHandle := message.ReceiptHandle }]) ∧
      (∀ e, (l.Handle message w).1 = some e →
        deleteRequests (handleMessage l message w).trace = []) :=
  ⟨handlerCalls_handleMessage l message w,
    panicked_handleMessage_of_body l message w body hbody,
    deleteRequests_handleMessage_ok l message w,
    deleteRequests_handleMessage_err l message w⟩

/-- The message of `TestSQSListener_deleteMessage`, handled by the test
listener: one handler call, one delete request for `"test handle"` on
`"test-queue.com"`. -/
theorem handleMessage_deletes_iff_handled_witness :
    testMessage.Body = some "test" ∧
      deleteRequests (handleMessage testListener testMessage 0).trace =
        [{ QueueUrl := some "test-queue.com", ReceiptHandle := some "test handle" }] ∧
      (handlerCalls (handleMessage testListener testMessage 0).trace = [testMessage] ∧
        (handleMessage testListener testMessage 0).panicked = false ∧
        ((testListener.Handle testMessage 0).1 = none →
          deleteRequests (handleMessage testListener testMessage 0).trace =
            [{ QueueUrl := testListener.queueURL, ReceiptHandle := testMessage.ReceiptHandle }]) ∧
        (∀ e, (testListener.Handle testMessage 0).1 = some e →
          deleteRequests (handleMessage testListener testMessage 0).trace = [])) :=
  ⟨rfl, by decide,
    handleMessage_deletes_iff_handled testListener testMessage 0 "test" rfl⟩

/-! ## The listener: the poll loop -/

section Poll

variable {σ : Type} (l : SQSListener σ) (request : ReceiveMessageInput)

/-- A step that leaves the tasks alone and does not leave the loop inside a
dispatch keeps the invariant of a batch. -/
theorem BatchInv_of_tasks_eq (first : Nat) (ms : List Message) (pc pc1 : LoopPc)
    (tasks : List Task) (hpc : pc1 = pc ∨ ∀ rest, pc ≠ LoopPc.dispatch rest)
    (h : BatchInv l first ms pc tasks) : BatchInv l first ms pc1 tasks := by
  rcases hpc with hpc | hpc
  · rw [hpc]; exact h
  · refine ⟨?_, h.2⟩
    rcases h.1 with ⟨j, _, hj, _⟩ | h1
    · exact absurd hj (hpc _)
    · exact Or.inr h1

/-- Leaving the dispatch loop at its end keeps the invariant of a batch. -/
theorem BatchInv_dispatch_nil (first : Nat) (ms : List Message) (tasks : List Task)
    (h : BatchInv l first ms (LoopPc.dispatch []) tasks) :
    BatchInv l first ms LoopPc.select tasks := by
  refine ⟨?_, h.2⟩
  rcases h.1 with ⟨j, hj, hpc, hlen⟩ | h1
  · right
    have hnil : ms.drop j = [] := by
      injection hpc with h'
      exact h'.symm
    have : ms.length ≤ j := List.drop_eq_nil_iff.mp hnil
    omega
  · exact Or.inr h1

/-- Starting the task of the next message keeps the invariant of a batch. -/
theorem BatchInv_dispatch_cons (first : Nat) (ms : List Message) (m : Message)
    (rest : List Message) (tasks : List Task)
    (h : BatchInv l first ms (LoopPc.dispatch (m :: rest)) tasks) :
    BatchInv l first ms (LoopPc.dispatch rest) (tasks ++ [newTask m]) := by
  rcases h with ⟨h1, h2⟩
  rcases h1 with ⟨j, hj, hpc, hlen⟩ | h1
  · have hdrop : ms.drop j = m :: rest := by
      injection hpc with h'
      exact h'.symm
    have hjlt : j < ms.length := by
      by_contra hge
      have : ms.drop j = [] := List.drop_eq_nil_iff.mpr (by omega)
      rw [this] at hdrop
      cases hdrop
    have hmj : ms[j]? = some m := by
      have := congrArg (fun xs => xs[0]?) hdrop
      simpa [List.getElem?_drop] using this
    have hrest : ms.drop (j + 1) = rest := by
      have := congrArg (fun xs => xs.drop 1) hdrop
      simpa [List.drop_drop, Nat.add_comm] using this
    refine ⟨Or.inl ⟨j + 1, hjlt, by rw [hrest], by simp [hlen]; omega⟩, ?_⟩
    intro k m1 t hk ht
    by_cases hlt : first + k < tasks.length
    · rw [List.getElem?_append_left hlt] at ht
      exact h2 k m1 t hk ht
    · have hkj : k = j := by
        have hsome : first + k < (tasks ++ [newTask m]).length := by
          by_contra hge
          rw [List.getElem?_eq_none (by omega)] at ht
          cases ht
        simp at hsome
        omega
      subst hkj
      rw [hmj] at hk
      injection hk with hk
      subst hk
      rw [List.getElem?_append_right (by omega)] at ht
      have hidx : first + k - tasks.length = 0 := by omega
      rw [hidx] at ht
      simp at ht
      subst ht
      exact ⟨rfl, fun _ => rfl, fun hns => absurd rfl hns⟩
  · refine ⟨Or.inr (by simp; omega), ?_⟩
    intro k m1 t hk ht
    have hklt : k < ms.length := by
      by_contra hge
      rw [List.getElem?_eq_none (by omega)] at hk
      cases hk
    rw [List.getElem?_append_left (by omega)] at ht
    exact h2 k m1 t hk ht

/-- Replacing a task by one that `TaskOk` accepts for the same messages keeps
the invariant of a batch. -/
theorem BatchInv_set (first : Nat) (ms : List Message) (pc : LoopPc) (tasks : List Task)
    (i : Nat) (t0 t1 : Task) (hi : tasks[i]? = some t0)
    (hok : ∀ m, TaskOk l m t0 → TaskOk l m t1)
    (h : BatchInv l first ms pc tasks) : BatchInv l first ms pc (tasks.set i t1) := by
  refine ⟨by simpa using h.1, ?_⟩
  intro k m t hk ht
  by_cases hik : i = first + k
  · subst hik
    have hlt : first + k < tasks.length := by
      by_contra hge
      rw [List.getElem?_eq_none (by omega)] at hi
      cases hi
    rw [List.getElem?_set_self hlt] at ht
    injection ht with ht
    subst ht
    exact hok m (h.2 k m t0 hk hi)
  · rw [List.getElem?_set_ne hik] at ht
    exact h.2 k m t hk ht

/-- A step of the loop keeps the invariant of a batch. -/
theorem BatchInv_loopStep (first : Nat) (ms : List Message) (s s1 : PollState σ)
    (hstep : loopStep l request s = some s1) (h : BatchInv l first ms s.pc s.tasks) :
    BatchInv l first ms s1.pc s1.tasks := by
  unfold loopStep at hstep
  cases hpc : s.pc with
  | select =>
    have hno : ∀ rest, s.pc ≠ LoopPc.dispatch rest := by
      intro rest hr; rw [hpc] at hr; cases hr
    have key : s1.tasks = s.tasks := by
      rw [hpc] at hstep
      simp only at hstep
      split at hstep
      · injection hstep with hstep; rw [← hstep]
      · split at hstep
        · injection hstep with hstep; rw [← hstep]
        · injection hstep with hstep; rw [← hstep]
        · split at hstep <;> (injection hstep with hstep; rw [← hstep])
    rw [key]
    exact BatchInv_of_tasks_eq l first ms s.pc s1.pc s.tasks (Or.inr hno) h
  | dispatch rest =>
    rw [hpc] at hstep h
    cases rest with
    | nil =>
      simp only at hstep
      injection hstep with hstep
      rw [← hstep]
      exact BatchInv_dispatch_nil l first ms s.tasks h
    | cons m rest =>
      simp only at hstep
      injection hstep with hstep
      rw [← hstep]
      exact BatchInv_dispatch_cons l first ms m rest s.tasks h
  | wait =>
    have hno : ∀ rest, s.pc ≠ LoopPc.dispatch rest := by
      intro rest hr; rw [hpc] at hr; cases hr
    rw [hpc] at hstep
    simp only at hstep
    split at hstep
    · injection hstep with hstep
      rw [← hstep]
      exact BatchInv_of_tasks_eq l first ms s.pc _ s.tasks (Or.inr hno) h
    · cases hstep
  | returned =>
    rw [hpc] at hstep
    cases hstep

/-- Running a task keeps the invariant of a batch. -/
theorem BatchInv_runStep (first : Nat) (ms : List Message) (i : Nat) (s s1 : PollState σ)
    (hstep : runStep l i s = some s1) (h : BatchInv l first ms s.pc s.tasks) :
    BatchInv l first ms s1.pc s1.tasks := by
  unfold runStep at hstep
  cases hi : s.tasks[i]? with
  | none => rw [hi] at hstep; cases hstep
  | some t =>
    rw [hi] at hstep
    simp only at hstep
    split at hstep
    · injection hstep with hstep
      rw [← hstep]
      refine BatchInv_set l first ms s.pc s.tasks i t _ hi ?_ h
      intro m hok
      refine ⟨hok.1, ?_, ?_⟩
      · intro hsp
        simp only at hsp
        split at hsp <;> cases hsp
      · intro _
        simp only
        rw [hok.1]
        exact ⟨s.world, rfl⟩
    · cases hstep

/-- The deferred `Done` of a task keeps the invariant of a batch. -/
theorem BatchInv_doneStep (first : Nat) (ms : List Message) (i : Nat) (s s1 : PollState σ)
    (hstep : doneStep i s = some s1) (h : BatchInv l first ms s.pc s.tasks) :
    BatchInv l first ms s1.pc s1.tasks := by
  unfold doneStep at hstep
  cases hi : s.tasks[i]? with
  | none => rw [hi] at hstep; cases hstep
  | some t =>
    rw [hi] at hstep
    simp only at hstep
    split at hstep
    · rename_i hst
      injection hstep with hstep
      rw [← hstep]
      refine BatchInv_set l first ms s.pc s.tasks i t _ hi ?_ h
      intro m hok
      have hns : t.status ≠ TaskStatus.spawned := by
        rcases hst with hst | hst <;> rw [hst] <;> decide
      refine ⟨hok.1, ?_, ?_⟩
      · intro hsp
        cases hsp
      · intro _
        exact hok.2.2 hns
    · cases hstep

/-- Every step keeps the invariant of a batch. -/
theorem BatchInv_step (first : Nat) (ms : List Message) (a : Action) (s s1 : PollState σ)
    (hstep : step l request a s = some s1) (h : BatchInv l first ms s.pc s.tasks) :
    BatchInv l first ms s1.pc s1.tasks := by
  unfold step at hstep
  by_cases hc : s.crashed = true
  · rw [if_pos hc] at hstep
    cases hstep
  · rw [if_neg hc] at hstep
    cases a with
    | signal =>
      simp only at hstep
      injection hstep with hstep
      rw [← hstep]
      exact h
    | loop => exact BatchInv_loopStep l request first ms s s1 hstep h
    | run i => exact BatchInv_runStep l first ms i s s1 hstep h
    | done i => exact BatchInv_doneStep l first ms i s s1 hstep h

/-- Every schedule keeps the invariant of a batch. -/
theorem BatchInv_runSchedule (first : Nat) (ms : List Message) (acts : List Action) :
    ∀ (s s1 : PollState σ), runSchedule l request acts s = some s1 →
      BatchInv l first ms s.pc s.tasks → BatchInv l first ms s1.pc s1.tasks := by
  induction acts with
  | nil =>
    intro s s1 hrun h
    simp only [runSchedule] at hrun
    injection hrun with hrun
    rw [← hrun]
    exact h
  | cons a acts ih =>
    intro s s1 hrun h
    simp only [runSchedule] at hrun
    cases hstep : step l request a s with
    | none => rw [hstep] at hrun; cases hrun
    | some s2 =>
      rw [hstep] at hrun
      exact ih s2 s1 hrun (BatchInv_step l request first ms a s s2 hstep h)

theorem runSchedule_append (acts1 acts2 : List Action) :
    ∀ s : PollState σ, runSchedule l request (acts1 ++ acts2) s =
      (runSchedule l request acts1 s).bind (runSchedule l request acts2) := by
  induction acts1 with
  | nil => intro s; simp [runSchedule]
  | cons a acts1 ih =>
    intro s
    simp only [List.cons_append, runSchedule]
    cases step l request a s with
    | none => simp
    | some s1 => simp [ih]

/-- The step of the loop that fetches a non-empty batch enters the dispatch of
that batch. -/
theorem step_fetch_batch (s : PollState σ) (ms : List Message) (w1 : σ) (hne : ms ≠ [])
    (hcrash : s.crashed = false) (hpc : s.pc = LoopPc.select) (hsig : s.signalled = false)
    (hfetch : l.ReceiveMessage request s.world = ((some ms, none), w1)) :
    step l request Action.loop s = some { s with pc := LoopPc.dispatch ms, world := w1 } := by
  have hlen : ¬ ms.length < 1 := by
    cases ms with
    | nil => exact absurd rfl hne
    | cons m rest => simp
  unfold step loopStep
  simp [hcrash, hpc, hsig, hfetch, hlen]

/-- From inside the dispatch of `rest`, as many steps of the loop as `rest`
has messages start one task for each, in order, and add one to the counter
for each. -/
theorem runSchedule_dispatch (rest : List Message) :
    ∀ s : PollState σ, s.crashed = false → s.pc = LoopPc.dispatch rest →
      runSchedule l request (List.replicate rest.length Action.loop) s =
        some { s with
          pc := LoopPc.dispatch [],
          counter := s.counter + rest.length,
          tasks := s.tasks ++ rest.map newTask } := by
  induction rest with
  | nil =>
    intro s _ hpc
    cases s
    simp only at hpc
    simp [runSchedule, hpc]
  | cons m rest ih =>
    intro s hcrash hpc
    have hstep : step l request Action.loop s =
        some { s with
          pc := LoopPc.dispatch rest,
          counter := s.counter + 1,
          tasks := s.tasks ++ [newTask m] } := by
      unfold step loopStep
      simp [hcrash, hpc, newTask]
    simp only [List.length_cons, List.replicate_succ, runSchedule, hstep]
    rw [ih { s with
      pc := LoopPc.dispatch rest,
      counter := s.counter + 1,
      tasks := s.tasks ++ [newTask m] } hcrash rfl]
    simp only [List.map_cons, List.append_assoc, List.singleton_append, Nat.cast_add,
      Nat.cast_one]
    congr 2
    ring

/-- A task with a body that has not run yet runs to its end in two steps, when
the counter is positive: the process stays alive, the counter goes down by
one and only this task changes. -/
theorem runSchedule_task (i : Nat) (s : PollState σ) (t : Task) (hcrash : s.crashed = false)
    (hi : s.tasks[i]? = some t) (hsp : t.status = TaskStatus.spawned)
    (hbody : t.message.Body ≠ none) (hcnt : 1 ≤ s.counter) :
    ∃ s1, runSchedule l request [Action.run i, Action.done i] s = some s1 ∧
      s1.crashed = false ∧ s1.counter = s.counter - 1 ∧ s1.pc = s.pc ∧
      s1.tasks = s.tasks.set i
        { t with status := TaskStatus.finished,
                 trace := (handleMessage l t.message s.world).trace } := by
  obtain ⟨body, hb⟩ := Option.ne_none_iff_exists'.mp hbody
  have hpan := panicked_handleMessage_of_body l t.message s.world body hb
  have hlt : i < s.tasks.length := by
    by_contra hge
    rw [List.getElem?_eq_none (by omega)] at hi
    cases hi
  have hneg : ¬ (s.counter - 1 < 0) := by omega
  refine ⟨{ s with
      tasks := s.tasks.set i
        { t with status := TaskStatus.finished,
                 trace := (handleMessage l t.message s.world).trace },
      world := (handleMessage l t.message s.world).state,
      counter := s.counter - 1 }, ?_, hcrash, rfl, rfl, rfl⟩
  simp only [runSchedule, step, runStep, doneStep, hcrash, hi, hsp, hpan]
  simp [List.getElem?_set_self hlt, hneg, hcrash]

/-- Tasks `first`, ..., `first + len - 1`, all with a body and none run yet,
run to their end one after the other when the counter is at least `len`:
the process stays alive, the counter goes down by `len`, all of them finish
and no other task changes. -/
theorem runSchedule_runTasks (len : Nat) :
    ∀ (first : Nat) (s : PollState σ), s.crashed = false →
      (∀ j, first ≤ j → j < first + len →
        ∃ t, s.tasks[j]? = some t ∧ t.status = TaskStatus.spawned ∧ t.message.Body ≠ none) →
      (len : Int) ≤ s.counter →
      ∃ s1, runSchedule l request (runTasks first len) s = some s1 ∧
        s1.crashed = false ∧ s1.counter = s.counter - len ∧ s1.pc = s.pc ∧
        (∀ j, first ≤ j → j < first + len →
          ∃ t, s1.tasks[j]? = some t ∧ t.status = TaskStatus.finished) ∧
        (∀ j, ¬ (first ≤ j ∧ j < first + len) → s1.tasks[j]? = s.tasks[j]?) := by
  induction len with
  | zero =>
    intro first s hcrash _ _
    refine ⟨s, rfl, hcrash, by simp, rfl, ?_, fun _ _ => rfl⟩
    intro j h1 h2
    omega
  | succ len ih =>
    intro first s hcrash hall hcnt
    obtain ⟨t, hi, hsp, hbody⟩ := hall first (Nat.le_refl _) (by omega)
    obtain ⟨s1, hrun1, hcrash1, hcnt1, hpc1, htasks1⟩ :=
      runSchedule_task l request first s t hcrash hi hsp hbody (by push_cast at hcnt; omega)
    have hlt : first < s.tasks.length := by
      by_contra hge
      rw [List.getElem?_eq_none (by omega)] at hi
      cases hi
    have hall1 : ∀ j, first + 1 ≤ j → j < first + 1 + len →
        ∃ t, s1.tasks[j]? = some t ∧ t.status = TaskStatus.spawned ∧ t.message.Body ≠ none := by
      intro j h1 h2
      rw [htasks1, List.getElem?_set_ne (by omega)]
      exact hall j (by omega) (by omega)
    obtain ⟨s2, hrun2, hcrash2, hcnt2, hpc2, hfin2, hframe2⟩ :=
      ih (first + 1) s1 hcrash1 hall1 (by rw [hcnt1]; push_cast at hcnt; omega)
    refine ⟨s2, ?_, hcrash2, ?_, ?_, ?_, ?_⟩
    · have happ : runTasks first (len + 1) =
          [Action.run first, Action.done first] ++ runTasks (first + 1) len := rfl
      rw [happ, runSchedule_append, hrun1]
      exact hrun2
    · rw [hcnt2, hcnt1]; push_cast; ring
    · rw [hpc2, hpc1]
    · intro j h1 h2
      by_cases hj : j = first
      · subst hj
        rw [hframe2 j (by omega), htasks1, List.getElem?_set_self hlt]
        exact ⟨_, rfl, rfl⟩
      · exact hfin2 j (by omega) (by omega)
    · intro j hj
      rw [hframe2 j (by omega), htasks1, List.getElem?_set_ne (by omega)]

/-- When every task of a list issued one delete request after a handler
success and none otherwise, the delete requests of the list are as many as
its handler successes. -/
theorem deleteCount_eq_successCount (ts : List Task)
    (h : ∀ t ∈ ts, (deleteRequests t.trace).length =
      if handlerSucceeded t.trace then 1 else 0) :
    deleteCount ts = successCount ts := by
  induction ts with
  | nil => rfl
  | cons t ts ih =>
    have ht := h t (List.mem_cons_self _ _)
    have hrest := ih (fun t1 h1 => h t1 (List.mem_cons_of_mem _ h1))
    unfold deleteCount successCount at *
    cases hs : handlerSucceeded t.trace with
    | true =>
      rw [hs] at ht
      simp [List.filter_cons, hs, ht, hrest]
      omega
    | false =>
      rw [hs] at ht
      simp [List.filter_cons, hs, ht, hrest]

/-- What `TaskOk` gives for a task that has run: one handler call, on its
message, and one delete request exactly after a handler success. -/
theorem TaskOk_ran (m : Message) (t : Task) (hok : TaskOk l m t)
    (hran : t.status ≠ TaskStatus.spawned) :
    handlerCalls t.trace = [m] ∧
      (deleteRequests t.trace).length = if handlerSucceeded t.trace then 1 else 0 := by
  obtain ⟨w, hw⟩ := hok.2.2 hran
  rw [hw]
  exact ⟨handlerCalls_handleMessage l m w, deleteRequests_length_handleMessage l m w⟩

/-- The tasks of a batch, read by index. -/
theorem batchTasks_getElem? (s : PollState σ) (first len k : Nat) :
    (batchTasks s first len)[k]? = if k < len then s.tasks[first + k]? else none := by
  unfold batchTasks
  rw [List.getElem?_take, List.getElem?_drop]

/-- Once every task of a batch has been started and has run, the tasks of the
batch carry the messages of the batch in order, and their delete requests
are as many as their handler successes. -/
theorem BatchInv_totals (first : Nat) (ms : List Message) (s : PollState σ)
    (hinv : BatchInv l first ms s.pc s.tasks)
    (hran : ∀ k, k < ms.length →
      ∃ t, s.tasks[first + k]? = some t ∧ t.status ≠ TaskStatus.spawned) :
    (batchTasks s first ms.length).map Task.message = ms ∧
      deleteCount (batchTasks s first ms.length) =
        successCount (batchTasks s first ms.length) := by
  constructor
  · apply List.ext_getElem?
    intro k
    rw [List.getElem?_map, batchTasks_getElem?]
    by_cases hk : k < ms.length
    · obtain ⟨t, ht, _⟩ := hran k hk
      have hm : ms[k]? = some ms[k] := List.getElem?_eq_getElem hk
      have hok := hinv.2 k ms[k] t hm ht
      rw [if_pos hk, ht, hm]
      simp [hok.1]
    · rw [if_neg hk, List.getElem?_eq_none (by omega)]
      rfl
  · apply deleteCount_eq_successCount
    intro t ht
    obtain ⟨k, hk⟩ := List.mem_iff_getElem?.mp ht
    rw [batchTasks_getElem?] at hk
    by_cases hlt : k < ms.length
    · rw [if_pos hlt] at hk
      obtain ⟨t1, ht1, hran1⟩ := hran k hlt
      rw [hk] at ht1
      injection ht1 with ht1
      subst ht1
      have hm : ms[k]? = some ms[k] := List.getElem?_eq_getElem hlt
      exact (TaskOk_ran l ms[k] t (hinv.2 k ms[k] t hm hk) hran1).2
    · rw [if_neg hlt] at hk
      cases hk

end Poll

/-- C10: when a fetch of the poll loop returns a non-empty batch, (1) the loop
registers exactly one task per message, in order, adding one to the
live-task counter for each; (2) in every state any schedule can reach
afterwards, the task of each message of the batch has not called the handler
before it runs and, once it has run, has called the handler exactly once, on
its own message, and has issued one delete request exactly if the handler
returned no error, so that once all tasks of the batch have run the delete
requests of the batch are as many as the messages whose handler returned no
error; (3) when the counter is not negative and every message has a body,
the schedule that lets the loop dispatch the batch and then runs its tasks
one after the other brings every task of the batch to its end. -/
theorem poll_batch_handled {σ : Type} (l : SQSListener σ) (request : ReceiveMessageInput)
    (s : PollState σ) (ms : List Message) (w1 : σ) (hne : ms ≠ [])
    (hcrash : s.crashed = false) (hpc : s.pc = LoopPc.select) (hsig : s.signalled = false)
    (hfetch : l.ReceiveMessage request s.world = ((some ms, none), w1)) :
    (∃ s2, runSchedule l request (List.replicate (ms.length + 1) Action.loop) s = some s2 ∧
        s2.tasks = s.tasks ++ ms.map newTask ∧ s2.counter = s.counter + ms.length) ∧
      (∀ acts s1, runSchedule l request (Action.loop :: acts) s = some s1 →
        (∀ k m t, ms[k]? = some m → s1.tasks[s.tasks.length + k]? = some t →
          t.message = m ∧ (t.status = TaskStatus.spawned → t.trace = []) ∧
            (t.status ≠ TaskStatus.spawned →
              handlerCalls t.trace = [m] ∧
                (deleteRequests t.trace).length =
                  if handlerSucceeded t.trace then 1 else 0)) ∧
          ((∀ k, k < ms.length →
              ∃ t, s1.tasks[s.tasks.length + k]? = some t ∧ t.status ≠ TaskStatus.spawned) →
            (batchTasks s1 s.tasks.length ms.length).map Task.message = ms ∧
              deleteCount (batchTasks s1 s.tasks.length ms.length) =
                successCount (batchTasks s1 s.tasks.length ms.length))) ∧
      (0 ≤ s.counter → (∀ m ∈ ms, m.Body ≠ none) →
        ∃ s1, runSchedule l request
            (List.replicate (ms.length + 1) Action.loop ++ runTasks s.tasks.length ms.length)
            s = some s1 ∧
          s1.crashed = false ∧ s1.counter = s.counter ∧
          ∀ k, k < ms.length →
            ∃ t, s1.tasks[s.tasks.length + k]? = some t ∧ t.status = TaskStatus.finished) := by
  have hstep := step_fetch_batch l request s ms w1 hne hcrash hpc hsig hfetch
  have hdisp : runSchedule l request (List.replicate (ms.length + 1) Action.loop) s =
      some { s with
        pc := LoopPc.dispatch [],
        counter := s.counter + ms.length,
        tasks := s.tasks ++ ms.map newTask,
        world := w1 } := by
    rw [List.replicate_succ]
    simp only [runSchedule, hstep]
    exact runSchedule_dispatch l request ms { s with pc := LoopPc.dispatch ms, world := w1 }
      hcrash rfl
  have hinv0 : BatchInv l s.tasks.length ms (LoopPc.dispatch ms) s.tasks := by
    refine ⟨Or.inl ⟨0, Nat.zero_le _, by simp, by simp⟩, ?_⟩
    intro k m t _ ht
    rw [List.getElem?_eq_none (by omega)] at ht
    cases ht
  refine ⟨⟨_, hdisp, rfl, rfl⟩, ?_, ?_⟩
  · intro acts s1 hrun
    simp only [runSchedule, hstep] at hrun
    have hinv := BatchInv_runSchedule l request s.tasks.length ms acts _ s1 hrun hinv0
    refine ⟨?_, BatchInv_totals l s.tasks.length ms s1 hinv⟩
    intro k m t hk ht
    have hok := hinv.2 k m t hk ht
    exact ⟨hok.1, hok.2.1, TaskOk_ran l m t hok⟩
  · intro hcnt hbody
    have hall : ∀ j, s.tasks.length ≤ j → j < s.tasks.length + ms.length →
        ∃ t, (s.tasks ++ ms.map newTask)[j]? = some t ∧ t.status = TaskStatus.spawned ∧
          t.message.Body ≠ none := by
      intro j h1 h2
      have hlt : j - s.tasks.length < ms.length := by omega
      refine ⟨newTask ms[j - s.tasks.length], ?_, rfl, ?_⟩
      · rw [List.getElem?_append_right h1, List.getElem?_map, List.getElem?_eq_getElem hlt]
        rfl
      · exact hbody _ (List.getElem_mem _)
    obtain ⟨s1, hrun1, hcrash1, hcnt1, _, hfin1, _⟩ :=
      runSchedule_runTasks l request ms.length s.tasks.length
        { s with
          pc := LoopPc.dispatch [],
          counter := s.counter + ms.length,
          tasks := s.tasks ++ ms.map newTask,
          world := w1 } hcrash hall (by simp only; omega)
    refine ⟨s1, ?_, hcrash1, ?_, ?_⟩
    · rw [runSchedule_append, hdisp]
      exact hrun1
    · rw [hcnt1]; simp
    · intro k hk
      exact hfin1 (s.tasks.length + k) (by omega) (by omega)

/-- The scenario of the spec on the test listener: one fetch returns three
messages, the handler fails on the second; the loop dispatches them, the
three tasks run to their end, the counter is back at zero, and the batch has
issued exactly two delete requests for its two handler successes. -/
theorem poll_batch_handled_witness :
    (testBatch ≠ [] ∧ (pollStart false 0 (0 : Nat)).crashed = false ∧
        (pollStart false 0 (0 : Nat)).pc = LoopPc.select ∧
        (pollStart false 0 (0 : Nat)).signalled = false ∧
        testListener.ReceiveMessage (listenRequest testListener)
          (pollStart false 0 (0 : Nat)).world = ((some testBatch, none), 1) ∧
        0 ≤ (pollStart false 0 (0 : Nat)).counter ∧ ∀ m ∈ testBatch, m.Body ≠ none) ∧
      (∃ s1, runSchedule testListener (listenRequest testListener)
            (List.replicate (testBatch.length + 1) Action.loop ++
              runTasks (pollStart false 0 (0 : Nat)).tasks.length testBatch.length)
            (pollStart false 0 0) = some s1 ∧
          s1.crashed = false ∧ s1.counter = (pollStart false 0 (0 : Nat)).counter ∧
          ∀ k, k < testBatch.length →
            ∃ t, s1.tasks[(pollStart false 0 (0 : Nat)).tasks.length + k]? = some t ∧
              t.status = TaskStatus.finished) ∧
      (runSchedule testListener (listenRequest testListener)
          (List.replicate 4 Action.loop ++ runTasks 0 3) (pollStart false 0 0)).map
        (fun s1 => (deleteCount (batchTasks s1 0 3), successCount (batchTasks s1 0 3),
          (batchTasks s1 0 3).map fun t => (handlerCalls t.trace).length)) =
        some (2, 2, [1, 1, 1]) :=
  ⟨⟨by decide, rfl, rfl, rfl, by decide, by decide, by decide⟩,
    (poll_batch_handled testListener (listenRequest testListener) (pollStart false 0 0)
      testBatch 1 (by decide) rfl rfl rfl (by decide)).2.2 (by decide) (by decide),
    by decide⟩

/-! ## Retry options and validation -/

/-- C17: `RetryConfig.Defaults` sets `Attempts` 3, `WaitBase` one second (in
nanoseconds) and `Backoff` false; on a default configuration
`WithExponentialBackoff(a, w)` yields `Attempts` a, `WaitBase` w, `Backoff`
true, and `WithConstant(a, w)` yields `Attempts` a, `WaitBase` w, `Backoff`
false. -/
theorem retry_options_on_defaults (c : RetryConfig) (a w : Int) :
    RetryConfig.Defaults c = { Attempts := 3, WaitBase := 1000000000, Backoff := false } ∧
      WithExponentialBackoff a w (RetryConfig.Defaults c) =
        { Attempts := a, WaitBase := w, Backoff := true } ∧
      WithConstant a w (RetryConfig.Defaults c) =
        { Attempts := a, WaitBase := w, Backoff := false } :=
  ⟨rfl, rfl, rfl⟩

/-- The wait time passes exactly in the range from 0 to 20. -/
theorem validateReceiveTimeWaitSeconds_eq_none_iff (w : Int) :
    validateReceiveTimeWaitSeconds w = none ↔ 0 ≤ w ∧ w ≤ 20 := by
  unfold validateReceiveTimeWaitSeconds
  constructor
  · intro h
    split at h
    · cases h
    · split at h
      · cases h
      · omega
  · intro h
    rw [if_neg (by omega), if_neg (by omega)]

/-- C19: for every integer `w`, `validateReceiveTimeWaitSeconds` returns nil
exactly when `0 ≤ w ≤ 20`, the error "wait time cannot be more than 20" when
`w > 20` and the error "wait time cannot be less than 0" when `w < 0`. -/
theorem validateReceiveTimeWaitSeconds_range (w : Int) :
    (validateReceiveTimeWaitSeconds w = none ↔ 0 ≤ w ∧ w ≤ 20) ∧
      (20 < w → validateReceiveTimeWaitSeconds w =
        some { text := "wait time cannot be more than 20", throttled := false }) ∧
      (w < 0 → validateReceiveTimeWaitSeconds w =
        some { text := "wait time cannot be less than 0", throttled := false }) := by
  refine ⟨validateReceiveTimeWaitSeconds_eq_none_iff w, ?_, ?_⟩
  · intro h
    unfold validateReceiveTimeWaitSeconds
    rw [if_pos h]
    rfl
  · intro h
    unfold validateReceiveTimeWaitSeconds
    rw [if_neg (by omega), if_pos h]
    rfl

/-- A name made of characters of the class takes one byte per character. -/
theorem utf8Size_of_queueNameChar (c : Char) (h : queueNameChar c = true) : c.utf8Size = 1 := by
  have hle : c.toNat ≤ 127 := by
    simp only [queueNameChar, Bool.or_eq_true, Bool.and_eq_true, decide_eq_true_eq] at h
    omega
  unfold Char.utf8Size
  have h1 : c.val ≤ UInt32.ofNatCore 127 (by decide) := by
    show c.val.toNat ≤ 127
    exact hle
  rw [if_pos h1]

theorem utf8Len_of_queueNameChars (cs : List Char) (h : ∀ c ∈ cs, queueNameChar c = true) :
    String.utf8Len cs = cs.length := by
  induction cs with
  | nil => rfl
  | cons c cs ih =>
    rw [String.utf8Len_cons, ih (fun c1 h1 => h c1 (List.mem_cons_of_mem _ h1)),
      utf8Size_of_queueNameChar c (h c (List.mem_cons_self _ _))]
    simp

theorem utf8ByteSize_of_queueNameChars (s : String)
    (h : ∀ c ∈ s.toList, queueNameChar c = true) : s.utf8ByteSize = s.length := by
  cases s with
  | mk cs => exact utf8Len_of_queueNameChars cs h

theorem string_eq_empty_iff (s : String) : s = "" ↔ s.toList = [] := by
  constructor
  · intro h; subst h; rfl
  · intro h
    cases s with
    | mk cs =>
      simp only [String.toList] at h
      subst h
      rfl

/-- C18: `validateQueueName` returns "queue name is too long" when the name has
more than 80 bytes, otherwise "queue name cannot be empty" when it is empty,
otherwise "queue name contains non alphanumeric characters" when some
character is not an ASCII letter, a digit, `-` or `_`, and nil otherwise; so
it accepts exactly the names of 1 to 80 characters over that alphabet. -/
theorem validateQueueName_cases (queueName : String) :
    (80 < queueName.utf8ByteSize → validateQueueName queueName =
        some { text := "queue name is too long", throttled := false }) ∧
      (queueName.utf8ByteSize ≤ 80 → queueName = "" → validateQueueName queueName =
        some { text := "queue name cannot be empty", throttled := false }) ∧
      (queueName.utf8ByteSize ≤ 80 → queueName ≠ "" →
        (∃ c ∈ queueName.toList, queueNameChar c = false) →
        validateQueueName queueName =
          some { text := "queue name contains non alphanumeric characters",
                 throttled := false }) ∧
      (queueName.utf8ByteSize ≤ 80 → queueName ≠ "" →
        (∀ c ∈ queueName.toList, queueNameChar c = true) →
        validateQueueName queueName = none) ∧
      (validateQueueName queueName = none ↔
        1 ≤ queueName.length ∧ queueName.length ≤ 80 ∧
          ∀ c ∈ queueName.toList, queueNameChar c = true) := by
  have hlong : 80 < queueName.utf8ByteSize → validateQueueName queueName =
      some { text := "queue name is too long", throttled := false } := by
    intro h
    unfold validateQueueName
    rw [if_pos h]
    rfl
  have hempty : queueName.utf8ByteSize ≤ 80 → queueName = "" → validateQueueName queueName =
      some { text := "queue name cannot be empty", throttled := false } := by
    intro h1 h2
    unfold validateQueueName
    rw [if_neg (by omega), if_pos h2]
    rfl
  have hbad : queueName.utf8ByteSize ≤ 80 → queueName ≠ "" →
      (∃ c ∈ queueName.toList, queueNameChar c = false) →
      validateQueueName queueName =
        some { text := "queue name contains non alphanumeric characters",
               throttled := false } := by
    intro h1 h2 ⟨c, hc, hcf⟩
    have hall : queueName.toList.all queueNameChar = false := by
      rw [List.all_eq_false]
      exact ⟨c, hc, by simp [hcf]⟩
    have hm : matchQueueNamePattern queueName = (false, none) := by
      unfold matchQueueNamePattern
      rw [hall, Bool.and_false]
    unfold validateQueueName
    rw [if_neg (by omega), if_neg h2, hm]
    rfl
  have hgood : queueName.utf8ByteSize ≤ 80 → queueName ≠ "" →
      (∀ c ∈ queueName.toList, queueNameChar c = true) →
      validateQueueName queueName = none := by
    intro h1 h2 h3
    have hall : queueName.toList.all queueNameChar = true := List.all_eq_true.mpr h3
    have hne : queueName.toList.isEmpty = false := by
      cases hl : queueName.toList with
      | nil => exact absurd ((string_eq_empty_iff queueName).mpr hl) h2
      | cons c cs => rfl
    have hm : matchQueueNamePattern queueName = (true, none) := by
      unfold matchQueueNamePattern
      rw [hall, hne]
      rfl
    unfold validateQueueName
    rw [if_neg (by omega), if_neg h2, hm]
    rfl
  refine ⟨hlong, hempty, hbad, hgood, ?_⟩
  constructor
  · intro hnone
    have hsize : queueName.utf8ByteSize ≤ 80 := by
      by_contra hgt
      rw [hlong (by omega)] at hnone
      cases hnone
    have hne : queueName ≠ "" := by
      intro he
      rw [hempty hsize he] at hnone
      cases hnone
    have hall : ∀ c ∈ queueName.toList, queueNameChar c = true := by
      intro c hc
      by_contra hcf
      rw [hbad hsize hne ⟨c, hc, by simpa using hcf⟩] at hnone
      cases hnone
    have hlen := utf8ByteSize_of_queueNameChars queueName hall
    have hpos : queueName.toList ≠ [] := fun h => hne ((string_eq_empty_iff queueName).mpr h)
    have hpos1 : 1 ≤ queueName.length := by
      show 1 ≤ queueName.toList.length
      exact List.length_pos.mpr hpos
    exact ⟨hpos1, by omega, hall⟩
  · intro ⟨h1, h2, h3⟩
    have hlen := utf8ByteSize_of_queueNameChars queueName h3
    have hne : queueName ≠ "" := by
      intro he
      subst he
      simp at h1
    exact hgood (by omega) hne h3

set_option maxRecDepth 100000 in
/-- The cases of `Test_validateQueueName` and of `TestManager_CreateQueue`. -/
theorem validateQueueName_tests :
    validateQueueName "test-queue" = none ∧ validateQueueName "test_queue" = none ∧
      validateQueueName "TEST_QUEUE_ERROR" = none ∧
      validateQueueName (String.join (List.replicate 80 "q")) = none ∧
      validateQueueName (String.join (List.replicate 81 "q")) =
        some (errorsNew errQueueNameTooLong) ∧
      validateQueueName "" = some (errorsNew errQueueNameEmpty) ∧
      validateQueueName "test queue" = some (errorsNew errNonAlphaNumericCharsInQueueName) ∧
      validateQueueName "queue $$$" = some (errorsNew errNonAlphaNumericCharsInQueueName) := by
  decide

/-- A map that lacks one of the required keys fails the loop of
`validateTags`. -/
theorem validateTagsLoop_of_missing (tags : StringMap) (ks : List String)
    (h : ∃ k ∈ ks, tags.has k = false) : validateTagsLoop tags ks ≠ none := by
  induction ks with
  | nil =>
    obtain ⟨k, hk, _⟩ := h
    cases hk
  | cons v rest ih =>
    unfold validateTagsLoop
    by_cases hv : tags.has v = true
    · simp only [hv, Bool.not_true, Bool.false_eq_true, if_false]
      apply ih
      obtain ⟨k, hk, hkf⟩ := h
      rcases List.mem_cons.mp hk with hk | hk
      · subst hk
        rw [hv] at hkf
        cases hkf
      · exact ⟨k, hk, hkf⟩
    · simp [hv]

/-- On tags that fail `validateTags`, `createQueue` returns the error "missing
tags" without a request. -/
theorem createQueue_of_invalid_tags {σ : Type} (sqsClient : SQSClient σ) (queueName : String)
    (config : QueueConfig) (w : σ) (h : validateTags config.Tags ≠ none) :
    createQueue sqsClient queueName config w =
      { value := some (none, some (errorsNew ErrMissingTags)), calls := [], state := w } := by
  have hq : createQueueTags config.Tags = none := by
    unfold createQueueTags
    cases hv : validateTags config.Tags with
    | none => exact absurd hv h
    | some e => rfl
  unfold createQueue
  rw [hq]

/-- C20: `Manager.CreateQueue` returns a nil result and an error, without any
request to the queue service, when the name fails `validateQueueName` (that
error), otherwise when the receive wait time is outside `[0,20]` (the error
of `validateReceiveTimeWaitSeconds`), otherwise when the tags fail
`validateTags` (the error "missing tags"); the tags fail for the empty map
and for every map that lacks a required key. -/
theorem createQueue_rejects_invalid_input {σ : Type}
    (marshal : StringMap → String × Option GoError) (m : Manager σ) (queueName : String)
    (config : QueueConfig) (w : σ) :
    (∀ e, validateQueueName queueName = some e →
        Manager.CreateQueue marshal m queueName config w =
          { value := some (none, some e), calls := [], state := w }) ∧
      (validateQueueName queueName = none →
        ¬ (0 ≤ config.ReceiveWaitTimeSeconds ∧ config.ReceiveWaitTimeSeconds ≤ 20) →
        ∃ e, validateReceiveTimeWaitSeconds config.ReceiveWaitTimeSeconds = some e ∧
          Manager.CreateQueue marshal m queueName config w =
            { value := some (none, some e), calls := [], state := w }) ∧
      (validateQueueName queueName = none →
        0 ≤ config.ReceiveWaitTimeSeconds ∧ config.ReceiveWaitTimeSeconds ≤ 20 →
        validateTags config.Tags ≠ none →
        Manager.CreateQueue marshal m queueName config w =
          { value := some (none, some { text := "missing tags", throttled := false }),
            calls := [], state := w }) ∧
      validateTags [] ≠ none ∧
      (∀ tags : StringMap, (∃ k ∈ arrayOfRequiredTags, tags.has k = false) →
        validateTags tags ≠ none) := by
  refine ⟨?_, ?_, ?_, by decide, ?_⟩
  · intro e he
    unfold Manager.CreateQueue
    rw [he]
  · intro hname hwait
    cases hv : validateReceiveTimeWaitSeconds config.ReceiveWaitTimeSeconds with
    | none =>
      exact absurd ((validateReceiveTimeWaitSeconds_eq_none_iff _).mp hv) hwait
    | some e =>
      refine ⟨e, rfl, ?_⟩
      unfold Manager.CreateQueue
      rw [hname, hv]
  · intro hname hwait htags
    have hv := (validateReceiveTimeWaitSeconds_eq_none_iff config.ReceiveWaitTimeSeconds).mpr hwait
    unfold Manager.CreateQueue
    rw [hname, hv]
    unfold setupNewQueue
    rw [createQueue_of_invalid_tags m.sqsClient queueName config w htags]
    rfl
  · intro tags hmiss
    unfold validateTags
    split
    · simp
    · exact validateTagsLoop_of_missing tags arrayOfRequiredTags hmiss

/-- The wait time 30 of the test and the map `badTestMap`: both are turned
down without a request. -/
theorem createQueue_rejects_invalid_input_witness :
    Manager.CreateQueue testMarshal testManager "test-queue"
        (testQueueConfig badTestMap) 0 =
        { value := some (none, some { text := "missing tags", throttled := false }),
          calls := [], state := 0 } ∧
      validateQueueName "test-queue" = none ∧ validateTags badTestMap ≠ none :=
  ⟨(createQueue_rejects_invalid_input testMarshal testManager "test-queue"
      (testQueueConfig badTestMap) 0).2.2.1 (by decide) (by decide) (by decide),
    by decide, by decide⟩

/-! ## The multi-topic handler -/

/-- Registrations under other subjects leave the entry of a subject alone. -/
theorem Handlers_foldl_of_ne {σ : Type} (rs : List (String × EventHandler σ)) (s : String) :
    ∀ h : MultiTopicHandler σ, (∀ r ∈ rs, r.1 ≠ s) →
      (rs.foldl (fun h r => h.RegisterHandler r.1 r.2) h).Handlers s = h.Handlers s := by
  induction rs with
  | nil => intro h _; rfl
  | cons r rs ih =>
    intro h hne
    rw [List.foldl_cons, ih _ (fun r1 h1 => hne r1 (List.mem_cons_of_mem _ h1))]
    have hr : s ≠ r.1 := fun h1 => hne r (List.mem_cons_self _ _) h1.symm
    simp [MultiTopicHandler.RegisterHandler, hr]

/-- After a series of registrations the entry of a subject is the handler
registered for it last. -/
theorem Handlers_registerAll {σ : Type} (before after : List (String × EventHandler σ))
    (s : String) (hf : EventHandler σ) (hlast : ∀ r ∈ after, r.1 ≠ s) :
    (registerAll (before ++ (s, hf) :: after)).Handlers s = some hf := by
  unfold registerAll
  rw [List.foldl_append, List.foldl_cons, Handlers_foldl_of_ne after s _ hlast]
  simp [MultiTopicHandler.RegisterHandler]

/-- The run of `Handle` on a body that parses to a subject with a handler. -/
theorem Handle_of_registered {σ : Type} (unmarshal : String → Event × Option GoError)
    (h : MultiTopicHandler σ) (message : Message) (body : String) (ev : Event)
    (hf : EventHandler σ) (w : σ) (hbody : message.Body = some body)
    (hparse : unmarshal body = (ev, none)) (hreg : h.Handlers ev.Subject = some hf) :
    MultiTopicHandler.Handle unmarshal h message w =
      { panicked := false, err := (hf ev.Message w).1,
        calls := [(ev.Subject, ev.Message)], state := (hf ev.Message w).2 } := by
  unfold MultiTopicHandler.Handle
  rw [hbody]
  simp only [hparse, hreg]

/-- C15: when the sub-handler registered last under subject `s` is `hf`, then
on a message whose body parses to subject `s` and text `m`, `Handle` calls
one sub-handler only, the one stored under `s`, once, with `m`; what it
returns and the state it leaves are those of `hf` applied to `m`. -/
theorem multiTopic_calls_registered_handler {σ : Type}
    (unmarshal : String → Event × Option GoError)
    (regs before after : List (String × EventHandler σ)) (s : String) (hf : EventHandler σ)
    (message : Message) (body m : String) (w : σ)
    (hregs : regs = before ++ (s, hf) :: after) (hlast : ∀ r ∈ after, r.1 ≠ s)
    (hbody : message.Body = some body)
    (hparse : unmarshal body = ({ Subject := s, Message := m }, none)) :
    (MultiTopicHandler.Handle unmarshal (registerAll regs) message w).calls = [(s, m)] ∧
      (MultiTopicHandler.Handle unmarshal (registerAll regs) message w).err = (hf m w).1 ∧
      (MultiTopicHandler.Handle unmarshal (registerAll regs) message w).state = (hf m w).2 ∧
      (MultiTopicHandler.Handle unmarshal (registerAll regs) message w).panicked = false := by
  have hreg : (registerAll regs).Handlers ({ Subject := s, Message := m } : Event).Subject =
      some hf := by
    rw [hregs]
    exact Handlers_registerAll before after s hf hlast
  rw [Handle_of_registered unmarshal (registerAll regs) message body _ hf w hbody hparse hreg]
  exact ⟨rfl, rfl, rfl, rfl⟩

/-- The first and the last case of `TestMultiTopicHandler_Handle`: the body for
`"test-topic"` reaches `testHandler` and gives nil, the body for `"error"`
reaches `errorHandler` and gives its error. -/
theorem multiTopic_calls_registered_handler_witness :
    ((MultiTopicHandler.Handle testUnmarshal (registerAll testRegistrations)
          { MessageId := none,
            Body := some "\x7b\"subject\":\"test-topic\",\"message\":\"test message\"\x7d",
            ReceiptHandle := none } 0).calls = [("test-topic", "test message")] ∧
        (MultiTopicHandler.Handle testUnmarshal (registerAll testRegistrations)
          { MessageId := none,
            Body := some "\x7b\"subject\":\"test-topic\",\"message\":\"test message\"\x7d",
            ReceiptHandle := none } 0).err = none ∧
        (MultiTopicHandler.Handle testUnmarshal (registerAll testRegistrations)
          { MessageId := none,
            Body := some "\x7b\"subject\":\"test-topic\",\"message\":\"test message\"\x7d",
            ReceiptHandle := none } 0).state = 1 ∧
        (MultiTopicHandler.Handle testUnmarshal (registerAll testRegistrations)
          { MessageId := none,
            Body := some "\x7b\"subject\":\"test-topic\",\"message\":\"test message\"\x7d",
            ReceiptHandle := none } 0).panicked = false) ∧
      (MultiTopicHandler.Handle testUnmarshal (registerAll testRegistrations)
        { MessageId := none,
          Body := some "\x7b\"subject\":\"error\",\"message\":\"test message\"\x7d",
          ReceiptHandle := none } 0).err = some (errorsNew "test error") :=
  ⟨multiTopic_calls_registered_handler testUnmarshal testRegistrations []
      [("error", fun _ n => (some (errorsNew "test error"), n + 1))] "test-topic"
      (fun _ n => (none, n + 1)) _
      "\x7b\"subject\":\"test-topic\",\"message\":\"test message\"\x7d" "test message" 0 rfl
      (by simp) rfl (by decide),
    by decide⟩

/-- C16: on a message with a body, `Handle` returns a non-nil error and calls
no sub-handler when the body fails to parse (the error of the parser) and
when the parsed subject has no registered sub-handler; in the second case
the text of the error is "no handler for Subject: " followed by the
subject. -/
theorem multiTopic_rejects_unparsed_or_unregistered {σ : Type}
    (unmarshal : String → Event × Option GoError) (h : MultiTopicHandler σ)
    (message : Message) (body : String) (w : σ) (hbody : message.Body = some body) :
    (∀ ev e, unmarshal body = (ev, some e) →
        (MultiTopicHandler.Handle unmarshal h message w).err = some e ∧
          (MultiTopicHandler.Handle unmarshal h message w).calls = [] ∧
          (MultiTopicHandler.Handle unmarshal h message w).state = w) ∧
      (∀ ev, unmarshal body = (ev, none) → h.Handlers ev.Subject = none →
        (MultiTopicHandler.Handle unmarshal h message w).err =
            some { text := "no handler for Subject: " ++ ev.Subject, throttled := false } ∧
          (MultiTopicHandler.Handle unmarshal h message w).calls = [] ∧
          (MultiTopicHandler.Handle unmarshal h message w).state = w) := by
  constructor
  · intro ev e hparse
    have hrun : MultiTopicHandler.Handle unmarshal h message w =
        { panicked := false, err := some e, calls := [], state := w } := by
      unfold MultiTopicHandler.Handle
      rw [hbody]
      simp only [hparse]
    rw [hrun]
    exact ⟨rfl, rfl, rfl⟩
  · intro ev hparse hreg
    have hrun : MultiTopicHandler.Handle unmarshal h message w =
        { panicked := false,
          err := some (errorsNew ("no handler for Subject: " ++ ev.Subject)),
          calls := [], state := w } := by
      unfold MultiTopicHandler.Handle
      rw [hbody]
      simp only [hparse, hreg]
    rw [hrun]
    exact ⟨rfl, rfl, rfl⟩

/-- The second and third case of `TestMultiTopicHandler_Handle`: the subject
`"nonexistent"` has no handler, and `"bad message format"` does not parse. -/
theorem multiTopic_rejects_unparsed_or_unregistered_witness :
    (MultiTopicHandler.Handle testUnmarshal (registerAll testRegistrations)
        { MessageId := none,
          Body := some "\x7b\"subject\":\"nonexistent\",\"message\":\"test message\"\x7d",
          ReceiptHandle := none } 0).err =
        some { text := "no handler for Subject: nonexistent", throttled := false } ∧
      (MultiTopicHandler.Handle testUnmarshal (registerAll testRegistrations)
        { MessageId := none, Body := some "bad message format", ReceiptHandle := none }
        0).err = some (errorsNew "invalid character") :=
  ⟨((multiTopic_rejects_unparsed_or_unregistered testUnmarshal
        (registerAll testRegistrations)
        { MessageId := none,
          Body := some "\x7b\"subject\":\"nonexistent\",\"message\":\"test message\"\x7d",
          ReceiptHandle := none }
        "\x7b\"subject\":\"nonexistent\",\"message\":\"test message\"\x7d" 0 rfl).2
      { Subject := "nonexistent", Message := "test message" } (by decide) rfl).1,
    ((multiTopic_rejects_unparsed_or_unregistered testUnmarshal
        (registerAll testRegistrations)
        { MessageId := none, Body := some "bad message format", ReceiptHandle := none }
        "bad message format" 0 rfl).1
      { Subject := "", Message := "" } (errorsNew "invalid character") (by decide)).1⟩

/-! ## The poll loop: counter, shutdown and drain -/

section PollCounter

variable {σ : Type} (l : SQSListener σ) (request : ReceiveMessageInput)

/-- What one step can do to the tasks and the counter: nothing (the signal, or
a step of the loop that starts no task); start one task and add one to the
counter; run a task that has not run yet; or run the deferred `Done` of a
task that has run, taking one off the counter. -/
theorem step_shape (a : Action) (s s1 : PollState σ) (hstep : step l request a s = some s1) :
    s.crashed = false ∧
      (((a = Action.signal ∨ a = Action.loop) ∧ s1.tasks = s.tasks ∧
          s1.counter = s.counter) ∨
        (∃ m rest, a = Action.loop ∧ s.pc = LoopPc.dispatch (m :: rest) ∧
          s1.pc = LoopPc.dispatch rest ∧ s1.tasks = s.tasks ++ [newTask m] ∧
          s1.counter = s.counter + 1) ∨
        (∃ i t t1, a = Action.run i ∧ s.tasks[i]? = some t ∧
          t.status = TaskStatus.spawned ∧
          (t1.status = TaskStatus.returned ∨ t1.status = TaskStatus.panicking) ∧
          s1.tasks = s.tasks.set i t1 ∧ s1.counter = s.counter ∧ s1.pc = s.pc) ∨
        (∃ i t, a = Action.done i ∧ s.tasks[i]? = some t ∧
          (t.status = TaskStatus.returned ∨ t.status = TaskStatus.panicking) ∧
          s1.tasks = s.tasks.set i { t with status := TaskStatus.finished } ∧
          s1.counter = s.counter - 1 ∧ s1.pc = s.pc)) := by
  unfold step at hstep
  by_cases hc : s.crashed = true
  · rw [if_pos hc] at hstep
    cases hstep
  · rw [if_neg hc] at hstep
    refine ⟨by simpa using hc, ?_⟩
    cases a with
    | signal =>
      simp only at hstep
      injection hstep with hstep
      rw [← hstep]
      exact Or.inl ⟨Or.inl rfl, rfl, rfl⟩
    | loop =>
      simp only at hstep
      unfold loopStep at hstep
      cases hpc : s.pc with
      | select =>
        rw [hpc] at hstep
        simp only at hstep
        left
        refine ⟨Or.inr rfl, ?_⟩
        split at hstep
        · injection hstep with hstep; rw [← hstep]; exact ⟨rfl, rfl⟩
        · split at hstep
          · injection hstep with hstep; rw [← hstep]; exact ⟨rfl, rfl⟩
          · injection hstep with hstep; rw [← hstep]; exact ⟨rfl, rfl⟩
          · split at hstep <;>
              (injection hstep with hstep; rw [← hstep]; exact ⟨rfl, rfl⟩)
      | dispatch rest =>
        rw [hpc] at hstep
        cases rest with
        | nil =>
          simp only at hstep
          injection hstep with hstep
          rw [← hstep]
          exact Or.inl ⟨Or.inr rfl, rfl, rfl⟩
        | cons m rest =>
          simp only at hstep
          injection hstep with hstep
          rw [← hstep]
          exact Or.inr (Or.inl ⟨m, rest, rfl, rfl, rfl, rfl, rfl⟩)
      | wait =>
        rw [hpc] at hstep
        simp only at hstep
        split at hstep
        · injection hstep with hstep
          rw [← hstep]
          exact Or.inl ⟨Or.inr rfl, rfl, rfl⟩
        · cases hstep
      | returned =>
        rw [hpc] at hstep
        cases hstep
    | run i =>
      simp only at hstep
      unfold runStep at hstep
      cases hi : s.tasks[i]? with
      | none => rw [hi] at hstep; cases hstep
      | some t =>
        rw [hi] at hstep
        simp only at hstep
        split at hstep
        · rename_i hsp
          injection hstep with hstep
          rw [← hstep]
          refine Or.inr (Or.inr (Or.inl ⟨i, t, _, rfl, hi, hsp, ?_, rfl, rfl, rfl⟩))
          simp only
          split
          · exact Or.inr rfl
          · exact Or.inl rfl
        · cases hstep
    | done i =>
      simp only at hstep
      unfold doneStep at hstep
      cases hi : s.tasks[i]? with
      | none => rw [hi] at hstep; cases hstep
      | some t =>
        rw [hi] at hstep
        simp only at hstep
        split at hstep
        · rename_i hst
          injection hstep with hstep
          rw [← hstep]
          exact Or.inr (Or.inr (Or.inr ⟨i, t, rfl, hi, hst, rfl, rfl, rfl⟩))
        · cases hstep

theorem liveCount_append (ts1 ts2 : List Task) :
    liveCount (ts1 ++ ts2) = liveCount ts1 + liveCount ts2 := by
  simp [liveCount]

/-- Replacing a task changes the number of live tasks by the liveness of the
new task against that of the old one. -/
theorem liveCount_set (ts : List Task) :
    ∀ (i : Nat) (t t1 : Task), ts[i]? = some t →
      liveCount (ts.set i t1) + (if t.live then 1 else 0) =
        liveCount ts + (if t1.live then 1 else 0) := by
  induction ts with
  | nil => intro i t t1 h; cases h
  | cons t0 ts ih =>
    intro i t t1 h
    cases i with
    | zero =>
      simp only [List.getElem?_cons_zero, Option.some.injEq] at h
      subst h
      simp only [List.set_cons_zero, liveCount, List.filter_cons]
      cases t0.live <;> cases t1.live <;> simp
    | succ i =>
      simp only [List.getElem?_cons_succ] at h
      have := ih i t t1 h
      simp only [List.set_cons_succ, liveCount, List.filter_cons] at this ⊢
      cases t0.live <;> simp <;> omega

/-- Every step keeps the difference between the counter and the number of
live tasks. -/
theorem counter_balance_step (a : Action) (s s1 : PollState σ)
    (hstep : step l request a s = some s1) :
    s1.counter - liveCount s1.tasks = s.counter - liveCount s.tasks := by
  obtain ⟨_, h⟩ := step_shape l request a s s1 hstep
  rcases h with ⟨_, ht, hc⟩ | ⟨m, rest, _, _, _, ht, hc⟩ | ⟨i, t, t1, _, hi, hsp, hst, ht, hc, _⟩ |
    ⟨i, t, _, hi, hst, ht, hc, _⟩
  · rw [ht, hc]
  · rw [ht, hc, liveCount_append]
    have : liveCount [newTask m] = 1 := rfl
    rw [this]
    push_cast
    ring
  · have hl := liveCount_set s.tasks i t t1 hi
    have h1 : t.live = true := by simp [Task.live, hsp]
    have h2 : t1.live = true := by
      rcases hst with hst | hst <;> simp [Task.live, hst]
    rw [h1, h2] at hl
    rw [ht, hc]
    simp only [if_true] at hl
    omega
  · have hl := liveCount_set s.tasks i t { t with status := TaskStatus.finished } hi
    have h1 : t.live = true := by
      rcases hst with hst | hst <;> simp [Task.live, hst]
    have h2 : ({ t with status := TaskStatus.finished } : Task).live = false := by
      simp [Task.live]
    rw [h1, h2] at hl
    rw [ht, hc]
    simp only [if_true] at hl
    simp only [Bool.false_eq_true, if_false] at hl
    omega

/-- Every schedule keeps the difference between the counter and the number of
live tasks. -/
theorem counter_balance_runSchedule (acts : List Action) :
    ∀ (s s1 : PollState σ), runSchedule l request acts s = some s1 →
      s1.counter - liveCount s1.tasks = s.counter - liveCount s.tasks := by
  induction acts with
  | nil =>
    intro s s1 hrun
    simp only [runSchedule] at hrun
    injection hrun with hrun
    rw [hrun]
  | cons a acts ih =>
    intro s s1 hrun
    simp only [runSchedule] at hrun
    cases hstep : step l request a s with
    | none => rw [hstep] at hrun; cases hrun
    | some s2 =>
      rw [hstep] at hrun
      rw [ih s2 s1 hrun, counter_balance_step l request a s s2 hstep]

end PollCounter

section PollDone

variable {σ : Type} (l : SQSListener σ) (request : ReceiveMessageInput)

theorem doneCount_of_getElem? (s : PollState σ) (i : Nat) (t : Task)
    (h : s.tasks[i]? = some t) :
    doneCount s i = if t.status = TaskStatus.finished then 1 else 0 := by
  unfold doneCount
  rw [h]

theorem doneCount_eq_of_tasks (s s1 : PollState σ) (i : Nat)
    (h : s1.tasks[i]? = s.tasks[i]?) : doneCount s1 i = doneCount s i := by
  unfold doneCount
  rw [h]

/-- A step adds one to the count of task `i` exactly when it is the deferred
`Done` of task `i`. -/
theorem doneCount_step (a : Action) (s s1 : PollState σ)
    (hstep : step l request a s = some s1) (i : Nat) :
    (if a = Action.done i then 1 else 0) + doneCount s i = doneCount s1 i := by
  obtain ⟨_, h⟩ := step_shape l request a s s1 hstep
  rcases h with ⟨ha, ht, _⟩ | ⟨m, rest, ha, _, _, ht, _⟩ | ⟨j, t, t1, ha, hj, hsp, hst, ht, _, _⟩ |
    ⟨j, t, ha, hj, hst, ht, _, _⟩
  · have hne : a ≠ Action.done i := by
      rcases ha with ha | ha <;> rw [ha] <;> intro h <;> cases h
    rw [if_neg hne, doneCount_eq_of_tasks s s1 i (by rw [ht])]
    omega
  · have hne : a ≠ Action.done i := by rw [ha]; intro h; cases h
    rw [if_neg hne, Nat.zero_add]
    by_cases hlt : i < s.tasks.length
    · exact (doneCount_eq_of_tasks s s1 i (by rw [ht, List.getElem?_append_left hlt])).symm
    · have hnone : s.tasks[i]? = none := List.getElem?_eq_none (by omega)
      by_cases heq : i = s.tasks.length
      · have hnew : s1.tasks[i]? = some (newTask m) := by
          rw [ht, List.getElem?_append_right (by omega), heq]
          simp
        rw [doneCount_of_getElem? s1 i _ hnew]
        unfold doneCount
        rw [hnone]
        rfl
      · have hnone1 : s1.tasks[i]? = none := by
          apply List.getElem?_eq_none
          rw [ht]
          simp
          omega
        unfold doneCount
        rw [hnone, hnone1]
  · have hne : a ≠ Action.done i := by rw [ha]; intro h; cases h
    rw [if_neg hne, Nat.zero_add]
    by_cases hij : j = i
    · subst hij
      have hlt : j < s.tasks.length := by
        by_contra hge
        rw [List.getElem?_eq_none (by omega)] at hj
        cases hj
      have hnew : s1.tasks[j]? = some t1 := by rw [ht, List.getElem?_set_self hlt]
      rw [doneCount_of_getElem? s j t hj, doneCount_of_getElem? s1 j t1 hnew]
      have h1 : t.status ≠ TaskStatus.finished := by rw [hsp]; decide
      have h2 : t1.status ≠ TaskStatus.finished := by
        rcases hst with hst | hst <;> rw [hst] <;> decide
      rw [if_neg h1, if_neg h2]
    · exact (doneCount_eq_of_tasks s s1 i (by rw [ht, List.getElem?_set_ne hij])).symm
  · by_cases hij : j = i
    · subst hij
      have hlt : j < s.tasks.length := by
        by_contra hge
        rw [List.getElem?_eq_none (by omega)] at hj
        cases hj
      have hnew : s1.tasks[j]? = some { t with status := TaskStatus.finished } := by
        rw [ht, List.getElem?_set_self hlt]
      rw [if_pos ha, doneCount_of_getElem? s j t hj, doneCount_of_getElem? s1 j _ hnew]
      have h1 : t.status ≠ TaskStatus.finished := by
        rcases hst with hst | hst <;> rw [hst] <;> decide
      rw [if_neg h1]
      rfl
    · have hne : a ≠ Action.done i := by
        rw [ha]
        intro h
        injection h with h
        exact hij h
      rw [if_neg hne, Nat.zero_add]
      exact (doneCount_eq_of_tasks s s1 i (by rw [ht, List.getElem?_set_ne hij])).symm

/-- Along a schedule the deferred `Done` of task `i` runs as many times as
the task goes from not finished to finished: once or not at all. -/
theorem doneCount_runSchedule (acts : List Action) (i : Nat) :
    ∀ (s s1 : PollState σ), runSchedule l request acts s = some s1 →
      acts.count (Action.done i) + doneCount s i = doneCount s1 i := by
  induction acts with
  | nil =>
    intro s s1 hrun
    simp only [runSchedule] at hrun
    injection hrun with hrun
    rw [hrun]
    simp
  | cons a acts ih =>
    intro s s1 hrun
    simp only [runSchedule] at hrun
    cases hstep : step l request a s with
    | none => rw [hstep] at hrun; cases hrun
    | some s2 =>
      rw [hstep] at hrun
      have h1 := doneCount_step l request a s s2 hstep i
      have h2 := ih s2 s1 hrun
      rw [List.count_cons]
      by_cases ha : a = Action.done i
      · rw [if_pos ha] at h1
        simp only [ha, beq_self_eq_true, if_true]
        omega
      · rw [if_neg ha] at h1
        have hb : (a == Action.done i) = false := by simpa using ha
        simp only [hb, Bool.false_eq_true, if_false]
        omega

end PollDone

/-- C11: along every schedule of the poll loop, (1) the deferred `Done` of a
task runs exactly as many times as the task goes from registered to
finished, so once for a task that has finished and never twice; (2) the
counter moves with the number of registered tasks that have not finished: it
goes up by one when the loop starts a task and down by one at the `Done` of
a task, so it is never negative when it started at least as large as that
number, and it is back at its earlier value when as many tasks are
unfinished as were before; (3) the `Done` of a task runs only after its
`handleMessage` (handler call and delete call) is over, and can run then
whether `handleMessage` returned or panicked; a task that has not run yet can
run, so that no registered task of a live process is kept from its `Done`. -/
theorem poll_task_deregistered_once {σ : Type} (l : SQSListener σ)
    (request : ReceiveMessageInput) (acts : List Action) (s s1 : PollState σ)
    (hrun : runSchedule l request acts s = some s1) :
    (∀ i, acts.count (Action.done i) + doneCount s i = doneCount s1 i) ∧
      s1.counter - liveCount s1.tasks = s.counter - liveCount s.tasks ∧
      ((liveCount s.tasks : Int) ≤ s.counter → 0 ≤ s1.counter) ∧
      (liveCount s1.tasks = liveCount s.tasks → s1.counter = s.counter) ∧
      (∀ s2 m rest, s2.crashed = false → s2.pc = LoopPc.dispatch (m :: rest) →
        step l request Action.loop s2 =
          some { s2 with pc := LoopPc.dispatch rest, counter := s2.counter + 1,
                         tasks := s2.tasks ++ [newTask m] }) ∧
      (∀ i s2 s3, step l request (Action.done i) s2 = some s3 →
        ∃ t, s2.tasks[i]? = some t ∧
          (t.status = TaskStatus.returned ∨ t.status = TaskStatus.panicking) ∧
          s3.tasks = s2.tasks.set i { t with status := TaskStatus.finished } ∧
          s3.counter = s2.counter - 1) ∧
      (∀ i s2 t, s2.crashed = false → s2.tasks[i]? = some t →
        (t.status = TaskStatus.returned ∨ t.status = TaskStatus.panicking) →
        ∃ s3, step l request (Action.done i) s2 = some s3) ∧
      (∀ i s2 t, s2.crashed = false → s2.tasks[i]? = some t →
        t.status = TaskStatus.spawned → ∃ s3, step l request (Action.run i) s2 = some s3) := by
  have hbal := counter_balance_runSchedule l request acts s s1 hrun
  refine ⟨fun i => doneCount_runSchedule l request acts i s s1 hrun, hbal, ?_, ?_, ?_, ?_, ?_,
    ?_⟩
  · intro h
    have : (0 : Int) ≤ liveCount s1.tasks := Int.ofNat_nonneg _
    omega
  · intro h
    rw [h] at hbal
    omega
  · intro s2 m rest hcrash hpc
    unfold step loopStep
    simp [hcrash, hpc]
  · intro i s2 s3 hstep
    obtain ⟨_, h⟩ := step_shape l request (Action.done i) s2 s3 hstep
    rcases h with ⟨ha, _, _⟩ | ⟨m, rest, ha, _⟩ | ⟨j, t, t1, ha, _⟩ | ⟨j, t, ha, hj, hst, ht, hc, _⟩
    · rcases ha with ha | ha <;> cases ha
    · cases ha
    · cases ha
    · injection ha with ha
      subst ha
      exact ⟨t, hj, hst, ht, hc⟩
  · intro i s2 t hcrash hi hst
    unfold step doneStep
    simp [hcrash, hi, hst]
  · intro i s2 t hcrash hi hst
    unfold step runStep
    simp [hcrash, hi, hst]

/-- The scenario of the spec on the test listener, from the start of `poll`
with the counter at zero: three tasks are registered, each is deregistered
once, the counter ends at zero. -/
theorem poll_task_deregistered_once_witness :
    ∃ s1, runSchedule testListener (listenRequest testListener)
        (List.replicate 4 Action.loop ++ runTasks 0 3) (pollStart false 0 0) = some s1 ∧
      ((∀ i, (List.replicate 4 Action.loop ++ runTasks 0 3).count (Action.done i) +
            doneCount (pollStart false 0 (0 : Nat)) i = doneCount s1 i) ∧
        s1.counter - liveCount s1.tasks =
          (pollStart false 0 (0 : Nat)).counter - liveCount (pollStart false 0 (0 : Nat)).tasks ∧
        ((liveCount (pollStart false 0 (0 : Nat)).tasks : Int) ≤
            (pollStart false 0 (0 : Nat)).counter → 0 ≤ s1.counter) ∧
        (liveCount s1.tasks = liveCount (pollStart false 0 (0 : Nat)).tasks →
          s1.counter = (pollStart false 0 (0 : Nat)).counter)) ∧
      s1.counter = 0 ∧ doneCount s1 0 = 1 ∧ doneCount s1 1 = 1 ∧ doneCount s1 2 = 1 := by
  have hsome : (runSchedule testListener (listenRequest testListener)
      (List.replicate 4 Action.loop ++ runTasks 0 3) (pollStart false 0 0)).isSome = true := by
    decide
  obtain ⟨s1, h1⟩ := Option.isSome_iff_exists.mp hsome
  have hthm := poll_task_deregistered_once testListener (listenRequest testListener)
    (List.replicate 4 Action.loop ++ runTasks 0 3) (pollStart false 0 0) s1 h1
  have hvals : (runSchedule testListener (listenRequest testListener)
      (List.replicate 4 Action.loop ++ runTasks 0 3) (pollStart false 0 0)).map
      (fun s => (s.counter, doneCount s 0, doneCount s 1, doneCount s 2)) =
      some (0, 1, 1, 1) := by decide
  rw [h1] at hvals
  simp only [Option.map_some', Option.some.injEq, Prod.mk.injEq] at hvals
  exact ⟨s1, h1, ⟨hthm.1, hthm.2.1, hthm.2.2.1, hthm.2.2.2.1⟩, hvals.1, hvals.2.1, hvals.2.2.1,
    hvals.2.2.2⟩

section PollShutdown

variable {σ : Type} (l : SQSListener σ) (request : ReceiveMessageInput)

/-- How a step moves the position of the loop and the signal: only the loop
moves its position; the signal, once fired, stays; from the `select` with
the signal fired the loop goes to the drain wait; from the drain wait it
moves only with the counter at zero, and then returns; once returned it does
not move. -/
theorem step_pc_signal (a : Action) (s s1 : PollState σ)
    (hstep : step l request a s = some s1) :
    (a ≠ Action.loop → s1.pc = s.pc) ∧
      (s.signalled = true → s1.signalled = true) ∧
      (a = Action.loop → s.signalled = true → s.pc = LoopPc.select → s1.pc = LoopPc.wait) ∧
      (a = Action.loop → s.pc = LoopPc.wait → s.counter = 0 ∧ s1.pc = LoopPc.returned) ∧
      (a = Action.loop → s.pc ≠ LoopPc.returned) := by
  unfold step at hstep
  by_cases hc : s.crashed = true
  · rw [if_pos hc] at hstep
    cases hstep
  · rw [if_neg hc] at hstep
    cases a with
    | signal =>
      simp only at hstep
      injection hstep with hstep
      rw [← hstep]
      refine ⟨fun _ => rfl, fun _ => rfl, ?_, ?_, ?_⟩
      all_goals (intro h; cases h)
    | loop =>
      simp only at hstep
      unfold loopStep at hstep
      refine ⟨fun h => absurd rfl h, ?_⟩
      cases hpc : s.pc with
      | select =>
        rw [hpc] at hstep
        simp only at hstep
        by_cases hsig : s.signalled = true
        · rw [if_pos hsig] at hstep
          injection hstep with hstep
          rw [← hstep]
          refine ⟨fun h => h, fun _ _ _ => rfl, ?_, ?_⟩
          all_goals (intro _ h; cases h)
        · refine ⟨fun h => absurd h hsig, fun _ h => absurd h hsig, ?_, ?_⟩
          all_goals (intro _ h; cases h)
      | dispatch rest =>
        rw [hpc] at hstep
        refine ⟨?_, ?_, ?_, ?_⟩
        rotate_left
        · intro _ _ h; cases h
        · intro _ h; cases h
        · intro _ h; cases h
        cases rest with
        | nil =>
          simp only at hstep
          injection hstep with hstep
          rw [← hstep]
          exact fun h => h
        | cons m rest =>
          simp only at hstep
          injection hstep with hstep
          rw [← hstep]
          exact fun h => h
      | wait =>
        rw [hpc] at hstep
        simp only at hstep
        by_cases h0 : s.counter = 0
        · rw [if_pos h0] at hstep
          injection hstep with hstep
          rw [← hstep]
          refine ⟨fun h => h, ?_, fun _ _ => ⟨h0, rfl⟩, ?_⟩
          · intro _ _ h; cases h
          · intro _ h; cases h
        · rw [if_neg h0] at hstep
          cases hstep
      | returned =>
        rw [hpc] at hstep
        cases hstep
    | run i =>
      simp only at hstep
      unfold runStep at hstep
      cases hi : s.tasks[i]? with
      | none => rw [hi] at hstep; cases hstep
      | some t =>
        rw [hi] at hstep
        simp only at hstep
        split at hstep
        · injection hstep with hstep
          rw [← hstep]
          refine ⟨fun _ => rfl, fun h => h, ?_, ?_, ?_⟩
          all_goals (intro h; cases h)
        · cases hstep
    | done i =>
      simp only at hstep
      unfold doneStep at hstep
      cases hi : s.tasks[i]? with
      | none => rw [hi] at hstep; cases hstep
      | some t =>
        rw [hi] at hstep
        simp only at hstep
        split at hstep
        · injection hstep with hstep
          rw [← hstep]
          refine ⟨fun _ => rfl, fun h => h, ?_, ?_, ?_⟩
          all_goals (intro h; cases h)
        · cases hstep

/-- A cycle of the loop whose fetch returns an error or an empty batch: the
loop is back at the `select`, with the tasks, the counter and the signal as
they were, and the world changed by the fetch alone. -/
theorem step_loop_quiet (s : PollState σ) (hcrash : s.crashed = false)
    (hpc : s.pc = LoopPc.select) (hsig : s.signalled = false)
    (hfetch : (∃ out e, (l.ReceiveMessage request s.world).1 = (out, some e)) ∨
      (l.ReceiveMessage request s.world).1 = (some [], none)) :
    ∃ s1, step l request Action.loop s = some s1 ∧ s1.pc = LoopPc.select ∧
      s1.tasks = s.tasks ∧ s1.counter = s.counter ∧ s1.crashed = false ∧
      s1.signalled = false ∧ s1.world = (l.ReceiveMessage request s.world).2 := by
  rcases hR : l.ReceiveMessage request s.world with ⟨⟨out, err⟩, w1⟩
  rw [hR] at hfetch
  rcases hfetch with ⟨out1, e, he⟩ | he
  · simp only [Prod.mk.injEq] at he
    obtain ⟨_, he⟩ := he
    subst he
    refine ⟨{ s with log := s.log ++ [e.text], world := w1 }, ?_, hpc, rfl, rfl, hcrash, hsig,
      rfl⟩
    unfold step loopStep
    simp [hcrash, hpc, hsig, hR]
  · simp only [Prod.mk.injEq] at he
    obtain ⟨ho, he⟩ := he
    subst ho
    subst he
    refine ⟨{ s with world := w1 }, ?_, hpc, rfl, rfl, hcrash, hsig, rfl⟩
    unfold step loopStep
    simp [hcrash, hpc, hsig, hR]

/-- A step from the drain wait or after the return of the loop does not
consult `ReceiveMessage`: it is the same whatever that method is. -/
theorem step_independent_of_fetch (a : Action) (s : PollState σ)
    (hpc : s.pc = LoopPc.wait ∨ s.pc = LoopPc.returned)
    (f : ReceiveMessageInput → σ → (Option (List Message) × Option GoError) × σ) :
    step { l with ReceiveMessage := f } request a s = step l request a s := by
  unfold step
  by_cases hc : s.crashed = true
  · rw [if_pos hc, if_pos hc]
  · rw [if_neg hc, if_neg hc]
    cases a with
    | signal => rfl
    | loop =>
      simp only
      unfold loopStep
      rcases hpc with hpc | hpc <;> rw [hpc]
    | run i => rfl
    | done i => rfl

/-- From the drain wait on, the loop stays in the drain wait or has returned,
no task is added, and the run is the same whatever `ReceiveMessage` is. -/
theorem runSchedule_of_waiting (acts : List Action) :
    ∀ (s s1 : PollState σ), (s.pc = LoopPc.wait ∨ s.pc = LoopPc.returned) →
      runSchedule l request acts s = some s1 →
      (s1.pc = LoopPc.wait ∨ s1.pc = LoopPc.returned) ∧
        s1.tasks.length = s.tasks.length ∧
        ∀ f, runSchedule { l with ReceiveMessage := f } request acts s = some s1 := by
  induction acts with
  | nil =>
    intro s s1 hpc hrun
    simp only [runSchedule] at hrun
    injection hrun with hrun
    rw [← hrun]
    exact ⟨hpc, rfl, fun _ => rfl⟩
  | cons a acts ih =>
    intro s s1 hpc hrun
    simp only [runSchedule] at hrun
    cases hstep : step l request a s with
    | none => rw [hstep] at hrun; cases hrun
    | some s2 =>
      rw [hstep] at hrun
      obtain ⟨hnl, _, _, hw, hr⟩ := step_pc_signal l request a s s2 hstep
      have hpc2 : s2.pc = LoopPc.wait ∨ s2.pc = LoopPc.returned := by
        by_cases ha : a = Action.loop
        · rcases hpc with hpc | hpc
          · exact Or.inr (hw ha hpc).2
          · exact absurd hpc (hr ha)
        · rw [hnl ha]; exact hpc
      have hlen2 : s2.tasks.length = s.tasks.length := by
        obtain ⟨_, h⟩ := step_shape l request a s s2 hstep
        rcases h with ⟨_, ht, _⟩ | ⟨m, rest, _, hd, _⟩ | ⟨i, t, t1, _, _, _, _, ht, _⟩ |
          ⟨i, t, _, _, _, ht, _⟩
        · rw [ht]
        · rcases hpc with hpc | hpc <;> rw [hpc] at hd <;> cases hd
        · rw [ht, List.length_set]
        · rw [ht, List.length_set]
      obtain ⟨h1, h2, h3⟩ := ih s2 s1 hpc2 hrun
      refine ⟨h1, by rw [h2, hlen2], fun f => ?_⟩
      simp only [runSchedule]
      rw [step_independent_of_fetch l request a s hpc f, hstep]
      exact h3 f

/-- While every fetch returns an empty batch, no task is ever started and no
schedule holds a run of `handleMessage`. -/
theorem runSchedule_of_empty_fetches
    (hempty : ∀ w, ∃ w1, l.ReceiveMessage request w = ((some [], none), w1))
    (acts : List Action) :
    ∀ (s s1 : PollState σ), s.tasks = [] →
      (s.pc = LoopPc.select ∨ s.pc = LoopPc.wait ∨ s.pc = LoopPc.returned) →
      runSchedule l request acts s = some s1 →
      s1.tasks = [] ∧ ∀ i, Action.run i ∉ acts := by
  induction acts with
  | nil =>
    intro s s1 ht _ hrun
    simp only [runSchedule] at hrun
    injection hrun with hrun
    rw [← hrun]
    exact ⟨ht, fun i h => by cases h⟩
  | cons a acts ih =>
    intro s s1 ht hpc hrun
    simp only [runSchedule] at hrun
    cases hstep : step l request a s with
    | none => rw [hstep] at hrun; cases hrun
    | some s2 =>
      rw [hstep] at hrun
      obtain ⟨hnl, _, _, hw, hr⟩ := step_pc_signal l request a s s2 hstep
      obtain ⟨hcr, hshape⟩ := step_shape l request a s s2 hstep
      have hkey : s2.tasks = [] ∧
          (s2.pc = LoopPc.select ∨ s2.pc = LoopPc.wait ∨ s2.pc = LoopPc.returned) ∧
          ∀ i, a ≠ Action.run i := by
        rcases hshape with ⟨ha, ht2, _⟩ | ⟨m, rest, _, hd, _⟩ | ⟨i, t, t1, _, hi, _⟩ |
          ⟨i, t, _, hi, _⟩
        · refine ⟨by rw [ht2, ht], ?_, ?_⟩
          · rcases ha with ha | ha
            · rw [hnl (by rw [ha]; intro h; cases h)]
              exact hpc
            · subst ha
              rcases hpc with hpc | hpc | hpc
              · by_cases hsig : s.signalled = true
                · exact Or.inr (Or.inl ((step_pc_signal l request _ s s2 hstep).2.2.1 rfl
                    hsig hpc))
                · obtain ⟨w1, hw1⟩ := hempty s.world
                  obtain ⟨s3, hs3, hpc3, _⟩ := step_loop_quiet l request s hcr hpc
                    (by simpa using hsig) (Or.inr (by rw [hw1]))
                  rw [hs3] at hstep
                  injection hstep with hstep
                  rw [← hstep]
                  exact Or.inl hpc3
              · exact Or.inr (Or.inr (hw rfl hpc).2)
              · exact absurd hpc (hr rfl)
          · intro i h
            rcases ha with ha | ha <;> rw [ha] at h <;> cases h
        · rcases hpc with hpc | hpc | hpc <;> rw [hpc] at hd <;> cases hd
        · rw [ht] at hi
          cases hi
        · rw [ht] at hi
          cases hi
      obtain ⟨h1, h2⟩ := ih s2 s1 hkey.1 hkey.2.1 hrun
      refine ⟨h1, fun i hmem => ?_⟩
      rcases List.mem_cons.mp hmem with h | h
      · exact hkey.2.2 i h.symm
      · exact h2 i h

end PollShutdown

section PollDrain

variable {σ : Type} (l : SQSListener σ) (request : ReceiveMessageInput)

/-- The shutdown check that finds the signal fired sends the loop to the drain
wait, without a fetch. -/
theorem step_loop_signalled (s : PollState σ) (hcrash : s.crashed = false)
    (hpc : s.pc = LoopPc.select) (hsig : s.signalled = true) :
    step l request Action.loop s = some { s with pc := LoopPc.wait } := by
  unfold step loopStep
  simp [hcrash, hpc, hsig]

/-- In the drain wait the loop moves exactly when the counter is zero, and
then it returns. -/
theorem step_loop_wait (s : PollState σ) (hcrash : s.crashed = false)
    (hpc : s.pc = LoopPc.wait) :
    step l request Action.loop s =
      if s.counter = 0 then some { s with pc := LoopPc.returned } else none := by
  unfold step loopStep
  simp [hcrash, hpc]

/-- Once returned the loop takes no step. -/
theorem step_loop_returned (s : PollState σ) (hpc : s.pc = LoopPc.returned) :
    step l request Action.loop s = none := by
  unfold step loopStep
  simp [hpc]

/-- The `n` loop steps of `n` cycles whose fetches fail or return nothing. -/
theorem runSchedule_quiet_cycles (s : PollState σ) (hcrash : s.crashed = false)
    (hpc : s.pc = LoopPc.select) (hsig : s.signalled = false) (n : Nat) :
    (∀ k, k < n →
      (∃ out e, (l.ReceiveMessage request (fetchWorld l request s.world k)).1 =
          (out, some e)) ∨
        (l.ReceiveMessage request (fetchWorld l request s.world k)).1 = (some [], none)) →
    ∃ s1, runSchedule l request (List.replicate n Action.loop) s = some s1 ∧
      s1.pc = LoopPc.select ∧ s1.tasks = s.tasks ∧ s1.counter = s.counter ∧
      s1.crashed = false ∧ s1.signalled = false ∧
      s1.world = fetchWorld l request s.world n := by
  induction n with
  | zero =>
    intro _
    exact ⟨s, rfl, hpc, rfl, rfl, hcrash, hsig, rfl⟩
  | succ n ih =>
    intro hfetch
    obtain ⟨s1, hrun1, hpc1, ht1, hc1, hcr1, hsig1, hw1⟩ :=
      ih (fun k hk => hfetch k (Nat.lt_succ_of_lt hk))
    have hf := hfetch n (Nat.lt_succ_self n)
    rw [← hw1] at hf
    obtain ⟨s2, hstep2, hpc2, ht2, hc2, hcr2, hsig2, hw2⟩ :=
      step_loop_quiet l request s1 hcr1 hpc1 hsig1 hf
    refine ⟨s2, ?_, hpc2, by rw [ht2, ht1], by rw [hc2, hc1], hcr2, hsig2, ?_⟩
    · rw [List.replicate_succ', runSchedule_append, hrun1]
      show runSchedule l request [Action.loop] s1 = some s2
      simp only [runSchedule, hstep2]
    · rw [hw2, hw1]
      rfl

/-- The invariant of a loop that found the signal fired while the counter
counted its own unfinished tasks: the signal stays fired, the counter keeps
counting the unfinished tasks, and the loop is at its shutdown check, in the
drain wait, or returned with the counter at zero. -/
theorem drain_invariant_step (a : Action) (s s1 : PollState σ)
    (hstep : step l request a s = some s1) (hsig : s.signalled = true)
    (hcount : s.counter = liveCount s.tasks)
    (hpc : s.pc = LoopPc.select ∨ s.pc = LoopPc.wait ∨
      (s.pc = LoopPc.returned ∧ s.counter = 0)) :
    s1.signalled = true ∧ s1.counter = liveCount s1.tasks ∧
      (s1.pc = LoopPc.select ∨ s1.pc = LoopPc.wait ∨
        (s1.pc = LoopPc.returned ∧ s1.counter = 0)) := by
  obtain ⟨hnl, hs, hsel, hw, hr⟩ := step_pc_signal l request a s s1 hstep
  have hbal := counter_balance_step l request a s s1 hstep
  have hcount1 : s1.counter = liveCount s1.tasks := by omega
  refine ⟨hs hsig, hcount1, ?_⟩
  obtain ⟨_, hshape⟩ := step_shape l request a s s1 hstep
  by_cases ha : a = Action.loop
  · rcases hpc with hpc | hpc | ⟨hpc, _⟩
    · exact Or.inr (Or.inl (hsel ha hsig hpc))
    · obtain ⟨h0, hret⟩ := hw ha hpc
      refine Or.inr (Or.inr ⟨hret, ?_⟩)
      rcases hshape with ⟨_, _, hc⟩ | ⟨m, rest, _, hd, _⟩ | ⟨i, t, t1, ha1, _⟩ | ⟨i, t, ha1, _⟩
      · rw [hc, h0]
      · rw [hpc] at hd; cases hd
      · rw [ha] at ha1; cases ha1
      · rw [ha] at ha1; cases ha1
    · exact absurd hpc (hr ha)
  · rw [hnl ha]
    rcases hpc with hpc | hpc | ⟨hpc, h0⟩
    · exact Or.inl hpc
    · exact Or.inr (Or.inl hpc)
    · refine Or.inr (Or.inr ⟨hpc, ?_⟩)
      rcases hshape with ⟨_, _, hc⟩ | ⟨m, rest, ha1, _⟩ | ⟨i, t, t1, _, _, _, _, _, hc, _⟩ |
        ⟨i, t, _, _, _, _, hc, _⟩
      · rw [hc, h0]
      · exact absurd ha1 ha
      · rw [hc, h0]
      · have : (0 : Int) ≤ liveCount s1.tasks := Int.ofNat_nonneg _
        omega

theorem drain_invariant_runSchedule (acts : List Action) :
    ∀ (s s1 : PollState σ), runSchedule l request acts s = some s1 →
      s.signalled = true → s.counter = liveCount s.tasks →
      (s.pc = LoopPc.select ∨ s.pc = LoopPc.wait ∨
        (s.pc = LoopPc.returned ∧ s.counter = 0)) →
      s1.signalled = true ∧ s1.counter = liveCount s1.tasks ∧
        (s1.pc = LoopPc.select ∨ s1.pc = LoopPc.wait ∨
          (s1.pc = LoopPc.returned ∧ s1.counter = 0)) := by
  induction acts with
  | nil =>
    intro s s1 hrun hsig hcount hpc
    simp only [runSchedule] at hrun
    injection hrun with hrun
    rw [← hrun]
    exact ⟨hsig, hcount, hpc⟩
  | cons a acts ih =>
    intro s s1 hrun hsig hcount hpc
    simp only [runSchedule] at hrun
    cases hstep : step l request a s with
    | none => rw [hstep] at hrun; cases hrun
    | some s2 =>
      rw [hstep] at hrun
      obtain ⟨h1, h2, h3⟩ := drain_invariant_step l request a s s2 hstep hsig hcount hpc
      exact ih s2 s1 hrun h1 h2 h3

end PollDrain

/-- C12: once the shutdown check of a cycle finds the signal fired, the loop
goes to the drain wait without a fetch; in every state any schedule reaches
afterwards the loop is in the drain wait or has returned, no task has been
added, and the run is the same whatever `ReceiveMessage` is (no fetch is
issued); in the drain wait the loop moves exactly when the counter is zero,
and then returns, after which it takes no step.  In a run from a state
without tasks in which every fetch returns an empty batch, no task exists at
any time and no step runs `handleMessage`: the handler is never invoked. -/
theorem poll_stops_after_signal {σ : Type} (l : SQSListener σ)
    (request : ReceiveMessageInput) (s : PollState σ) (hcrash : s.crashed = false)
    (hpc : s.pc = LoopPc.select) (hsig : s.signalled = true) :
    step l request Action.loop s = some { s with pc := LoopPc.wait } ∧
      (∀ acts s1, runSchedule l request (Action.loop :: acts) s = some s1 →
        (s1.pc = LoopPc.wait ∨ s1.pc = LoopPc.returned) ∧
          s1.tasks.length = s.tasks.length ∧
          ∀ f, runSchedule { l with ReceiveMessage := f } request (Action.loop :: acts) s =
            some s1) ∧
      (∀ s2 : PollState σ, s2.crashed = false → s2.pc = LoopPc.wait →
        step l request Action.loop s2 =
          if s2.counter = 0 then some { s2 with pc := LoopPc.returned } else none) ∧
      (∀ s2 : PollState σ, s2.pc = LoopPc.returned → step l request Action.loop s2 = none) ∧
      (∀ (s0 : PollState σ) acts s1, s0.tasks = [] → s0.pc = LoopPc.select →
        (∀ w, ∃ w1, l.ReceiveMessage request w = ((some [], none), w1)) →
        runSchedule l request acts s0 = some s1 →
        s1.tasks = [] ∧ ∀ i, Action.run i ∉ acts) := by
  have hstep := step_loop_signalled l request s hcrash hpc hsig
  refine ⟨hstep, ?_, fun s2 h1 h2 => step_loop_wait l request s2 h1 h2,
    fun s2 h => step_loop_returned l request s2 h, ?_⟩
  · intro acts s1 hrun
    simp only [runSchedule, hstep] at hrun
    obtain ⟨h1, h2, h3⟩ := runSchedule_of_waiting l request acts { s with pc := LoopPc.wait } s1
      (Or.inl rfl) hrun
    refine ⟨h1, h2, fun f => ?_⟩
    have hstepf : step { l with ReceiveMessage := f } request Action.loop s =
        some { s with pc := LoopPc.wait } :=
      step_loop_signalled { l with ReceiveMessage := f } request s hcrash hpc hsig
    simp only [runSchedule, hstepf]
    exact h3 f
  · intro s0 acts s1 ht hpc0 hempty hrun
    exact runSchedule_of_empty_fetches l request hempty acts s0 s1 ht (Or.inl hpc0) hrun

/-- The first case of `TestSQSListener_poll`: with the signal fired at the
start the loop goes to the drain wait; and in a run of three empty fetches,
the signal and the drain, the loop returns without a task. -/
theorem poll_stops_after_signal_witness :
    ((pollStart true 0 (0 : Nat)).crashed = false ∧
        (pollStart true 0 (0 : Nat)).pc = LoopPc.select ∧
        (pollStart true 0 (0 : Nat)).signalled = true) ∧
      step idleListener (listenRequest idleListener) Action.loop (pollStart true 0 0) =
        some { pollStart true 0 0 with pc := LoopPc.wait } ∧
      ∃ s1, runSchedule idleListener (listenRequest idleListener)
          [Action.loop, Action.loop, Action.loop, Action.signal, Action.loop, Action.loop]
          (pollStart false 0 0) = some s1 ∧
        s1.pc = LoopPc.returned ∧ s1.world = 3 ∧ s1.tasks = [] := by
  have hthm := poll_stops_after_signal idleListener (listenRequest idleListener)
    (pollStart true 0 0) rfl rfl rfl
  refine ⟨⟨rfl, rfl, rfl⟩, hthm.1, ?_⟩
  have hsome : (runSchedule idleListener (listenRequest idleListener)
      [Action.loop, Action.loop, Action.loop, Action.signal, Action.loop, Action.loop]
      (pollStart false 0 0)).isSome = true := by decide
  obtain ⟨s1, h1⟩ := Option.isSome_iff_exists.mp hsome
  have hvals : (runSchedule idleListener (listenRequest idleListener)
      [Action.loop, Action.loop, Action.loop, Action.signal, Action.loop, Action.loop]
      (pollStart false 0 0)).map (fun s => (s.pc, s.world)) =
      some (LoopPc.returned, 3) := by decide
  rw [h1] at hvals
  simp only [Option.map_some', Option.some.injEq, Prod.mk.injEq] at hvals
  exact ⟨s1, h1, hvals.1, hvals.2,
    (hthm.2.2.2.2 (pollStart false 0 0) _ s1 rfl rfl (fun w => ⟨w + 1, rfl⟩) h1).1⟩

/-- C13: from the shutdown check of a cycle with the signal not fired, `n`
cycles in a row whose fetch returns an error or an empty batch leave the
loop at the shutdown check of the next cycle, alive, with the same tasks and
the same counter (no task registered), and with the world changed by the `n`
fetches alone (no handler call, no delete request), for every `n`. -/
theorem poll_continues_after_failed_fetch {σ : Type} (l : SQSListener σ)
    (request : ReceiveMessageInput) (s : PollState σ) (n : Nat)
    (hcrash : s.crashed = false) (hpc : s.pc = LoopPc.select)
    (hsig : s.signalled = false)
    (hfetch : ∀ k, k < n →
      (∃ out e, (l.ReceiveMessage request (fetchWorld l request s.world k)).1 =
          (out, some e)) ∨
        (l.ReceiveMessage request (fetchWorld l request s.world k)).1 = (some [], none)) :
    ∃ s1, runSchedule l request (List.replicate n Action.loop) s = some s1 ∧
      s1.pc = LoopPc.select ∧ s1.tasks = s.tasks ∧ s1.counter = s.counter ∧
      s1.crashed = false ∧ s1.signalled = false ∧
      s1.world = fetchWorld l request s.world n :=
  runSchedule_quiet_cycles l request s hcrash hpc hsig n hfetch

/-- Five fetches in a row that fail: the loop is at its shutdown check again,
with no task. -/
theorem poll_continues_after_failed_fetch_witness :
    (∀ k, k < 5 →
        (∃ out e, (failingListener.ReceiveMessage (listenRequest failingListener)
            (fetchWorld failingListener (listenRequest failingListener)
              (pollStart false 0 (0 : Nat)).world k)).1 = (out, some e)) ∨
          (failingListener.ReceiveMessage (listenRequest failingListener)
            (fetchWorld failingListener (listenRequest failingListener)
              (pollStart false 0 (0 : Nat)).world k)).1 = (some [], none)) ∧
      ∃ s1, runSchedule failingListener (listenRequest failingListener)
          (List.replicate 5 Action.loop) (pollStart false 0 0) = some s1 ∧
        s1.pc = LoopPc.select ∧ s1.tasks = (pollStart false 0 (0 : Nat)).tasks ∧
        s1.counter = (pollStart false 0 (0 : Nat)).counter ∧ s1.crashed = false ∧
        s1.signalled = false ∧
        s1.world = fetchWorld failingListener (listenRequest failingListener)
          (pollStart false 0 (0 : Nat)).world 5 :=
  ⟨fun _ _ => Or.inl ⟨none, errorsNew "fetch failed", rfl⟩,
    poll_continues_after_failed_fetch failingListener (listenRequest failingListener)
      (pollStart false 0 0) 5 rfl rfl rfl
      (fun _ _ => Or.inl ⟨none, errorsNew "fetch failed", rfl⟩)⟩

/-- C14: for a loop at its shutdown check with the signal fired and a counter
that counts its registered tasks not yet completed, in every state any
schedule reaches: while some registered task is not completed the loop has
not returned, and in the drain wait it cannot move; once every registered
task is completed (and the process is alive) at most two steps of the loop
take it through the drain wait to its return, where `Listen` stops. -/
theorem drain_returns_iff_tasks_complete {σ : Type} (l : SQSListener σ)
    (request : ReceiveMessageInput) (s : PollState σ)
    (hpc : s.pc = LoopPc.select) (hsig : s.signalled = true)
    (hcount : s.counter = liveCount s.tasks) :
    ∀ acts s1, runSchedule l request acts s = some s1 →
      (liveCount s1.tasks ≠ 0 →
        s1.pc ≠ LoopPc.returned ∧
          (s1.pc = LoopPc.wait → step l request Action.loop s1 = none)) ∧
      (s1.crashed = false → liveCount s1.tasks = 0 →
        ∃ k s2, k ≤ 2 ∧
          runSchedule l request (List.replicate k Action.loop) s1 = some s2 ∧
          s2.pc = LoopPc.returned) := by
  intro acts s1 hrun
  obtain ⟨hsig1, hcount1, hpc1⟩ :=
    drain_invariant_runSchedule l request acts s s1 hrun hsig hcount (Or.inl hpc)
  constructor
  · intro hlive
    have hne : s1.counter ≠ 0 := by
      rw [hcount1]
      exact_mod_cast hlive
    constructor
    · intro hret
      rcases hpc1 with h | h | ⟨_, h0⟩
      · rw [hret] at h; cases h
      · rw [hret] at h; cases h
      · exact hne h0
    · intro hwait
      by_cases hc : s1.crashed = true
      · unfold step
        rw [if_pos hc]
      · rw [step_loop_wait l request s1 (by simpa using hc) hwait, if_neg hne]
  · intro hcrash1 hlive
    have h0 : s1.counter = 0 := by
      rw [hcount1, hlive]
      rfl
    rcases hpc1 with h | h | ⟨h, _⟩
    · refine ⟨2, { s1 with pc := LoopPc.returned }, Nat.le_refl 2, ?_, rfl⟩
      have hstep1 := step_loop_signalled l request s1 hcrash1 h hsig1
      have hstep2 := step_loop_wait l request { s1 with pc := LoopPc.wait } hcrash1 rfl
      rw [if_pos h0] at hstep2
      show runSchedule l request [Action.loop, Action.loop] s1 = _
      simp only [runSchedule, hstep1, hstep2]
    · refine ⟨1, { s1 with pc := LoopPc.returned }, by omega, ?_, rfl⟩
      have hstep2 := step_loop_wait l request s1 hcrash1 h
      rw [if_pos h0] at hstep2
      show runSchedule l request [Action.loop] s1 = _
      simp only [runSchedule, hstep2]
    · exact ⟨0, s1, by omega, rfl, h⟩

/-- One registered task and the signal fired: after the shutdown check and the
run of the task the loop has not returned; after the `Done` of the task one
more step of the loop returns. -/
theorem drain_returns_iff_tasks_complete_witness :
    (drainingState.pc = LoopPc.select ∧ drainingState.signalled = true ∧
        drainingState.counter = liveCount drainingState.tasks) ∧
      (∃ s1, runSchedule testListener (listenRequest testListener)
          [Action.loop, Action.run 0] drainingState = some s1 ∧
        liveCount s1.tasks ≠ 0 ∧ s1.pc ≠ LoopPc.returned ∧
        step testListener (listenRequest testListener) Action.loop s1 = none) ∧
      (runSchedule testListener (listenRequest testListener)
          [Action.loop, Action.run 0, Action.done 0, Action.loop] drainingState).map
        (fun s => (s.pc, s.counter, liveCount s.tasks)) = some (LoopPc.returned, 0, 0) := by
  refine ⟨⟨rfl, rfl, by decide⟩, ?_, by decide⟩
  have hsome : (runSchedule testListener (listenRequest testListener)
      [Action.loop, Action.run 0] drainingState).isSome = true := by decide
  obtain ⟨s1, h1⟩ := Option.isSome_iff_exists.mp hsome
  have hvals : (runSchedule testListener (listenRequest testListener)
      [Action.loop, Action.run 0] drainingState).map
      (fun s => (liveCount s.tasks, s.pc)) = some (1, LoopPc.wait) := by decide
  rw [h1] at hvals
  simp only [Option.map_some', Option.some.injEq, Prod.mk.injEq] at hvals
  have hlive : liveCount s1.tasks ≠ 0 := by rw [hvals.1]; decide
  have hthm := (drain_returns_iff_tasks_complete testListener (listenRequest testListener)
    drainingState rfl rfl (by decide) _ s1 h1).1 hlive
  exact ⟨s1, h1, hlive, hthm.1, hthm.2 hvals.2⟩

/-! ## Negative attempts, the order of options -/

/-- C28: when the options leave a negative `Attempts`, `Retry` never executes
the operation and returns nil: the trace is empty, the error is nil and the
state is the one before the call. -/
theorem retry_negative_attempts {σ : Type} (publishFunc : String → σ → Option GoError × σ)
    (message : String) (rt : Runtime) (opts : List RetryOption) (w : σ)
    (hneg : (applyOptions opts).Attempts < 0) :
    executions (Retry publishFunc message rt opts w).trace = 0 ∧
      (Retry publishFunc message rt opts w).trace = [] ∧
      (Retry publishFunc message rt opts w).err = none ∧
      (Retry publishFunc message rt opts w).state = w := by
  have hz : ((applyOptions opts).Attempts + 1).toNat = 0 := by omega
  have hrun : Retry publishFunc message rt opts w =
      { err := none, trace := [], state := w } := by
    show retryLoop (fun w => publishFunc message w) rt (applyOptions opts)
      ((applyOptions opts).Attempts + 1).toNat 0 none w [] = _
    rw [hz, retryLoop_zero]
  rw [hrun]
  exact ⟨rfl, rfl, rfl, rfl⟩

/-- C28 at `WithConstant(-1, 5)` over an operation that always fails. -/
theorem retry_negative_attempts_witness :
    (applyOptions [WithConstant (-1) 5]).Attempts < 0 ∧
      executions (Retry (fun _ n => (some errReturn, n + 1)) "m" testRuntime
        [WithConstant (-1) 5] 0).trace = 0 ∧
      (Retry (fun _ n => (some errReturn, n + 1)) "m" testRuntime
        [WithConstant (-1) 5] 0).trace = [] ∧
      (Retry (fun _ n => (some errReturn, n + 1)) "m" testRuntime
        [WithConstant (-1) 5] 0).err = none ∧
      (Retry (fun _ n => (some errReturn, n + 1)) "m" testRuntime
        [WithConstant (-1) 5] 0).state = 0 :=
  ⟨by decide, retry_negative_attempts (fun _ n => (some errReturn, n + 1)) "m" testRuntime
    [WithConstant (-1) 5] 0 (by decide)⟩

/-- Once `Backoff` is set, options that are calls of `WithExponentialBackoff`
or `WithConstant` leave it set. -/
theorem foldl_options_backoff (opts : List RetryOption) :
    ∀ c : RetryConfig, c.Backoff = true →
      (∀ o ∈ opts, ∃ a w, o = WithExponentialBackoff a w ∨ o = WithConstant a w) →
      (opts.foldl (fun config option => option config) c).Backoff = true := by
  induction opts with
  | nil => intro c hc _; exact hc
  | cons o rest ih =>
    intro c hc hall
    rw [List.foldl_cons]
    apply ih
    · obtain ⟨a, w, ho | ho⟩ := hall o (List.mem_cons_self _ _)
      · rw [ho]; rfl
      · rw [ho]; exact hc
    · intro o1 ho1
      exact hall o1 (List.mem_cons_of_mem _ ho1)

/-- After an option list that holds a call of `WithExponentialBackoff` and
otherwise calls of the two constructors, `Backoff` is set, whatever the
configuration at the start. -/
theorem foldl_options_exponential (opts : List RetryOption) :
    ∀ c : RetryConfig, (∃ a w, WithExponentialBackoff a w ∈ opts) →
      (∀ o ∈ opts, ∃ a w, o = WithExponentialBackoff a w ∨ o = WithConstant a w) →
      (opts.foldl (fun config option => option config) c).Backoff = true := by
  induction opts with
  | nil =>
    intro c h _
    obtain ⟨a, w, hmem⟩ := h
    cases hmem
  | cons o rest ih =>
    intro c h hall
    rw [List.foldl_cons]
    have hrest : ∀ o1 ∈ rest, ∃ a w, o1 = WithExponentialBackoff a w ∨ o1 = WithConstant a w :=
      fun o1 ho1 => hall o1 (List.mem_cons_of_mem _ ho1)
    obtain ⟨a, w, hmem⟩ := h
    rcases List.mem_cons.mp hmem with heq | hin
    · apply foldl_options_backoff rest _ _ hrest
      rw [← heq]
      rfl
    · exact ih _ ⟨a, w, hin⟩ hrest

/-- C29: `WithConstant(a, w)` sets `Attempts` and `WaitBase` and leaves
`Backoff` as it was; `WithExponentialBackoff` then `WithConstant`, and the
reverse order, both end with `Backoff` set; and every sequence of calls of
the two constructors that holds a call of `WithExponentialBackoff` ends with
`Backoff` set, so that the wait is the exponential one. -/
theorem withConstant_keeps_backoff :
    (∀ (a w : Int) (c : RetryConfig),
        (WithConstant a w c).Attempts = a ∧ (WithConstant a w c).WaitBase = w ∧
          (WithConstant a w c).Backoff = c.Backoff) ∧
      (∀ a w a1 w1 : Int,
        (applyOptions [WithExponentialBackoff a w, WithConstant a1 w1]).Backoff = true ∧
          (applyOptions [WithConstant a1 w1, WithExponentialBackoff a w]).Backoff = true) ∧
      (∀ opts : List RetryOption, (∃ a w, WithExponentialBackoff a w ∈ opts) →
        (∀ o ∈ opts, ∃ a w, o = WithExponentialBackoff a w ∨ o = WithConstant a w) →
        (applyOptions opts).Backoff = true ∧
          ∀ (rt : Runtime) (i : Nat), waitDuration rt (applyOptions opts) i =
            backoffWait rt (applyOptions opts).WaitBase i (rt.Float64 i)) := by
  refine ⟨fun a w c => ⟨rfl, rfl, rfl⟩, fun a w a1 w1 => ⟨rfl, rfl⟩, ?_⟩
  intro opts h hall
  have hb : (applyOptions opts).Backoff = true := foldl_options_exponential opts _ h hall
  refine ⟨hb, ?_⟩
  intro rt i
  unfold waitDuration
  rw [if_pos hb]

/-! ## A message without a body -/

/-- C24: on the empty message of the test, with the handler of the test that
returns an error, `handleMessage` does not complete: it panics on the read
of the absent body.  It issues no delete request. -/
theorem handleMessage_empty_message_panics :
    (rejectingListener.Handle emptyMessage 0).1 = some handlerErr ∧
      (handleMessage rejectingListener emptyMessage 0).panicked = true ∧
      deleteRequests (handleMessage rejectingListener emptyMessage 0).trace = [] := by
  decide

/-! ## `setupNewQueue` -/

/-- With tags that pass, `createQueue` sends one request and returns what the
service returns. -/
theorem createQueue_of_valid_tags {σ : Type} (sqsClient : SQSClient σ) (queueName : String)
    (config : QueueConfig) (w : σ) (htags : validateTags config.Tags = none) :
    createQueue sqsClient queueName config w =
      { value := some
          (match (sqsClient.CreateQueue (createQueueInput queueName config) w).1.2 with
           | some e => (none, some e)
           | none => ((sqsClient.CreateQueue (createQueueInput queueName config) w).1.1, none)),
        calls := [AwsCall.CreateQueue (createQueueInput queueName config)],
        state := (sqsClient.CreateQueue (createQueueInput queueName config) w).2 } := by
  have hq : createQueueTags config.Tags = some config.Tags := by
    unfold createQueueTags
    rw [htags]
  rcases hc : sqsClient.CreateQueue (createQueueInput queueName config) w with ⟨⟨result, err⟩, s⟩
  unfold createQueueInput at hc
  unfold createQueue
  cases err with
  | some e => simp [hq, hc, createQueueInput]
  | none => simp [hq, hc, createQueueInput]

/-- A look-up of the queue ARN that the service answers. -/
theorem getQueueArn_ok {σ : Type} (sqsClient : SQSClient σ) (queueURL : String) (w s : σ)
    (attrs : GetQueueAttributesOutput)
    (h : sqsClient.GetQueueAttributes
      { AttributeNames := ["QueueArn"], QueueUrl := some queueURL } w = ((some attrs, none), s)) :
    getQueueArn sqsClient queueURL w =
      { value := some (attrs.Attributes.get "QueueArn", none),
        calls := [AwsCall.GetQueueAttributes
          { AttributeNames := ["QueueArn"], QueueUrl := some queueURL }],
        state := s } := by
  unfold getQueueArn
  simp [h]

/-- A look-up of the queue ARN that fails returns the empty text and the
error of the service. -/
theorem getQueueArn_err {σ : Type} (sqsClient : SQSClient σ) (queueURL : String) (w s : σ)
    (result : Option GetQueueAttributesOutput) (e : GoError)
    (h : sqsClient.GetQueueAttributes
      { AttributeNames := ["QueueArn"], QueueUrl := some queueURL } w =
        ((result, some e), s)) :
    getQueueArn sqsClient queueURL w =
      { value := some ("", some e),
        calls := [AwsCall.GetQueueAttributes
          { AttributeNames := ["QueueArn"], QueueUrl := some queueURL }],
        state := s } := by
  unfold getQueueArn
  simp [h]

/-- The calls of `setupNewQueue` once the first creation returns no error:
the main queue, then the queue named with the suffix. -/
theorem setupNewQueue_second_call {σ : Type} (marshal : StringMap → String × Option GoError)
    (sqsClient : SQSClient σ) (queueName : String) (config : QueueConfig) (w : σ)
    (htags : validateTags config.Tags = none)
    (hfirst : (sqsClient.CreateQueue (createQueueInput queueName config) w).1.2 = none) :
    ∃ rest, (setupNewQueue marshal sqsClient queueName config w).calls =
      AwsCall.CreateQueue (createQueueInput queueName config) ::
        AwsCall.CreateQueue (createQueueInput (queueName ++ ErrorQueueSuffix) config) ::
        rest := by
  unfold setupNewQueue
  simp only [createQueue_of_valid_tags _ _ _ _ htags, hfirst]
  repeat' split
  all_goals exact ⟨_, rfl⟩

/-- Linking a queue to its dead-letter queue when every step succeeds: one
look-up of the ARN of the dead-letter queue, then one write of the
`RedrivePolicy` on the queue. -/
theorem setUpDeadLetterQueue_ok {σ : Type} (marshal : StringMap → String × Option GoError)
    (sqsClient : SQSClient σ) (queueURL dlqURL : String) (maxReceiveCount : Int) (w s3 s4 : σ)
    (attrs : GetQueueAttributesOutput) (b : String)
    (h3 : sqsClient.GetQueueAttributes
      { AttributeNames := ["QueueArn"], QueueUrl := some dlqURL } w = ((some attrs, none), s3))
    (hm : marshal [("deadLetterTargetArn", attrs.Attributes.get "QueueArn"),
      ("maxReceiveCount", Itoa maxReceiveCount)] = (b, none))
    (h4 : sqsClient.SetQueueAttributes
      { QueueUrl := some queueURL, Attributes := [("RedrivePolicy", b)] } s3 = (none, s4)) :
    setUpDeadLetterQueue marshal sqsClient queueURL dlqURL maxReceiveCount w =
      { value := some none,
        calls :=
          [AwsCall.GetQueueAttributes
            { AttributeNames := ["QueueArn"], QueueUrl := some dlqURL },
           AwsCall.SetQueueAttributes
            { QueueUrl := some queueURL, Attributes := [("RedrivePolicy", b)] }],
        state := s4 } := by
  unfold setUpDeadLetterQueue
  simp [getQueueArn_ok sqsClient dlqURL w s3 attrs h3, hm, h4]

/-- C21: when the tags pass and every service call succeeds (no error, and
the created queues come with their URLs), `setupNewQueue` makes four
requests in this order: it creates the main queue; it creates a queue named
`queueName + "_ERROR"` with the same attributes and tags; it reads the ARN
of that dead-letter queue; and it sets on the main queue the `RedrivePolicy`
that is the JSON text of the map with `deadLetterTargetArn` the ARN read and
`maxReceiveCount` the decimal text of `MaxReceiveCount`.  It returns the
output of the creation of the main queue and a nil error. -/
theorem setupNewQueue_creates_queue_and_dlq {σ : Type}
    (marshal : StringMap → String × Option GoError) (sqsClient : SQSClient σ)
    (queueName : String) (config : QueueConfig) (w s1 s2 s3 s4 : σ)
    (result dlqResult : CreateQueueOutput) (queueURL dlqURL : String)
    (attrs : GetQueueAttributesOutput) (b : String)
    (htags : validateTags config.Tags = none)
    (h1 : sqsClient.CreateQueue (createQueueInput queueName config) w =
      ((some result, none), s1))
    (hurl : result.QueueUrl = some queueURL)
    (h2 : sqsClient.CreateQueue (createQueueInput (queueName ++ "_ERROR") config) s1 =
      ((some dlqResult, none), s2))
    (hdlq : dlqResult.QueueUrl = some dlqURL)
    (h3 : sqsClient.GetQueueAttributes
      { AttributeNames := ["QueueArn"], QueueUrl := some dlqURL } s2 = ((some attrs, none), s3))
    (hm : marshal [("deadLetterTargetArn", attrs.Attributes.get "QueueArn"),
      ("maxReceiveCount", Itoa config.MaxReceiveCount)] = (b, none))
    (h4 : sqsClient.SetQueueAttributes
      { QueueUrl := some queueURL, Attributes := [("RedrivePolicy", b)] } s3 = (none, s4)) :
    (setupNewQueue marshal sqsClient queueName config w).value = some (some result, none) ∧
      (setupNewQueue marshal sqsClient queueName config w).calls =
        [AwsCall.CreateQueue (createQueueInput queueName config),
         AwsCall.CreateQueue
          { Attributes := (createQueueInput queueName config).Attributes,
            QueueName := some (queueName ++ "_ERROR"),
            Tags := (createQueueInput queueName config).Tags },
         AwsCall.GetQueueAttributes
          { AttributeNames := ["QueueArn"], QueueUrl := some dlqURL },
         AwsCall.SetQueueAttributes
          { QueueUrl := some queueURL, Attributes := [("RedrivePolicy", b)] }] ∧
      (setupNewQueue marshal sqsClient queueName config w).state = s4 := by
  have hr1 := createQueue_of_valid_tags sqsClient queueName config w htags
  have hr2 := createQueue_of_valid_tags sqsClient (queueName ++ "_ERROR") config s1 htags
  rw [h1] at hr1
  rw [h2] at hr2
  have hr3 := setUpDeadLetterQueue_ok marshal sqsClient queueURL dlqURL config.MaxReceiveCount
    s2 s3 s4 attrs b h3 hm h4
  have hrun : setupNewQueue marshal sqsClient queueName config w =
      { value := some (some result, none),
        calls :=
          [AwsCall.CreateQueue (createQueueInput queueName config),
           AwsCall.CreateQueue (createQueueInput (queueName ++ "_ERROR") config),
           AwsCall.GetQueueAttributes
            { AttributeNames := ["QueueArn"], QueueUrl := some dlqURL },
           AwsCall.SetQueueAttributes
            { QueueUrl := some queueURL, Attributes := [("RedrivePolicy", b)] }],
        state := s4 } := by
    unfold setupNewQueue
    simp [hr1, hr2, hr3, hurl, hdlq, ErrorQueueSuffix]
  rw [hrun]
  exact ⟨rfl, rfl, rfl⟩

/-- C21 at the queue `"test-queue"` with the tags of the test, over the
service of the examples. -/
theorem setupNewQueue_creates_queue_and_dlq_witness :
    validateTags (testQueueConfig testTags).Tags = none ∧
      (setupNewQueue testMarshal testSQSClient "test-queue" (testQueueConfig testTags) 0).value =
        some (some { QueueUrl := some "https://sqs.test/test-queue" }, none) ∧
      (setupNewQueue testMarshal testSQSClient "test-queue" (testQueueConfig testTags) 0).calls =
        [AwsCall.CreateQueue (createQueueInput "test-queue" (testQueueConfig testTags)),
         AwsCall.CreateQueue
          { Attributes := (createQueueInput "test-queue" (testQueueConfig testTags)).Attributes,
            QueueName := some ("test-queue" ++ "_ERROR"),
            Tags := (createQueueInput "test-queue" (testQueueConfig testTags)).Tags },
         AwsCall.GetQueueAttributes
          { AttributeNames := ["QueueArn"],
            QueueUrl := some "https://sqs.test/test-queue_ERROR" },
         AwsCall.SetQueueAttributes
          { QueueUrl := some "https://sqs.test/test-queue",
            Attributes := [("RedrivePolicy",
              "deadLetterTargetArn=arn:https://sqs.test/test-queue_ERROR,maxReceiveCount=10")] }] ∧
      (setupNewQueue testMarshal testSQSClient "test-queue" (testQueueConfig testTags) 0).state =
        4 :=
  ⟨by decide,
    setupNewQueue_creates_queue_and_dlq testMarshal testSQSClient "test-queue"
      (testQueueConfig testTags) 0 1 2 3 4 { QueueUrl := some "https://sqs.test/test-queue" }
      { QueueUrl := some "https://sqs.test/test-queue_ERROR" }
      "https://sqs.test/test-queue" "https://sqs.test/test-queue_ERROR"
      { Attributes := [("QueueArn", "arn:https://sqs.test/test-queue_ERROR")] }
      "deadLetterTargetArn=arn:https://sqs.test/test-queue_ERROR,maxReceiveCount=10"
      (by decide) (by decide) rfl (by decide) rfl (by decide) (by decide) (by decide)⟩

/-! ## The name of the dead-letter queue -/

/-- The names that `validateQueueName` accepts: 1 to 80 characters of the
class. -/
theorem validateQueueName_eq_none_iff (queueName : String) :
    validateQueueName queueName = none ↔
      1 ≤ queueName.length ∧ queueName.length ≤ 80 ∧
        ∀ c ∈ queueName.toList, queueNameChar c = true := by
  constructor
  · intro hnone
    unfold validateQueueName at hnone
    by_cases hlong : queueName.utf8ByteSize > 80
    · rw [if_pos hlong] at hnone
      cases hnone
    · rw [if_neg hlong] at hnone
      by_cases hempty : queueName = ""
      · rw [if_pos hempty] at hnone
        cases hnone
      · rw [if_neg hempty] at hnone
        have hall : queueName.toList.all queueNameChar = true := by
          by_contra hf
          have hm : matchQueueNamePattern queueName = (false, none) := by
            unfold matchQueueNamePattern
            rw [Bool.not_eq_true] at hf
            rw [hf, Bool.and_false]
          rw [hm] at hnone
          simp at hnone
        have hchars : ∀ c ∈ queueName.toList, queueNameChar c = true := List.all_eq_true.mp hall
        have hlen := utf8ByteSize_of_queueNameChars queueName hchars
        have hpos : queueName.toList ≠ [] :=
          fun h => hempty ((string_eq_empty_iff queueName).mpr h)
        have hpos1 : 1 ≤ queueName.length := by
          show 1 ≤ queueName.toList.length
          exact List.length_pos.mpr hpos
        exact ⟨hpos1, by omega, hchars⟩
  · intro ⟨h1, h2, h3⟩
    have hlen := utf8ByteSize_of_queueNameChars queueName h3
    have hne : queueName ≠ "" := by
      intro he
      subst he
      simp at h1
    have hall : queueName.toList.all queueNameChar = true := List.all_eq_true.mpr h3
    have hnotempty : queueName.toList.isEmpty = false := by
      cases hl : queueName.toList with
      | nil => exact absurd ((string_eq_empty_iff queueName).mpr hl) hne
      | cons c cs => rfl
    have hm : matchQueueNamePattern queueName = (true, none) := by
      unfold matchQueueNamePattern
      rw [hall, hnotempty]
      rfl
    unfold validateQueueName
    rw [if_neg (by omega), if_neg hne, hm]
    rfl

/-- The characters of a name with the suffix of the dead-letter queue. -/
theorem toList_append_ErrorQueueSuffix (queueName : String) :
    (queueName ++ ErrorQueueSuffix).toList = queueName.toList ++ ['_', 'E', 'R', 'R', 'O', 'R'] := by
  show (queueName ++ ErrorQueueSuffix).data = queueName.data ++ _
  rw [String.data_append]
  rfl

/-- The calls of `Manager.CreateQueue` are those of `setupNewQueue` once the
name and the wait time pass. -/
theorem Manager_CreateQueue_calls {σ : Type} (marshal : StringMap → String × Option GoError)
    (m : Manager σ) (queueName : String) (config : QueueConfig) (w : σ)
    (hname : validateQueueName queueName = none)
    (hwait : validateReceiveTimeWaitSeconds config.ReceiveWaitTimeSeconds = none) :
    (Manager.CreateQueue marshal m queueName config w).calls =
      (setupNewQueue marshal m.sqsClient queueName config w).calls := by
  unfold Manager.CreateQueue
  simp only [hname, hwait]
  repeat' split
  all_goals rfl

/-- C30: for a name that `validateQueueName` accepts, the name with the
suffix `"_ERROR"` is accepted exactly when the name has at most 74
characters; for a name of 75 characters or more (so 75 to 80) the name with
the suffix has more than 80 characters and `validateQueueName` would answer
"queue name is too long"; and once the wait time and the tags pass and the
creation of the main queue returns no error, the second request of
`Manager.CreateQueue` is the creation of the queue with the suffixed name,
whatever its length. -/
theorem dlq_name_accepted_iff (queueName : String)
    (hname : validateQueueName queueName = none) :
    (validateQueueName (queueName ++ ErrorQueueSuffix) = none ↔ queueName.length ≤ 74) ∧
      (75 ≤ queueName.length →
        queueName.length ≤ 80 ∧ 80 < (queueName ++ ErrorQueueSuffix).length ∧
          validateQueueName (queueName ++ ErrorQueueSuffix) =
            some { text := "queue name is too long", throttled := false }) ∧
      (∀ (σ : Type) (marshal : StringMap → String × Option GoError) (m : Manager σ)
          (config : QueueConfig) (w : σ),
        validateReceiveTimeWaitSeconds config.ReceiveWaitTimeSeconds = none →
        validateTags config.Tags = none →
        (m.sqsClient.CreateQueue (createQueueInput queueName config) w).1.2 = none →
        ∃ rest, (Manager.CreateQueue marshal m queueName config w).calls =
          AwsCall.CreateQueue (createQueueInput queueName config) ::
            AwsCall.CreateQueue (createQueueInput (queueName ++ "_ERROR") config) :: rest) := by
  obtain ⟨h1, h2, h3⟩ := (validateQueueName_eq_none_iff queueName).mp hname
  have hlist := toList_append_ErrorQueueSuffix queueName
  have hlen : (queueName ++ ErrorQueueSuffix).length = queueName.length + 6 := by
    show (queueName ++ ErrorQueueSuffix).toList.length = queueName.toList.length + 6
    rw [hlist, List.length_append]
    rfl
  have hchars : ∀ c ∈ (queueName ++ ErrorQueueSuffix).toList, queueNameChar c = true := by
    intro c hc
    rw [hlist] at hc
    rcases List.mem_append.mp hc with hc | hc
    · exact h3 c hc
    · have hsuffix : ∀ c1 ∈ ['_', 'E', 'R', 'R', 'O', 'R'], queueNameChar c1 = true := by
        decide
      exact hsuffix c hc
  have hiff : validateQueueName (queueName ++ ErrorQueueSuffix) = none ↔
      queueName.length ≤ 74 := by
    rw [validateQueueName_eq_none_iff, hlen]
    constructor
    · intro h; omega
    · intro h; exact ⟨by omega, by omega, hchars⟩
  refine ⟨hiff, ?_, ?_⟩
  · intro h75
    refine ⟨h2, by omega, ?_⟩
    have hsize := utf8ByteSize_of_queueNameChars _ hchars
    unfold validateQueueName
    rw [if_pos (by omega)]
    rfl
  · intro σ marshal m config w hwait htags hfirst
    rw [Manager_CreateQueue_calls marshal m queueName config w hname hwait]
    exact setupNewQueue_second_call marshal m.sqsClient queueName config w htags hfirst

set_option maxRecDepth 100000 in
/-- C30 at a name of 75 characters. -/
theorem dlq_name_accepted_iff_witness :
    validateQueueName (String.join (List.replicate 75 "q")) = none ∧
      ¬ (String.join (List.replicate 75 "q")).length ≤ 74 ∧
      validateQueueName (String.join (List.replicate 75 "q") ++ ErrorQueueSuffix) =
        some { text := "queue name is too long", throttled := false } :=
  ⟨by decide, by decide,
    ((dlq_name_accepted_iff (String.join (List.replicate 75 "q")) (by decide)).2.1
      (by decide)).2.2⟩

/-! ## `createTopicTags` -/

/-- The loop of `validateTags` passes exactly when every key is present. -/
theorem validateTagsLoop_eq_none_iff (tags : StringMap) (ks : List String) :
    validateTagsLoop tags ks = none ↔ ∀ k ∈ ks, tags.has k = true := by
  induction ks with
  | nil => simp [validateTagsLoop]
  | cons v rest ih =>
    unfold validateTagsLoop
    by_cases hv : tags.has v = true
    · simp [hv, ih]
    · simp [hv]

/-- The maps that `validateTags` accepts: not empty, and with every required
key. -/
theorem validateTags_eq_none_iff (tags : StringMap) :
    validateTags tags = none ↔ tags ≠ [] ∧ ∀ k ∈ arrayOfRequiredTags, tags.has k = true := by
  unfold validateTags
  by_cases h : tags.length = 0
  · rw [if_pos h]
    have hnil : tags = [] := List.length_eq_zero.mp h
    simp [hnil]
  · rw [if_neg h, validateTagsLoop_eq_none_iff]
    have hne : tags ≠ [] := fun hnil => h (by rw [hnil]; rfl)
    simp [hne]

/-- The stable sort keeps the elements. -/
theorem sortSliceStable_perm {α : Type} (less : α → α → Bool) (x : List α) :
    List.Perm (sortSliceStable less x) x :=
  List.perm_insertionSort _ x

/-- The stable sort by the keys of tags leaves no later tag with a smaller
key. -/
theorem sortSliceStable_tagKey_sorted (x : List Tag) :
    List.Pairwise (fun a b => (tagKey a).toList ≤ (tagKey b).toList)
      (sortSliceStable (fun a b => decide ((tagKey a).toList < (tagKey b).toList)) x) := by
  haveI : IsTotal Tag (fun a b => decide ((tagKey b).toList < (tagKey a).toList) = false) :=
    ⟨fun a b => by
      simp only [decide_eq_false_iff_not, not_lt]
      exact le_total _ _⟩
  haveI : IsTrans Tag (fun a b => decide ((tagKey b).toList < (tagKey a).toList) = false) :=
    ⟨fun a b c hab hbc => by
      simp only [decide_eq_false_iff_not, not_lt] at *
      exact le_trans hab hbc⟩
  have h := List.sorted_insertionSort (fun a b : Tag => decide ((tagKey b).toList < (tagKey a).toList) = false) x
  refine List.Pairwise.imp ?_ h
  intro a b hab
  simpa using hab

/-- C27: `createTopicTags` returns nil exactly when the map is empty or lacks
one of the required keys `env`, `serviceName`, `serviceGroup`,
`businessUnit`, `ownerEmail`; otherwise it returns a list that holds one tag
per entry of the map, with the key and the value of the entry, in strictly
ascending order of key.  The keys of a map are distinct. -/
theorem createTopicTags_sorted (tags : StringMap) (hkeys : (tags.map Prod.fst).Nodup) :
    arrayOfRequiredTags = ["env", "serviceName", "serviceGroup", "businessUnit", "ownerEmail"] ∧
      (createTopicTags tags = none ↔
        tags = [] ∨ ∃ k ∈ arrayOfRequiredTags, tags.has k = false) ∧
      (createTopicTags tags ≠ none →
        ∃ out, createTopicTags tags = some out ∧
          List.Perm out (tags.map fun kv => { Key := some kv.1, Value := some kv.2 }) ∧
          List.Pairwise (fun a b => (tagKey a).toList < (tagKey b).toList) out) := by
  have hnone : createTopicTags tags = none ↔ validateTags tags ≠ none := by
    unfold createTopicTags
    cases hv : validateTags tags with
    | none => simp
    | some e => simp
  refine ⟨rfl, ?_, ?_⟩
  · rw [hnone, Ne, validateTags_eq_none_iff]
    constructor
    · intro h
      by_cases hnil : tags = []
      · exact Or.inl hnil
      · right
        by_contra hall
        apply h
        refine ⟨hnil, fun k hk => ?_⟩
        by_contra hk1
        exact hall ⟨k, hk, by simpa using hk1⟩
    · rintro (hnil | ⟨k, hk, hkf⟩) ⟨hne, hall⟩
      · exact hne hnil
      · rw [hall k hk] at hkf
        cases hkf
  · intro hsome
    have hv : validateTags tags = none := by
      by_contra hv
      exact hsome (hnone.mpr hv)
    have hrun : createTopicTags tags =
        some (sortSliceStable (fun a b => decide ((tagKey a).toList < (tagKey b).toList))
          (tags.map fun kv => { Key := some kv.1, Value := some kv.2 })) := by
      unfold createTopicTags
      rw [hv]
    refine ⟨_, hrun, sortSliceStable_perm _ _, ?_⟩
    have hperm := sortSliceStable_perm (fun a b => decide ((tagKey a).toList < (tagKey b).toList))
      (tags.map fun kv => ({ Key := some kv.1, Value := some kv.2 } : Tag))
    have hmap : (tags.map fun kv => ({ Key := some kv.1, Value := some kv.2 } : Tag)).map tagKey =
        tags.map Prod.fst := by
      rw [List.map_map]
      rfl
    have hnodup : ((sortSliceStable (fun a b => decide ((tagKey a).toList < (tagKey b).toList))
        (tags.map fun kv => ({ Key := some kv.1, Value := some kv.2 } : Tag))).map
          tagKey).Nodup := by
      rw [(hperm.map tagKey).nodup_iff, hmap]
      exact hkeys
    have hne := List.pairwise_map.mp hnodup
    have hle := sortSliceStable_tagKey_sorted
      (tags.map fun kv => ({ Key := some kv.1, Value := some kv.2 } : Tag))
    refine (hle.and hne).imp ?_
    intro a b h
    refine lt_of_le_of_ne h.1 ?_
    intro heq
    apply h.2
    show tagKey a = tagKey b
    cases ha : tagKey a
    cases hb : tagKey b
    rw [ha, hb] at heq
    simp only [String.toList] at heq
    rw [heq]

/-- C27 at the map of `Test_createTopicTags`. -/
theorem createTopicTags_sorted_witness :
    (testTags.map Prod.fst).Nodup ∧
      createTopicTags testTags = some
        [{ Key := some "businessUnit", Value := some "test-business-unit" },
         { Key := some "env", Value := some "test" },
         { Key := some "ownerEmail", Value := some "owner-email" },
         { Key := some "serviceGroup", Value := some "test-service-group" },
         { Key := some "serviceName", Value := some "test-service" }] ∧
      (createTopicTags testTags = none ↔
        testTags = [] ∨ ∃ k ∈ arrayOfRequiredTags, testTags.has k = false) :=
  ⟨by decide, by decide, (createTopicTags_sorted testTags (by decide)).2.1⟩

/-! ## The cache of `TopicsPublisher` -/

/-- After `m[k] = v` the key `k` is present. -/
theorem StringMap.has_set_self (m : StringMap) (k v : String) :
    (StringMap.set m k v).has k = true := by
  simp [StringMap.set, StringMap.has]

/-- After `m[k] = v` the read of `k` gives `v`. -/
theorem StringMap.get_set_self (m : StringMap) (k v : String) :
    (StringMap.set m k v).get k = v := by
  simp [StringMap.set, StringMap.get]

/-- Dropping the entries of one key leaves the presence of every other key
as it was. -/
theorem any_filter_of_ne (m : StringMap) (k k1 : String) (h : k1 ≠ k) :
    (m.filter fun kv => kv.1 != k).any (fun kv => kv.1 == k1) =
      m.any (fun kv => kv.1 == k1) := by
  induction m with
  | nil => rfl
  | cons kv rest ih =>
    rw [List.filter_cons]
    by_cases hkv : kv.1 = k
    · have h1 : (kv.1 != k) = false := by simp [hkv]
      have h2 : (kv.1 == k1) = false := by
        rw [beq_eq_false_iff_ne, hkv]
        exact fun he => h he.symm
      rw [h1]
      simp only [Bool.false_eq_true, if_false]
      rw [ih, List.any_cons, h2, Bool.false_or]
    · have h1 : (kv.1 != k) = true := by simp [hkv]
      rw [h1]
      simp only [if_true]
      rw [List.any_cons, List.any_cons, ih]

/-- Dropping the entries of one key leaves the entry found for every other
key as it was. -/
theorem find_filter_of_ne (m : StringMap) (k k1 : String) (h : k1 ≠ k) :
    (m.filter fun kv => kv.1 != k).find? (fun kv => kv.1 == k1) =
      m.find? (fun kv => kv.1 == k1) := by
  induction m with
  | nil => rfl
  | cons kv rest ih =>
    rw [List.filter_cons]
    by_cases hkv : kv.1 = k
    · have h1 : (kv.1 != k) = false := by simp [hkv]
      have h2 : (kv.1 == k1) = false := by
        rw [beq_eq_false_iff_ne, hkv]
        exact fun he => h he.symm
      rw [h1]
      simp only [Bool.false_eq_true, if_false]
      rw [ih, List.find?_cons, h2]
    · have h1 : (kv.1 != k) = true := by simp [hkv]
      rw [h1]
      simp only [if_true]
      rw [List.find?_cons, List.find?_cons, ih]

/-- The assignment `m[k] = v` leaves the presence of every other key as it
was. -/
theorem StringMap.has_set_of_ne (m : StringMap) (k v k1 : String) (h : k1 ≠ k) :
    (StringMap.set m k v).has k1 = m.has k1 := by
  have hk : (k == k1) = false := by
    rw [beq_eq_false_iff_ne]
    exact fun he => h he.symm
  unfold StringMap.set StringMap.has
  rw [List.any_cons]
  simp only [hk, Bool.false_or]
  exact any_filter_of_ne m k k1 h

/-- The assignment `m[k] = v` leaves the value of every other key as it
was. -/
theorem StringMap.get_set_of_ne (m : StringMap) (k v k1 : String) (h : k1 ≠ k) :
    (StringMap.set m k v).get k1 = m.get k1 := by
  have hk : (k == k1) = false := by
    rw [beq_eq_false_iff_ne]
    exact fun he => h he.symm
  unfold StringMap.set StringMap.get
  rw [List.find?_cons]
  simp only [hk]
  rw [find_filter_of_ne m k k1 h]

/-- A look-up of a topic ARN that the service answers. -/
theorem getTopicArn_ok {σ : Type} (snsClient : SNSClient σ) (topicName arn : String) (w s : σ)
    (h : snsClient.CreateTopic { Name := some topicName, Tags := [] } w =
      ((some { TopicArn := some arn }, none), s)) :
    getTopicArn snsClient topicName w =
      { value := some (arn, none),
        calls := [AwsCall.CreateTopic { Name := some topicName, Tags := [] }],
        state := s } := by
  unfold getTopicArn
  simp [h]

/-- A look-up of a topic ARN that fails returns the empty text and the error
of the service. -/
theorem getTopicArn_err {σ : Type} (snsClient : SNSClient σ) (topicName : String) (w s : σ)
    (result : Option CreateTopicOutput) (e : GoError)
    (h : snsClient.CreateTopic { Name := some topicName, Tags := [] } w =
      ((result, some e), s)) :
    getTopicArn snsClient topicName w =
      { value := some ("", some e),
        calls := [AwsCall.CreateTopic { Name := some topicName, Tags := [] }],
        state := s } := by
  unfold getTopicArn
  simp [h]

/-- C23: `TopicsPublisher.getTopicArn` on a name that is in the cache returns
the cached ARN and makes no request; on a name that is not, it makes the one
look-up request, and when the look-up succeeds it returns the ARN, stores it
under the name and leaves the presence and the value of every other key as
they were, while when the look-up fails it returns `""` with the error of
the service and leaves the cache as it was; and a `Publish` whose look-up
succeeds and whose publish request fails returns that error with the ARN
stored in the cache. -/
theorem publisher_getTopicArn_cache {σ : Type} (p : TopicsPublisher σ) (topicName : String)
    (w : σ) :
    (p.topicsCache.has topicName = true →
        (p.getTopicArn topicName w).1.value = some (p.topicsCache.get topicName, none) ∧
          (p.getTopicArn topicName w).1.calls = [] ∧
          (p.getTopicArn topicName w).1.state = w ∧
          (p.getTopicArn topicName w).2.topicsCache = p.topicsCache) ∧
      (p.topicsCache.has topicName = false →
        (∀ (arn : String) (s : σ),
          p.snsClient.CreateTopic { Name := some topicName, Tags := [] } w =
            ((some { TopicArn := some arn }, none), s) →
          (p.getTopicArn topicName w).1.value = some (arn, none) ∧
            (p.getTopicArn topicName w).1.calls =
              [AwsCall.CreateTopic { Name := some topicName, Tags := [] }] ∧
            (p.getTopicArn topicName w).2.topicsCache.has topicName = true ∧
            (p.getTopicArn topicName w).2.topicsCache.get topicName = arn ∧
            ∀ k, k ≠ topicName →
              (p.getTopicArn topicName w).2.topicsCache.has k = p.topicsCache.has k ∧
                (p.getTopicArn topicName w).2.topicsCache.get k = p.topicsCache.get k) ∧
        (∀ (result : Option CreateTopicOutput) (e : GoError) (s : σ),
          p.snsClient.CreateTopic { Name := some topicName, Tags := [] } w =
            ((result, some e), s) →
          (p.getTopicArn topicName w).1.value = some ("", some e) ∧
            (p.getTopicArn topicName w).1.calls =
              [AwsCall.CreateTopic { Name := some topicName, Tags := [] }] ∧
            (p.getTopicArn topicName w).2.topicsCache = p.topicsCache) ∧
        (∀ (message arn : String) (e : GoError) (s s2 : σ),
          p.snsClient.CreateTopic { Name := some topicName, Tags := [] } w =
            ((some { TopicArn := some arn }, none), s) →
          p.snsClient.Publish
            { Message := some message, TopicArn := some arn, Subject := none,
              MessageAttributes := [] } s = (some e, s2) →
          (p.Publish topicName message w).1.value = some (some e) ∧
            (p.Publish topicName message w).2.topicsCache.has topicName = true ∧
            (p.Publish topicName message w).2.topicsCache.get topicName = arn)) := by
  refine ⟨?_, ?_⟩
  · intro hhas
    have hrun : p.getTopicArn topicName w =
        ({ value := some (p.topicsCache.get topicName, none), calls := [], state := w }, p) := by
      unfold TopicsPublisher.getTopicArn
      rw [if_pos hhas]
    rw [hrun]
    exact ⟨rfl, rfl, rfl, rfl⟩
  · intro hhas
    have hok : ∀ (arn : String) (s : σ),
        p.snsClient.CreateTopic { Name := some topicName, Tags := [] } w =
          ((some { TopicArn := some arn }, none), s) →
        p.getTopicArn topicName w =
          ({ value := some (arn, none),
             calls := [AwsCall.CreateTopic { Name := some topicName, Tags := [] }],
             state := s },
            { p with topicsCache := p.topicsCache.set topicName arn }) := by
      intro arn s h
      unfold TopicsPublisher.getTopicArn
      simp [hhas, getTopicArn_ok p.snsClient topicName arn w s h]
    refine ⟨?_, ?_, ?_⟩
    · intro arn s h
      rw [hok arn s h]
      refine ⟨rfl, rfl, StringMap.has_set_self _ _ _, StringMap.get_set_self _ _ _, ?_⟩
      intro k hk
      exact ⟨StringMap.has_set_of_ne _ _ _ _ hk, StringMap.get_set_of_ne _ _ _ _ hk⟩
    · intro result e s h
      have hrun : p.getTopicArn topicName w =
          ({ value := some ("", some e),
             calls := [AwsCall.CreateTopic { Name := some topicName, Tags := [] }],
             state := s }, p) := by
        unfold TopicsPublisher.getTopicArn
        simp [hhas, getTopicArn_err p.snsClient topicName w s result e h]
      rw [hrun]
      exact ⟨rfl, rfl, rfl⟩
    · intro message arn e s s2 h hpub
      have hrun : p.Publish topicName message w =
          ({ value := some (some e),
             calls := [AwsCall.CreateTopic { Name := some topicName, Tags := [] },
               AwsCall.Publish
                { Message := some message, TopicArn := some arn, Subject := none,
                  MessageAttributes := [] }],
             state := s2 },
            { p with topicsCache := p.topicsCache.set topicName arn }) := by
        unfold TopicsPublisher.Publish
        simp [hok arn s h, hpub]
      rw [hrun]
      exact ⟨rfl, StringMap.has_set_self _ _ _, StringMap.get_set_self _ _ _⟩

/-- C23 at the publishers of the tests: the cached topic `"test-topic-1"`, and
the topic `"test-topic-4"` whose publish fails after the look-up. -/
theorem publisher_getTopicArn_cache_witness :
    testPublisher.topicsCache.has "test-topic-1" = true ∧
      (testPublisher.getTopicArn "test-topic-1" 0).1.value = some ("test-arn", none) ∧
      (testPublisher.getTopicArn "test-topic-1" 0).1.calls = [] ∧
      failingPublisher.topicsCache.has "test-topic-4" = false ∧
      (failingPublisher.Publish "test-topic-4" "test message" 0).1.value =
        some (some (errorsNew "publishing error")) ∧
      (failingPublisher.Publish "test-topic-4" "test message" 0).2.topicsCache.get
        "test-topic-4" = "arn:aws:sns:test-topic-4" :=
  ⟨by decide,
    ((publisher_getTopicArn_cache testPublisher "test-topic-1" 0).1 (by decide)).1,
    ((publisher_getTopicArn_cache testPublisher "test-topic-1" 0).1 (by decide)).2.1,
    by decide,
    (((publisher_getTopicArn_cache failingPublisher "test-topic-4" 0).2 (by decide)).2.2
      "test message" "arn:aws:sns:test-topic-4" (errorsNew "publishing error") 1 2
      (by decide) (by decide)).1,
    (((publisher_getTopicArn_cache failingPublisher "test-topic-4" 0).2 (by decide)).2.2
      "test message" "arn:aws:sns:test-topic-4" (errorsNew "publishing error") 1 2
      (by decide) (by decide)).2.2⟩

/-! ## The queue policy of a subscription -/

/-- The policy text that `getPolicyContent` returns once the policy has been
read and parsed and the new policy is marshalled without error: the text of
the policy read, with one statement appended.  The result of the look-up of
the queue ARN at the start may be an error. -/
theorem getPolicyContent_ok {σ : Type}
    (unmarshal : String → Option PolicyStruct × Option GoError)
    (marshal : PolicyStruct → String × Option GoError)
    (sqsClient : SQSClient σ) (queueURL topicARN : String) (w s : σ)
    (queueArn : String) (e0 : Option GoError) (attrs : GetQueueAttributesOutput)
    (policy : PolicyStruct)
    (harn : (getQueueArn sqsClient queueURL w).value = some (queueArn, e0))
    (hread : sqsClient.GetQueueAttributes
      { AttributeNames := ["Policy"], QueueUrl := some queueURL }
      (getQueueArn sqsClient queueURL w).state = ((some attrs, none), s))
    (hparse : unmarshal
      (StringMap.get (if !attrs.Attributes.has "Policy" then [("Policy", defaultPolicyText)]
        else attrs.Attributes) "Policy") = (some policy, none))
    (hmarshal : (marshal { policy with
      Statement := policy.Statement ++ [topicStatement queueArn topicARN] }).2 = none) :
    getPolicyContent unmarshal marshal sqsClient queueURL topicARN w =
      { value := some ((marshal { policy with
          Statement := policy.Statement ++ [topicStatement queueArn topicARN] }).1, none),
        calls := (getQueueArn sqsClient queueURL w).calls ++
          [AwsCall.GetQueueAttributes
            { AttributeNames := ["Policy"], QueueUrl := some queueURL }],
        state := s } := by
  rcases hm : marshal { policy with
      Statement := policy.Statement ++ [topicStatement queueArn topicARN] } with ⟨text, err⟩
  rw [hm] at hmarshal
  simp only at hmarshal
  subst hmarshal
  unfold getPolicyContent
  simp only [harn, hread, hparse, hm]

/-- C26: for a queue whose `Policy` attribute parses to a policy with
statement list `S`, and a topic ARN `t`, `getPolicyContent` returns the JSON
text of a policy with the same `Version` and `Id` whose statements are `S`,
in the same order, followed by one new statement; the `aws:SourceArn` of
that statement is `t`.  The JSON library is taken not to fail on a policy. -/
theorem getPolicyContent_appends_statement {σ : Type}
    (unmarshal : String → Option PolicyStruct × Option GoError)
    (marshal : PolicyStruct → String × Option GoError)
    (sqsClient : SQSClient σ) (queueURL topicARN : String) (w s : σ)
    (queueArn : String) (e0 : Option GoError) (attrs : GetQueueAttributesOutput)
    (policy : PolicyStruct)
    (harn : (getQueueArn sqsClient queueURL w).value = some (queueArn, e0))
    (hread : sqsClient.GetQueueAttributes
      { AttributeNames := ["Policy"], QueueUrl := some queueURL }
      (getQueueArn sqsClient queueURL w).state = ((some attrs, none), s))
    (hhas : attrs.Attributes.has "Policy" = true)
    (hparse : unmarshal (attrs.Attributes.get "Policy") = (some policy, none))
    (hmarshal : ∀ p, (marshal p).2 = none) :
    ∃ statement : StatementStruct,
      statement.Condition.ArnEquals.AwsSourceArn = topicARN ∧
        (getPolicyContent unmarshal marshal sqsClient queueURL topicARN w).value =
          some ((marshal
            { Version := policy.Version, ID := policy.ID,
              Statement := policy.Statement ++ [statement] }).1, none) := by
  refine ⟨topicStatement queueArn topicARN, rfl, ?_⟩
  have hparse1 : unmarshal
      (StringMap.get (if !attrs.Attributes.has "Policy" then [("Policy", defaultPolicyText)]
        else attrs.Attributes) "Policy") = (some policy, none) := by
    rw [hhas]
    exact hparse
  rw [getPolicyContent_ok unmarshal marshal sqsClient queueURL topicARN w s queueArn e0 attrs
    policy harn hread hparse1 (hmarshal _)]

set_option maxRecDepth 100000 in
/-- C26 at a queue that has the policy `existingPolicy`, and the topic
`"arn:second-topic"`. -/
theorem getPolicyContent_appends_statement_witness :
    ∃ statement : StatementStruct,
      statement.Condition.ArnEquals.AwsSourceArn = "arn:second-topic" ∧
        (getPolicyContent testUnmarshalPolicy testMarshalPolicy policySQSClient
          "https://sqs.test/test-queue" "arn:second-topic" 0).value =
          some ((testMarshalPolicy
            { Version := existingPolicy.Version, ID := existingPolicy.ID,
              Statement := existingPolicy.Statement ++ [statement] }).1, none) :=
  getPolicyContent_appends_statement testUnmarshalPolicy testMarshalPolicy policySQSClient
    "https://sqs.test/test-queue" "arn:second-topic" 0 2 "arn:https://sqs.test/test-queue" none
    { Attributes := [("Policy", (testMarshalPolicy existingPolicy).1)] } existingPolicy
    (by decide) (by decide) (by decide) (by decide) (fun _ => rfl)

/-! ### The errors that `SubscribeQueueToTopic` does return -/

/-- The read of the policy in `getPolicyContent` that fails: the error of the
service is returned with the empty text. -/
theorem getPolicyContent_read_err {σ : Type}
    (unmarshal : String → Option PolicyStruct × Option GoError)
    (marshal : PolicyStruct → String × Option GoError)
    (sqsClient : SQSClient σ) (queueURL topicARN : String) (w s : σ)
    (queueArn : String) (e0 : Option GoError) (result : Option GetQueueAttributesOutput)
    (e : GoError)
    (harn : (getQueueArn sqsClient queueURL w).value = some (queueArn, e0))
    (hread : sqsClient.GetQueueAttributes
      { AttributeNames := ["Policy"], QueueUrl := some queueURL }
      (getQueueArn sqsClient queueURL w).state = ((result, some e), s)) :
    getPolicyContent unmarshal marshal sqsClient queueURL topicARN w =
      { value := some ("", some e),
        calls := (getQueueArn sqsClient queueURL w).calls ++
          [AwsCall.GetQueueAttributes
            { AttributeNames := ["Policy"], QueueUrl := some queueURL }],
        state := s } := by
  unfold getPolicyContent
  simp only [harn, hread]

/-- The write of the policy returns the error of the service, if any. -/
theorem setTopicPolicy_value {σ : Type} (sqsClient : SQSClient σ) (queueURL policy : String)
    (w : σ) :
    (setTopicPolicy sqsClient queueURL policy w).value =
        some (sqsClient.SetQueueAttributes
          { QueueUrl := some queueURL, Attributes := [("Policy", policy)] } w).1 ∧
      (setTopicPolicy sqsClient queueURL policy w).calls =
        [AwsCall.SetQueueAttributes
          { QueueUrl := some queueURL, Attributes := [("Policy", policy)] }] := by
  unfold setTopicPolicy
  rcases h : sqsClient.SetQueueAttributes
    { QueueUrl := some queueURL, Attributes := [("Policy", policy)] } w with ⟨err, s⟩
  cases err with
  | some e => simp [h]
  | none => simp [h]

/-- The six steps of `SubscribeQueueToTopic` whose error is checked: when the
step fails after the earlier ones succeeded, the method returns the error of
the step and makes no request after those of the step. -/
theorem SubscribeQueueToTopic_checked_errors {σ : Type}
    (unmarshal : String → Option PolicyStruct × Option GoError)
    (marshal : PolicyStruct → String × Option GoError)
    (m : Manager σ) (queueName topicName : String) (raw : Bool) (w : σ)
    (r1 r2 r3 : Ran (String × Option GoError) σ)
    (r4 : Ran (Option SubscribeOutput × Option GoError) σ)
    (r5 : Ran (String × Option GoError) σ) (r6 : Ran (Option GoError) σ)
    (topicARN queueURL queueARN policy t1 t2 t3 t5 : String)
    (out out4 : Option SubscribeOutput) (e : GoError)
    (h1 : getTopicArn m.snsClient topicName w = r1)
    (h2 : GetQueueURL m.sqsClient queueName r1.state = r2)
    (h3 : getQueueArn m.sqsClient queueURL r2.state = r3)
    (h4 : m.subscribe topicARN queueARN raw r3.state = r4)
    (h5 : getPolicyContent unmarshal marshal m.sqsClient queueURL topicARN r4.state = r5)
    (h6 : setTopicPolicy m.sqsClient queueURL policy r5.state = r6) :
    (r1.value = some (t1, some e) →
        (Manager.SubscribeQueueToTopic unmarshal marshal m queueName topicName raw w).value =
            some (some e) ∧
          (Manager.SubscribeQueueToTopic unmarshal marshal m queueName topicName raw w).calls =
            r1.calls) ∧
      (r1.value = some (topicARN, none) → r2.value = some (t2, some e) →
        (Manager.SubscribeQueueToTopic unmarshal marshal m queueName topicName raw w).value =
            some (some e) ∧
          (Manager.SubscribeQueueToTopic unmarshal marshal m queueName topicName raw w).calls =
            r1.calls ++ r2.calls) ∧
      (r1.value = some (topicARN, none) → r2.value = some (queueURL, none) →
        r3.value = some (t3, some e) →
        (Manager.SubscribeQueueToTopic unmarshal marshal m queueName topicName raw w).value =
            some (some e) ∧
          (Manager.SubscribeQueueToTopic unmarshal marshal m queueName topicName raw w).calls =
            r1.calls ++ r2.calls ++ r3.calls) ∧
      (r1.value = some (topicARN, none) → r2.value = some (queueURL, none) →
        r3.value = some (queueARN, none) → r4.value = some (out, some e) →
        (Manager.SubscribeQueueToTopic unmarshal marshal m queueName topicName raw w).value =
            some (some e) ∧
          (Manager.SubscribeQueueToTopic unmarshal marshal m queueName topicName raw w).calls =
            r1.calls ++ r2.calls ++ r3.calls ++ r4.calls) ∧
      (r1.value = some (topicARN, none) → r2.value = some (queueURL, none) →
        r3.value = some (queueARN, none) → r4.value = some (out4, none) →
        r5.value = some (t5, some e) →
        (Manager.SubscribeQueueToTopic unmarshal marshal m queueName topicName raw w).value =
            some (some e) ∧
          (Manager.SubscribeQueueToTopic unmarshal marshal m queueName topicName raw w).calls =
            r1.calls ++ r2.calls ++ r3.calls ++ r4.calls ++ r5.calls) ∧
      (r1.value = some (topicARN, none) → r2.value = some (queueURL, none) →
        r3.value = some (queueARN, none) → r4.value = some (out4, none) →
        r5.value = some (policy, none) →
        (Manager.SubscribeQueueToTopic unmarshal marshal m queueName topicName raw w).value =
            r6.value ∧
          (Manager.SubscribeQueueToTopic unmarshal marshal m queueName topicName raw w).calls =
            r1.calls ++ r2.calls ++ r3.calls ++ r4.calls ++ r5.calls ++ r6.calls) := by
  subst h1 h2 h3 h4 h5 h6
  refine ⟨?_, ?_, ?_, ?_, ?_, ?_⟩
  · intro e1
    unfold Manager.SubscribeQueueToTopic
    simp [e1]
  · intro e1 e2
    unfold Manager.SubscribeQueueToTopic
    simp [e1, e2]
  · intro e1 e2 e3
    unfold Manager.SubscribeQueueToTopic
    simp [e1, e2, e3]
  · intro e1 e2 e3 e4
    unfold Manager.SubscribeQueueToTopic
    simp [e1, e2, e3, e4]
  · intro e1 e2 e3 e4 e5
    unfold Manager.SubscribeQueueToTopic
    simp [e1, e2, e3, e4, e5]
  · intro e1 e2 e3 e4 e5
    unfold Manager.SubscribeQueueToTopic
    simp [e1, e2, e3, e4, e5]

set_option maxRecDepth 100000 in
/-- C22: a run of `SubscribeQueueToTopic` in which the look-up of the queue
ARN made while building the policy fails.  The method does not return that
error: it goes on to read the policy and to write a policy whose statement
has the empty text as `Resource`, and returns nil. -/
theorem subscribe_drops_failed_arn_lookup :
    (flakySQSClient.GetQueueAttributes
        { AttributeNames := ["QueueArn"], QueueUrl := some "https://sqs.test/test-queue" }
        4).1.2 = some awsError ∧
      (Manager.SubscribeQueueToTopic testUnmarshalPolicy testMarshalPolicy flakyManager
        "test-queue" "test-topic" false 0).value = some none ∧
      (Manager.SubscribeQueueToTopic testUnmarshalPolicy testMarshalPolicy flakyManager
        "test-queue" "test-topic" false 0).calls =
        [AwsCall.CreateTopic { Name := some "test-topic", Tags := [] },
         AwsCall.GetQueueUrl { QueueName := some "test-queue" },
         AwsCall.GetQueueAttributes
          { AttributeNames := ["QueueArn"], QueueUrl := some "https://sqs.test/test-queue" },
         AwsCall.Subscribe
          { TopicArn := some "arn:aws:sns:test-topic", Protocol := some "sqs",
            Endpoint := some "arn:https://sqs.test/test-queue",
            Attributes := [("RawMessageDelivery", "false")] },
         AwsCall.GetQueueAttributes
          { AttributeNames := ["QueueArn"], QueueUrl := some "https://sqs.test/test-queue" },
         AwsCall.GetQueueAttributes
          { AttributeNames := ["Policy"], QueueUrl := some "https://sqs.test/test-queue" },
         AwsCall.SetQueueAttributes
          { QueueUrl := some "https://sqs.test/test-queue",
            Attributes := [("Policy", (testMarshalPolicy
              { Version := "2012-10-17", ID := "arn:test-queue/SQSDefaultPolicy",
                Statement := [topicStatement "" "arn:aws:sns:test-topic"] }).1)] }] := by
  decide

set_option maxRecDepth 100000 in
/-- C25: the policy that `SubscribeQueueToTopic` writes for a queue without a
policy, over the service of the examples.  It has `Version` "2012-10-17"
and one statement with `Effect` "Allow", `Action` "SQS:SendMessage" and the
topic ARN as `aws:SourceArn`; the `Service` of its `Principal` is
"sns.amazonaws.com", not "*", and its `Resource` is the ARN of the queue,
not the URL of the queue. -/
theorem subscribe_policy_of_new_queue :
    (Manager.SubscribeQueueToTopic testUnmarshalPolicy testMarshalPolicy testManager
        "test-queue" "test-topic" false 0).value = some none ∧
      (Manager.SubscribeQueueToTopic testUnmarshalPolicy testMarshalPolicy testManager
        "test-queue" "test-topic" false 0).calls.getLast? =
        some (AwsCall.SetQueueAttributes
          { QueueUrl := some "https://sqs.test/test-queue",
            Attributes := [("Policy", (testMarshalPolicy
              { Version := "2012-10-17", ID := "arn:test-queue/SQSDefaultPolicy",
                Statement :=
                  [{ Sid := "Sid1580665629194", Effect := "Allow",
                     Principal := { Service := "sns.amazonaws.com" },
                     Action := "SQS:SendMessage",
                     Resource := "arn:https://sqs.test/test-queue",
                     Condition :=
                      { ArnEquals := { AwsSourceArn := "arn:aws:sns:test-topic" } } }] }).1)] }) ∧
      (testMarshalPolicy
        { Version := "2012-10-17", ID := "arn:test-queue/SQSDefaultPolicy",
          Statement :=
            [{ Sid := "Sid1580665629194", Effect := "Allow",
               Principal := { Service := "sns.amazonaws.com" },
               Action := "SQS:SendMessage",
               Resource := "arn:https://sqs.test/test-queue",
               Condition :=
                { ArnEquals := { AwsSourceArn := "arn:aws:sns:test-topic" } } }] }).1 ≠
        (testMarshalPolicy
          { Version := "2012-10-17", ID := "arn:test-queue/SQSDefaultPolicy",
            Statement :=
              [{ Sid := "Sid1580665629194", Effect := "Allow",
                 Principal := { Service := "*" },
                 Action := "SQS:SendMessage",
                 Resource := "https://sqs.test/test-queue",
                 Condition :=
                  { ArnEquals := { AwsSourceArn := "arn:aws:sns:test-topic" } } }] }).1 := by
  decide

end Zaws
